import Mathlib

/-!
# Office-hour simulator: the heuristic scoring engine of `src/main.js`

A shallow embedding of the local heuristic engine (`clamp`, `updateFavorability`,
`analyzeMessageContent`, `detectLying`, `getProfessorResponse`), of the outcome functions
(`initialFavorabilityFromStats`, `computeOutcome`, `randomBonusOpportunity`), of a turn
through the backend (`callProfessorAIForTurn`, `handleUserSubmit`), of the session handlers
(`resetGameState`, the setup form, `endGame`) and of the `/api-professor` handler of
`src/api/professor.js` up to its remote call, with theorems about them.

Modelling conventions

* A JavaScript string is the list of its characters (`String.data`); its `length` counts
  UTF-16 code units (`jsLength`).
* A JavaScript number is the rational number it denotes (`ℚ`); `NaN` and the infinities are
  not represented.  The engine is given twice: first with exact arithmetic, then, under
  `Binary64`, with every sum, difference and product rounded to the nearest binary64 number
  (`detectLying`, the lying branch, the bonus stage, `getProfessorResponse`).  What is stated
  on the exact functions are formulas, branch choices and ranges; where the rounding decides
  (a comparison at its boundary, a bound that is reached), the statement is on the `Binary64`
  functions.  `Math.random()` is an explicit argument: the engine receives the successive
  draws `r1`, `r2` it would obtain.
* The module-level variables (`currentRound`, `favorability`, `studentConfig`, `language`,
  `gameOver`, `history`) are the fields of `GameState`, passed explicitly; DOM, audio and
  timers are left out.
* What the backend delivers is an explicit argument (`AIResponse`); a promise that rejects
  is `none`, and a turn is followed to the end of its timer.
* A regular expression is embedded as the matcher it denotes: an alternation of literals is
  a substring test, the two patterns with structure (`最.*教授`, `gpa\s*([0-4]\.\d{1,2})`)
  are explicit left-to-right matchers.
-/

namespace OfficeHour

/-! ## Strings -/

/-- Number of UTF-16 code units of one character. -/
def codeUnits (c : Char) : Nat :=
  if c.toNat < 65536 then 1 else 2

/-- The `length` of a JavaScript string. -/
def jsLength (s : List Char) : Nat :=
  (s.map codeUnits).sum

/-- Lower-casing of one character, as `String.prototype.toLowerCase` maps it.  ASCII capitals
go to ASCII small letters; the only other characters whose lower case contains an ASCII
letter are the Kelvin sign (U+212A, to `k`) and the dotted capital I (U+0130, to `i` followed
by U+0307).  Every remaining character is kept: its lower case, if it differs, is a
non-ASCII letter that no pattern of the engine mentions. -/
def lowerChar (c : Char) : List Char :=
  if 65 ≤ c.toNat ∧ c.toNat ≤ 90 then [Char.ofNat (c.toNat + 32)]
  else if c.toNat = 8490 then ['k']
  else if c.toNat = 304 then ['i', Char.ofNat 775]
  else [c]

/-- Model of `text.toLowerCase()`. -/
def toLowerCase (s : List Char) : List Char :=
  s.flatMap lowerChar

/-- Does `s` begin with `pat`? -/
def startsWith : List Char → List Char → Bool
  | _, [] => true
  | [], _ :: _ => false
  | c :: cs, p :: ps => c == p && startsWith cs ps

/-- Does `pat` occur in `s` as a contiguous substring?  This is what `/pat/.test(s)` decides
for a literal pattern. -/
def includes : List Char → List Char → Bool
  | [], pat => startsWith [] pat
  | c :: cs, pat => startsWith (c :: cs) pat || includes cs pat

/-- The regular expression `/p1|p2|...|pn/` of literal alternatives, as `.test`. -/
def testAny (pats : List String) (s : List Char) : Bool :=
  pats.any fun p => includes s p.data

/-- The characters matched by `\s`, which are also those removed by `trim()`:
ECMAScript WhiteSpace and LineTerminator. -/
def isWhiteSpace (c : Char) : Bool :=
  let n := c.toNat
  (9 ≤ n && n ≤ 13) || n == 32 || n == 160 || n == 5760 || (8192 ≤ n && n ≤ 8202) ||
    n == 8232 || n == 8233 || n == 8239 || n == 8287 || n == 12288 || n == 65279

/-- The characters that `.` does not match: ECMAScript LineTerminator. -/
def isLineTerminator (c : Char) : Bool :=
  let n := c.toNat
  n == 10 || n == 13 || n == 8232 || n == 8233

/-- The class `[0-9]`, which is `\d`. -/
def isDigit (c : Char) : Bool :=
  48 ≤ c.toNat && c.toNat ≤ 57

/-- The class `[a-z0-9\s]` under the `i` flag (no `u` flag): ASCII letters of either case,
ASCII digits and white space. -/
def isAlnumOrSpace (c : Char) : Bool :=
  let n := c.toNat
  (97 ≤ n && n ≤ 122) || (65 ≤ n && n ≤ 90) || isDigit c || isWhiteSpace c

/-- Model of `s.trim()`. -/
def trim (s : List Char) : List Char :=
  ((s.dropWhile isWhiteSpace).reverse.dropWhile isWhiteSpace).reverse

/-! ## Numbers -/

/-- Model of `clamp(value, min, max)`: `Math.min(max, Math.max(min, value))`. -/
def clamp (value lo hi : ℚ) : ℚ :=
  min hi (max lo value)

/-- Value of a decimal digit character. -/
def digitValue (c : Char) : Nat :=
  c.toNat - 48

/-- Value of a run of decimal digits. -/
def parseDigits (ds : List Char) : Nat :=
  ds.foldl (fun n c => 10 * n + digitValue c) 0

/-- The unsigned decimal literal (`digits`, `digits.digits`, `.digits`) that is the longest
such prefix of `s`: the value of its digits read as one integer, and the number of digits
after the point; `none` when `s` has no such prefix. -/
def parseDecimal (s : List Char) : Option (Nat × Nat) :=
  let ip := s.takeWhile isDigit
  let fp :=
    match s.dropWhile isDigit with
    | c :: t => if c = '.' then t.takeWhile isDigit else []
    | [] => []
  if ip = [] ∧ fp = [] then none else some (parseDigits (ip ++ fp), fp.length)

/-- Model of `parseFloat` on unsigned decimal literals: the value of the longest such prefix,
and `none` (for `NaN`) when there is none.  Signs, exponents, leading white space and
`Infinity` are not modelled; `detectLying` only passes captures of `[0-4]\.\d{1,2}`. -/
def parseFloat (s : List Char) : Option ℚ :=
  (parseDecimal s).map fun nk => (nk.1 : ℚ) / (10 : ℚ) ^ nk.2

/-! ## State -/

/-- The object stored in `studentConfig`. -/
structure StudentConfig where
  name : String
  gpa : ℚ
  attendance : ℚ

/-- A value as `JSON.parse` or a property access delivers it: `undefined` for an absent
property, `object` for any array or object (whose content is never inspected). -/
inductive JsValue where
  | undefined
  | null
  | bool (b : Bool)
  | number (q : ℚ)
  | string (s : String)
  | object
  deriving DecidableEq

/-- Is the value truthy, as `||` and `!` test it? -/
def JsValue.truthy : JsValue → Bool
  | .undefined => false
  | .null => false
  | .bool b => b
  | .number q => decide (q ≠ 0)
  | .string s => decide (s ≠ "")
  | .object => true

/-- Model of `a || b`. -/
def JsValue.orElse (a b : JsValue) : JsValue :=
  if a.truthy then a else b

/-- One entry of `history`; `content` is a string for every entry the front end writes
itself, and whatever the backend sent as reply otherwise. -/
structure HistoryEntry where
  role : String
  content : JsValue

/-- The module-level mutable variables of `main.js`. -/
structure GameState where
  currentRound : Nat
  favorability : ℚ
  studentConfig : Option StudentConfig
  language : String
  gameOver : Bool
  history : List HistoryEntry

/-- The constant `MAX_ROUNDS`. -/
def MAX_ROUNDS : Nat := 10

/-- Model of `updateFavorability(delta)`: the assignment to `favorability`; the rest of the
function drives the DOM and the sound effects. -/
def updateFavorability (st : GameState) (delta : ℚ) : GameState :=
  { st with favorability := clamp (st.favorability + delta) 0 100 }

/-! ## The analyzer -/

/-- The object returned by `analyzeMessageContent`. -/
structure Features where
  mentionLetter : Bool
  greeting : Bool
  thanks : Bool
  honesty : Bool
  flattery : Bool
  effort : Bool
  future : Bool
  panic : Bool
  apology : Bool
  joke : Bool
  nonsense : Bool
  deriving DecidableEq

/-- The tail `.*教授` of the last flattery alternative: some characters other than line
terminators, then the literal. -/
def dotStarThen (pat : List Char) : List Char → Bool
  | [] => startsWith [] pat
  | c :: cs => startsWith (c :: cs) pat || (!isLineTerminator c && dotStarThen pat cs)

/-- The alternative `最.*教授`, as `.test`. -/
def testZuiProfessor : List Char → Bool
  | [] => false
  | c :: cs => (c == '最' && dotStarThen "教授".data cs) || testZuiProfessor cs

/-- The pattern `/^[a-z0-9\s]*$/i`, as `.test`. -/
def testAlnumOnly (s : List Char) : Bool :=
  s.all isAlnumOrSpace

/-- Model of `analyzeMessageContent(text)`. -/
def analyzeMessageContent (text : String) : Features :=
  let lower := toLowerCase text.data
  { mentionLetter := testAny ["letter", "reference", "recommend", "推薦", "referee"] lower
    greeting :=
      testAny ["hello", "hi", "good morning", "good afternoon", "prof", "sir", "教授", "老師"] lower
    thanks := testAny ["thank", "appreciate", "grateful", "多謝", "感謝"] lower
    honesty := testAny ["honest", "truth", "frank", "老實", "坦白"] lower
    flattery :=
      testAny ["best professor", "favorite professor", "admire", "respect", "感激", "敬佩"] lower
        || testZuiProfessor lower
    effort :=
      testAny ["worked hard", "put in effort", "study group", "project", "assignment",
        "office hour", "問問題", "project", "小組"] lower
    future :=
      testAny ["master", "postgraduate", "graduate program", "phd", "mfin", "meng", "msc",
        "研究生", "碩士", "pg", "postgrad"] lower
    panic :=
      testAny ["urgent", "deadline", "tomorrow", "last minute", "panic", "急", "死線", "爆炸"] lower
    apology := testAny ["sorry", "apologise", "apologize", "不好意思", "對不起"] lower
    joke := testAny ["haha", "lol", "jk", "just kidding", "笑", "哈哈"] lower
    nonsense := testAlnumOnly lower && decide (jsLength (trim lower) ≤ 2) }

/-! ## The lie detector -/

/-- The fixed attendance phrases of `detectLying`. -/
def attendancePhrases : List String :=
  ["every class", "never miss", "100% attendance", "always attend", "全勤", "每一堂"]

/-- The class `[0-4]`. -/
def isDigit0to4 (c : Char) : Bool :=
  48 ≤ c.toNat && c.toNat ≤ 52

/-- The group `([0-4]\.\d{1,2})` at the start of `s`: the captured text, the quantifier
`{1,2}` being greedy. -/
def matchFigure : List Char → Option (List Char)
  | d0 :: p :: d1 :: rest =>
    if isDigit0to4 d0 && p == '.' && isDigit d1 then
      match rest with
      | d2 :: _ => if isDigit d2 then some [d0, p, d1, d2] else some [d0, p, d1]
      | [] => some [d0, p, d1]
    else none
  | _ => none

/-- The pattern `gpa\s*([0-4]\.\d{1,2})` anchored at the start of `s`: its capture. -/
def matchGpaAt (s : List Char) : Option (List Char) :=
  if startsWith s "gpa".data then matchFigure ((s.drop 3).dropWhile isWhiteSpace) else none

/-- Model of `lower.match(/gpa\s*([0-4]\.\d{1,2})/)`, reduced to the capture `gpaMatch[1]`:
the match at the leftmost position where the pattern matches, `none` for `null`. -/
def gpaMatch : List Char → Option (List Char)
  | [] => none
  | c :: cs =>
    match matchGpaAt (c :: cs) with
    | some fig => some fig
    | none => gpaMatch cs

/-- Model of `detectLying(text, config)`; `none` is the `null` config.  The difference is
exact here; `Binary64.detectLying` rounds it. -/
def detectLying (text : String) (config : Option StudentConfig) : Bool :=
  let lower := toLowerCase text.data
  match config with
  | none => false
  | some cfg =>
    if testAny attendancePhrases lower && decide (cfg.attendance < 80) then true
    else
      match gpaMatch lower with
      | some fig =>
        match parseFloat fig with
        | some claimed => decide (claimed - cfg.gpa > 2 / 5)
        | none => false
      | none => false

/-! ## The scoring policy -/

/-- The object returned by `getProfessorResponse`. -/
structure ProfessorResponse where
  response : String
  thought : String
  delta : ℚ

/-- The constant `politeOpening` of `getProfessorResponse`. -/
def politeOpening (language : String) : String :=
  if language = "zh" then "先自我介紹一下，讓我知道你是哪一位、上過哪一科。"
  else "Let's start with a quick self‑introduction and remind me which course you took with me."

/-- The branch `currentRound === 1 && !features.mentionLetter`. -/
def introductionBranch (language : String) (features : Features) : ProfessorResponse :=
  { response :=
      if language = "zh" then "好的，同學。" ++ politeOpening language
      else "Alright. " ++ politeOpening language
    thought :=
      if language = "zh" then "至少有問候，比直接衝進來要推薦信好一點。"
      else "At least they didn't open with \"please write me a letter\" immediately."
    delta := 0 + (if features.greeting then 5 else 2) + (if features.thanks then 3 else 0) }

/-- The branch `features.nonsense || userText.trim().length === 0`. -/
def nonsenseBranch (language : String) : ProfessorResponse :=
  { response :=
      if language = "zh" then
        "嗯？我猜這不是你平時在 tutorial 裡的表現吧。我們試試用完整句子，好嗎？"
      else
        "Hm? I assume that's not how you wrote answers in my tutorial. Let's try full sentences, shall we?"
    thought :=
      if language = "zh" then "還以為是 spam bot 進來了。"
      else "For a second I thought a spam bot somehow joined my office hour."
    delta := 0 - 3 }

/-- The branch `if (lying)`: `r1` is the draw compared with `0.6`, `r2` the draw that scales
the penalty.  The arithmetic is exact here; `Binary64.lyingBranch` rounds it. -/
def lyingBranch (language : String) (r1 r2 : ℚ) : ProfessorResponse :=
  if r1 < 3 / 5 then
    { response :=
        if language = "zh" then
          "同學，你說「幾乎每一堂都有來」，但我的出席紀錄好像不是這樣寫的喔。作為金融人，我們對數字應該誠實一點。"
        else
          "You mentioned you \"almost never missed a class\", but my attendance sheet tells a very different story. As finance people, we should at least be honest with numbers."
      thought :=
        if language = "zh" then "誠信這一關都過不了，寫推薦信有點心虛。"
        else "If we can't clear the honesty bar, it's hard to write a convincing recommendation."
      delta := 0 - (18 + r2 * 6) }
  else
    { response :=
        if language = "zh" then
          "哈哈，我知道這門課九點鐘很痛苦，但我們不用把 60% 說成 100%。你可以直接坦白。"
        else
          "Haha, I know a 9am class is painful, but we don't have to turn 60% into 100%. You can just be frank with me."
      thought :=
        if language = "zh" then "至少他/她願意聊，還有得救。"
        else "At least they're still here with some courage left. Could be saved."
      delta := 0 - (8 + r2 * 6) }

/-- The chain `if (features.mentionLetter) ... else if ... else ...`: reply, thought and the
value of `delta` when the chain is left. -/
def topicBranch (language : String) (features : Features) : ProfessorResponse :=
  if features.mentionLetter then
    { response :=
        if language = "zh" then
          "所以你今天是想談推薦信的事，對吧？在我答應之前，我想先了解幾件事：你在課堂上的表現、你真正想追求的方向，以及為什麼會找到我。可以多說一點嗎？"
        else
          "So you're here about a recommendation letter, right? Before I say yes or no, I need to know a few things: how you actually performed in my course, what you're truly aiming for, and why you think I'm the right person to write it. Tell me more."
      thought :=
        if language = "zh" then "又一位為了 exchange 或 IB 而出現的同學，不過至少他/她先講清楚目的。"
        else "Another student chasing exchange or IB, but at least they're being upfront."
      delta := 0 + 6 + (if features.greeting then 2 else 0) + (if features.thanks then 2 else 0) }
  else if features.effort || features.future then
    { response :=
        if language = "zh" then
          "我欣賞你有認真想過自己的路向。你可以具體一點說，在我的課裡你做過哪一樣令你自己覺得「值得被寫進推薦信」的事嗎？"
        else
          "I appreciate that you've thought about your path. Can you be concrete: what did you actually do in my course that you feel is \"letter‑worthy\"?"
      thought :=
        if language = "zh" then "有思考未來，不只是「我要高分」，這類學生寫起來比較有故事。"
        else "At least they're not only here for the grade. Story potential detected."
      delta := 0 + 8 }
  else if features.panic then
    { response :=
        if language = "zh" then
          "臨急抱佛腳是 HKU 傳統文化之一，不過推薦信這種東西，通常需要時間累積。我想聽聽，你之前有沒有主動參與課堂、問問題、或者跟我談過？"
        else
          "Last‑minute panic is a proud HKU tradition, but recommendation letters usually rely on more than panic. Tell me: have you engaged in class, asked questions, or talked to me before this week?"
      thought :=
        if language = "zh" then "如果又是「deadline 明天才想起」，那就要看他/她說服力有多強了。"
        else "If this is another \"deadline is tomorrow\" case, let's see how persuasive they can be."
      delta := 0 - 2 }
  else if features.apology then
    { response :=
        if language = "zh" then
          "知道自己來得晚，已經比很多人有自覺。重點是，你接下來想怎樣令我相信，你值得我花時間幫你寫一封有內容的信？"
        else
          "Recognizing you're a bit late is already more self‑aware than many. The real question is: how will you convince me you're worth the time for a meaningful letter?"
      thought :=
        if language = "zh" then "有歉意總比理所當然好。看他/她怎樣補救。"
        else "At least there's some humility. Let's see if they can back it up."
      delta := 0 + 5 }
  else
    { response :=
        if language = "zh" then
          "好，我大概明白你的情況。不過單靠一句話，很難判斷你是否適合拿到推薦信。你可以舉一兩個在我課堂或 project 裡的具體例子嗎？"
        else
          "Alright, I see. But from a couple of sentences it's hard to judge whether you're someone I can genuinely recommend. Could you give me one or two concrete examples from my class or the project?"
      thought :=
        if language = "zh" then "希望不是只在 Canvas 上存在的名字。"
        else "I wonder if they existed anywhere beyond the Canvas gradebook."
      delta := 0 + 1 }

/-- The statements after the chain: the four feature boosts and the noise, added to the
`delta` the chain produced; `r1` is the draw of `Math.random()`.  The sum is exact here;
`Binary64.bonusStage` rounds it. -/
def bonusStage (features : Features) (r1 : ℚ) (delta : ℚ) : ℚ :=
  delta + (if features.flattery then 4 else 0) + (if features.thanks then 2 else 0)
    + (if features.effort then 3 else 0) + (if features.future then 2 else 0)
    + (r1 - 1 / 2) * 2

/-- Model of `getProfessorResponse(userText)`, reading `currentRound`, `language` and
`studentConfig` from the state.  `r1` and `r2` are the values of the first and the second
call of `Math.random()`; a branch that makes fewer calls ignores the rest. -/
def getProfessorResponse (st : GameState) (userText : String) (r1 r2 : ℚ) :
    ProfessorResponse :=
  let features := analyzeMessageContent userText
  let lying := detectLying userText st.studentConfig
  if st.currentRound = 1 ∧ features.mentionLetter = false then
    introductionBranch st.language features
  else if features.nonsense || jsLength (trim userText.data) == 0 then
    nonsenseBranch st.language
  else if lying then
    lyingBranch st.language r1 r2
  else
    let chosen := topicBranch st.language features
    { chosen with delta := bonusStage features r1 chosen.delta }

/-! ## Initial favorability and outcome -/

/-- Model of `Math.round`: the nearest integer, a tie going up. -/
def mathRound (q : ℚ) : ℚ :=
  ((⌊q + 1 / 2⌋ : ℤ) : ℚ)

/-- Model of `initialFavorabilityFromStats(config)`; `r` is the draw of `Math.random()`. -/
def initialFavorabilityFromStats (config : Option StudentConfig) (r : ℚ) : ℚ :=
  match config with
  | none => 40
  | some cfg =>
    let gpa := clamp cfg.gpa 0 (43 / 10)
    let att := clamp cfg.attendance 0 100
    let base := 35 + (gpa - 27 / 10) * 6 + (att - 60) * (15 / 100) + (r - 1 / 2) * 6
    clamp (mathRound base) 10 80

/-- Model of `computeOutcome()`, reading `favorability` from the state; `r` is the draw of
`Math.random()` made when the favorability is below 25. -/
def computeOutcome (st : GameState) (r : ℚ) : String :=
  let f := st.favorability
  if f < 25 then
    if r < 3 / 10 then "poor" else "reject"
  else if f < 38 then "reject"
  else if f ≥ 75 then "high"
  else "poor"

/-! ## A turn through the backend -/

/-- What `fetch("/api-professor", ...)` followed by `res.json()` can deliver. -/
inductive AIResponse where
  /-- The promise of `fetch` rejects. -/
  | networkError
  /-- A response with `res.ok` false. -/
  | httpError
  /-- A successful response whose body is not JSON: `res.json()` rejects. -/
  | malformedBody
  /-- A successful response whose body is the JSON `null`: reading a property of it throws. -/
  | nullBody
  /-- A successful response with any other JSON body; the four properties the front end
  reads, `undefined` when absent (all four for a number, string, boolean or array). -/
  | body (reply response thought delta : JsValue)

/-- The object `{ response, thought, delta }` a turn works with. -/
structure TurnResult where
  response : JsValue
  thought : JsValue
  delta : ℚ

/-- Model of `callProfessorAIForTurn(latestUserText)` given what the backend delivers;
`none` is a rejected promise.  `r1`, `r2` are the draws the heuristic would make. -/
def callProfessorAIForTurn (st : GameState) (latestUserText : String) (ai : AIResponse)
    (r1 r2 : ℚ) : Option TurnResult :=
  match ai with
  | .networkError => none
  | .httpError => none
  | .malformedBody => none
  | .nullBody => none
  | .body reply response thought delta =>
    some
      { response := (reply.orElse response).orElse (.string "")
        thought := thought.orElse (.string "")
        delta :=
          match delta with
          | .number q => q
          | _ => (getProfessorResponse st latestUserText r1 r2).delta }

/-- The `.catch` handler of `handleUserSubmit`: the heuristic's triple. -/
def heuristicTurn (st : GameState) (text : String) (r1 r2 : ℚ) : TurnResult :=
  let h := getProfessorResponse st text r1 r2
  { response := .string h.response, thought := .string h.thought, delta := h.delta }

/-- The triple a turn of `handleUserSubmit` uses: the one `callProfessorAIForTurn` resolves
to, or the heuristic's when its promise rejects. -/
def turnResult (st : GameState) (text : String) (ai : AIResponse) (r1 r2 : ℚ) : TurnResult :=
  match callProfessorAIForTurn st text ai r1 r2 with
  | some t => t
  | none => heuristicTurn st text r1 r2

/-- Model of `detectLanguageFromText(text)`. -/
def detectLanguageFromText (text : List Char) : String :=
  if text.any fun c => 19968 ≤ c.toNat && c.toNat ≤ 40959 then "zh" else "en"

/-- Model of `handleUserSubmit()` with `inputValue` the content of the chat box, run to the
end of its timer: the new state, and whether `showEndOverlay()` was called. -/
def handleUserSubmit (st : GameState) (inputValue : String) (ai : AIResponse) (r1 r2 : ℚ) :
    GameState × Bool :=
  if st.gameOver then (st, false)
  else
    let text := String.mk (trim inputValue.data)
    if text = "" then (st, false)
    else
      match st.studentConfig with
      | none => (st, false)
      | some _ =>
        let st1 :=
          if st.currentRound = 1 then { st with language := detectLanguageFromText text.data }
          else st
        let st2 := { st1 with history := st1.history ++ [⟨"student", .string text⟩] }
        let result := turnResult st2 text ai r1 r2
        let st3 := updateFavorability st2 result.delta
        let st4 := { st3 with history := st3.history ++ [⟨"prof", result.response⟩] }
        if st4.currentRound < MAX_ROUNDS then
          ({ st4 with currentRound := st4.currentRound + 1 }, false)
        else (st4, true)

/-! ## Notions used to state the claims on the scoring policy -/

/-- A number that is an integer. -/
def IsInteger (q : ℚ) : Prop :=
  ∃ n : ℤ, q = n

/-- The class `[a-z0-9]` under the `i` flag: ASCII letters and digits. -/
def isAsciiAlnum (c : Char) : Bool :=
  let n := c.toNat
  (97 ≤ n && n ≤ 122) || (65 ≤ n && n ≤ 90) || (48 ≤ n && n ≤ 57)

/-! ## Sessions: reset, setup, end -/

/-- Model of `resetGameState()`; `r` is the draw made by `initialFavorabilityFromStats`.
The history is emptied and the professor's greeting pushed. -/
def resetGameState (st : GameState) (r : ℚ) : GameState :=
  { st with
    currentRound := 1
    gameOver := false
    favorability := initialFavorabilityFromStats st.studentConfig r
    history :=
      [⟨"prof", .string
        (if st.language = "zh" then
          "（敲門聲）請進。你好，我是羅賓教授。今天辦公時間只有一會，你有什麼事？"
        else
          "*knock knock* Come in. Hello, I'm Prof Robin. Office hour is short today — what can I help you with?")⟩] }

/-- A JavaScript number as `parseFloat` can return it. -/
inductive JsNumber where
  | nan
  | posInf
  | negInf
  | finite (q : ℚ)

/-- Model of `Number.isNaN(x)`. -/
def JsNumber.isNaN : JsNumber → Bool
  | .nan => true
  | _ => false

/-- Model of `x < c` for a finite constant `c`. -/
def JsNumber.ltConst : JsNumber → ℚ → Bool
  | .nan, _ => false
  | .posInf, _ => false
  | .negInf, _ => true
  | .finite q, c => decide (q < c)

/-- Model of `x > c` for a finite constant `c`. -/
def JsNumber.gtConst : JsNumber → ℚ → Bool
  | .nan, _ => false
  | .posInf, _ => true
  | .negInf, _ => false
  | .finite q, c => decide (q > c)

/-- Model of the `submit` handler of the setup form.  `nameValue` is the content of the name
box; `gpa` and `attendance` are the results of `parseFloat` on the two other boxes; `r` is
the draw of `resetGameState`.  A rejected form only raises an alert. -/
def setupFormSubmit (st : GameState) (nameValue : String) (gpa attendance : JsNumber)
    (r : ℚ) : GameState :=
  let name :=
    if String.mk (trim nameValue.data) = "" then "HKU Student"
    else String.mk (trim nameValue.data)
  if gpa.isNaN || attendance.isNaN then st
  else if gpa.ltConst 0 || gpa.gtConst (43 / 10) then st
  else if attendance.ltConst 0 || attendance.gtConst 100 then st
  else
    match gpa, attendance with
    | .finite g, .finite a =>
      resetGameState { st with studentConfig := some ⟨name, g, a⟩, language := "en" } r
    | _, _ => st

/-- Model of `endGame()` on the module state: the flag `gameOver`; the ending itself is
rendered in the DOM. -/
def endGame (st : GameState) : GameState :=
  if st.gameOver then st else { st with gameOver := true }

/-- The values of the module variables when the script is loaded. -/
def initialState : GameState :=
  ⟨1, 0, none, "en", false, []⟩

/-- The event handlers that change the module state. -/
inductive UserEvent where
  /-- The setup form is submitted. -/
  | setup (nameValue : String) (gpa attendance : JsNumber) (r : ℚ)
  /-- The chat box is sent (button or Enter key). -/
  | submit (inputValue : String) (ai : AIResponse) (r1 r2 : ℚ)
  /-- The play-again button is clicked. -/
  | playAgain (r : ℚ)
  /-- The see-results button is clicked. -/
  | seeResults

/-- The state after one event. -/
def applyEvent (st : GameState) : UserEvent → GameState
  | .setup nameValue gpa attendance r => setupFormSubmit st nameValue gpa attendance r
  | .submit inputValue ai r1 r2 => (handleUserSubmit st inputValue ai r1 r2).1
  | .playAgain r => resetGameState st r
  | .seeResults => endGame st

/-! ## The bonus opportunity -/

/-- The array `optionsEn`. -/
def optionsEn : List String :=
  ["Prof Robin quietly forwards your CV and transcript to a colleague coordinating a selective master's programme, adding that you \"would probably thrive in a demanding cohort\".",
   "You are invited to be a part‑time research assistant on a small project about HK retail investors – a strong signal for future research or master's applications (plus free coffee in KKL).",
   "At the end of the semester, Prof Robin nominates you for an internal scholarship and writes a short extra note to the master's admissions team highlighting your progress."]

/-- The array `optionsZh`. -/
def optionsZh : List String :=
  ["羅賓教授悄悄把你的 CV 和成績單轉給負責精選碩士課程的同事，還補上一句：「這位同學在嚴格環境裡應該會成長得不錯。」",
   "你被邀請做一個關於香港散戶投資行為的小型 RA，這對將來申請研究型或授課型碩士都是一個很好的信號，還有 KKL 免費咖啡。",
   "學期末時，羅賓教授提名你申請一個與碩士相關的獎學金，並額外寫了一段短評給招生團隊，強調你的進步。"]

/-- Model of `randomBonusOpportunity(outcomeType)`; `r` is the draw of `Math.random()`.  An
index outside the array reads `undefined`. -/
def randomBonusOpportunity (st : GameState) (outcomeType : JsValue) (r : ℚ) : JsValue :=
  if outcomeType ≠ .string "high" then .string ""
  else
    let list := if st.language = "zh" then optionsZh else optionsEn
    let idx : ℤ := ⌊r * (list.length : ℚ)⌋
    if idx < 0 then .undefined
    else
      match list[idx.toNat]? with
      | some s => .string s
      | none => .undefined

/-! ## The `/api-professor` handler -/

/-- What the call of the remote model delivers to `handler`. -/
inductive RemoteResult where
  /-- The call throws (`fetch` or `response.json()` rejects). -/
  | failed
  /-- A response with `response.ok` false, and its text. -/
  | notOk (text : String)
  /-- A successful response; `content` is the message content parsed by `JSON.parse`,
  serialised again, and `none` when parsing it throws. -/
  | content (parsed : Option String)

/-- What `handler` writes, and whether it called the remote model. -/
structure HandlerResult where
  statusCode : Nat
  /-- The `error` field of the JSON body, when the body has one. -/
  error : Option String
  /-- The body, when it is the parsed content of the model. -/
  body : Option String
  remoteCalled : Bool

/-- A value as `JSON.parse` builds it; an object is given by its own properties (a key
listed twice counts by its first entry). -/
inductive Json where
  | null
  | bool (b : Bool)
  | number (q : ℚ)
  | string (s : String)
  | array (items : List Json)
  | object (props : List (String × Json))

/-- The property `v[key]` for the keys `handler` reads (`phase`, `studentConfig`, `name`,
`favorability`, `round`, `maxRounds`, `history`, `content`), none of which a prototype
defines: the own property of an object, and `none`, for `undefined`, otherwise. -/
def Json.prop : Json → String → Option Json
  | .object props, key => (props.find? fun kv => kv.1 == key).map fun kv => kv.2
  | _, _ => none

/-- Is the value truthy, as `||` and `!` test it? -/
def Json.truthy : Json → Bool
  | .null => false
  | .bool b => b
  | .number q => decide (q ≠ 0)
  | .string s => decide (s ≠ "")
  | .array _ => true
  | .object _ => true

/-- Is the value the string `s`? -/
def Json.isString : Json → String → Bool
  | .string t, s => t == s
  | _, _ => false

mutual
/-- Does the conversion to a string, as a template literal performs it, throw a `TypeError`?
An object throws exactly when it has an own property `toString` (no JSON value is callable,
and `valueOf` gives back the object); an array joins the conversions of its elements. -/
def Json.toStringThrows : Json → Bool
  | .array items => Json.joinThrows items
  | .object props => props.any fun kv => kv.1 == "toString"
  | _ => false
/-- Does `Array.prototype.join` throw on these elements?  It skips `null`. -/
def Json.joinThrows : List Json → Bool
  | [] => false
  | .null :: rest => Json.joinThrows rest
  | v :: rest => v.toStringThrows || Json.joinThrows rest
end

/-- The value of `req.body || {}`; `none` is a request without `body`. -/
def payloadOf (body : Option Json) : Json :=
  match body with
  | some b => if b.truthy then b else .object []
  | none => .object []

/-- Does the substitution of a destructured variable into the prompt throw?  `none` is
`undefined`, replaced by the default of the destructuring (a number, or the empty array). -/
def substitutionThrows : Option Json → Bool
  | some v => v.toStringThrows
  | none => false

/-- Does the substitution of `studentConfig?.name || "the student"` into the prompt throw? -/
def nameThrows (studentConfig : Option Json) : Bool :=
  match studentConfig with
  | none => false
  | some .null => false
  | some v =>
    match v.prop "name" with
    | some n => n.truthy && n.toStringThrows
    | none => false

/-- Does `history.map((m) => ...)` throw?  It does when `history` is present and not an array
(no other JSON value has a callable `map`), when an element is `null` (`m.role`), and when the
conversion of `m.content` throws. -/
def historyThrows : Option Json → Bool
  | none => false
  | some (.array items) =>
    items.any fun m =>
      match m with
      | .null => true
      | _ => substitutionThrows (m.prop "content")
  | some _ => true

/-- Does building `systemPrompt` throw a `TypeError`?  The substitutions of `langTag`, `gpa`
and `attendance` are strings or numbers and cannot. -/
def promptThrows (payload : Json) : Bool :=
  nameThrows (payload.prop "studentConfig") ||
    substitutionThrows (payload.prop "favorability") ||
    substitutionThrows (payload.prop "round") ||
    substitutionThrows (payload.prop "maxRounds") ||
    historyThrows (payload.prop "history")

/-- Is `!phase || !["turn", "final"].includes(phase)` false? -/
def phaseAccepted (phase : Option Json) : Bool :=
  match phase with
  | some v => v.truthy && (v.isString "turn" || v.isString "final")
  | none => false

/-- Model of `handler(req, res)`: `method` is `req.method`, `apiKey` the environment
variable `DEEPSEEK_API_KEY` (`none` when unset), `body` is `req.body`, `remote` what the
remote call delivers if it is made.  The result is `none` when the function throws before it
has written anything (the promise it returns is rejected): building the prompt comes after
the three checks and before the `try` block with the remote call. -/
def handler (method : String) (apiKey : Option String) (body : Option Json)
    (remote : RemoteResult) : Option HandlerResult :=
  if method ≠ "POST" then some ⟨405, some "Method not allowed", none, false⟩
  else if apiKey = none ∨ apiKey = some "" then
    some ⟨500,
      some "DEEPSEEK_API_KEY is not set. Please configure it as an environment variable on your server.",
      none, false⟩
  else if !phaseAccepted ((payloadOf body).prop "phase") then
    some ⟨400, some "phase must be 'turn' or 'final'", none, false⟩
  else if promptThrows (payloadOf body) then none
  else
    match remote with
    | .failed => some ⟨500, some "Unexpected error while calling DeepSeek API", none, true⟩
    | .notOk _ => some ⟨502, some "DeepSeek API request failed", none, true⟩
    | .content none =>
      some ⟨500, some "Failed to parse DeepSeek response as JSON", none, true⟩
    | .content (some parsed) => some ⟨200, none, some parsed, true⟩

/-! ## Binary64 arithmetic

A finite binary64 number is represented by the rational number it denotes.  The definitions
above add, subtract and multiply exactly; the ones below round every result as IEEE 754
does, and restate the three functions whose result the rounding can change. -/

/-- Nearest integer, a tie going to the even one. -/
def roundHalfEven (x : ℚ) : ℤ :=
  if x - ⌊x⌋ < 1 / 2 then ⌊x⌋
  else if 1 / 2 < x - ⌊x⌋ then ⌊x⌋ + 1
  else if ⌊x⌋ % 2 = 0 then ⌊x⌋ else ⌊x⌋ + 1

/-- Exponent of the last binary place binary64 keeps of a positive number: 52 below the
exponent of the number, and -1074 throughout the subnormal range. -/
def ulpExponent (x : ℚ) : ℤ :=
  max (Int.log 2 x) (-1022) - 52

/-- The binary64 number nearest to `x`, for `x` not negative. -/
def roundMagnitude (x : ℚ) : ℚ :=
  (roundHalfEven (x / 2 ^ ulpExponent x) : ℚ) * 2 ^ ulpExponent x

/-- The binary64 number nearest to `q`, a tie going to the even significand.  Magnitudes from
2^1024 on, which binary64 turns into an infinity, do not arise in this program. -/
def binary64 (q : ℚ) : ℚ :=
  if q < 0 then -roundMagnitude (-q) else roundMagnitude q

/-- Model of `a + b` on binary64 numbers. -/
def fadd (a b : ℚ) : ℚ :=
  binary64 (a + b)

/-- Model of `a - b` on binary64 numbers. -/
def fsub (a b : ℚ) : ℚ :=
  binary64 (a - b)

/-- Model of `a * b` on binary64 numbers. -/
def fmul (a b : ℚ) : ℚ :=
  binary64 (a * b)

/-- Model of `if (c) delta += k`. -/
def addIf (c : Bool) (delta k : ℚ) : ℚ :=
  if c then fadd delta k else delta

/-- Model of `detectLying(text, config)` in binary64 arithmetic: `parseFloat` delivers the
binary64 number nearest to the figure, the subtraction is rounded, and the literal `0.4` is
the binary64 number nearest to 2/5.  `config.gpa` and `config.attendance` are the binary64
numbers the config holds. -/
def Binary64.detectLying (text : String) (config : Option StudentConfig) : Bool :=
  let lower := toLowerCase text.data
  match config with
  | none => false
  | some cfg =>
    if testAny attendancePhrases lower && decide (cfg.attendance < 80) then true
    else
      match gpaMatch lower with
      | some fig =>
        match parseFloat fig with
        | some claimed => decide (fsub (binary64 claimed) cfg.gpa > binary64 (2 / 5))
        | none => false
      | none => false

/-- The branch `if (lying)` in binary64 arithmetic: `Math.random() < 0.6` compares with the
binary64 number nearest to 3/5, and `delta -= 18 + Math.random() * 6` rounds the product, the
sum and the difference. -/
def Binary64.lyingBranch (language : String) (r1 r2 : ℚ) : ProfessorResponse :=
  if r1 < binary64 (3 / 5) then
    { response :=
        if language = "zh" then
          "同學，你說「幾乎每一堂都有來」，但我的出席紀錄好像不是這樣寫的喔。作為金融人，我們對數字應該誠實一點。"
        else
          "You mentioned you \"almost never missed a class\", but my attendance sheet tells a very different story. As finance people, we should at least be honest with numbers."
      thought :=
        if language = "zh" then "誠信這一關都過不了，寫推薦信有點心虛。"
        else "If we can't clear the honesty bar, it's hard to write a convincing recommendation."
      delta := fsub 0 (fadd 18 (fmul r2 6)) }
  else
    { response :=
        if language = "zh" then
          "哈哈，我知道這門課九點鐘很痛苦，但我們不用把 60% 說成 100%。你可以直接坦白。"
        else
          "Haha, I know a 9am class is painful, but we don't have to turn 60% into 100%. You can just be frank with me."
      thought :=
        if language = "zh" then "至少他/她願意聊，還有得救。"
        else "At least they're still here with some courage left. Could be saved."
      delta := fsub 0 (fadd 8 (fmul r2 6)) }

/-- The statements after the chain in binary64 arithmetic: the four boosts in the order of
the source, then `delta += (Math.random() - 0.5) * 2`, each operation rounded. -/
def Binary64.bonusStage (features : Features) (r1 : ℚ) (delta : ℚ) : ℚ :=
  fadd
    (addIf features.future
      (addIf features.effort
        (addIf features.thanks (addIf features.flattery delta 4) 2) 3) 2)
    (fmul (fsub r1 (1 / 2)) 2)

/-- Model of `getProfessorResponse(userText)` in binary64 arithmetic.  The introduction
branch, the nonsense branch and the chain of `topicBranch` add small integers only, which
binary64 does exactly. -/
def Binary64.getProfessorResponse (st : GameState) (userText : String) (r1 r2 : ℚ) :
    ProfessorResponse :=
  let features := analyzeMessageContent userText
  let lying := Binary64.detectLying userText st.studentConfig
  if st.currentRound = 1 ∧ features.mentionLetter = false then
    introductionBranch st.language features
  else if features.nonsense || jsLength (trim userText.data) == 0 then
    nonsenseBranch st.language
  else if lying then
    Binary64.lyingBranch st.language r1 r2
  else
    let chosen := topicBranch st.language features
    { chosen with delta := Binary64.bonusStage features r1 chosen.delta }

/-! ## Notions used to state the claims on sessions -/

/-- The student config of a state is absent or within the ranges of the setup form. -/
def ConfigInRange (st : GameState) : Prop :=
  ∀ cfg, st.studentConfig = some cfg →
    0 ≤ cfg.gpa ∧ cfg.gpa ≤ 43 / 10 ∧ 0 ≤ cfg.attendance ∧ cfg.attendance ≤ 100

/-- A pattern that cannot occur in a nonsense text: it has a character outside
`[a-z0-9\s]`, or at least 3 characters none of which is white space. -/
def keywordNotShort (p : List Char) : Bool :=
  (p.any fun c => !isAlnumOrSpace c) ||
    (decide (3 ≤ p.length) && p.all fun c => !isWhiteSpace c)

/-! ## Notions used to state the claims on the lie detector -/

/-- As the spec words it: `phrase` occurs in `text` "case-insensitively", that is some
contiguous part of `text` becomes `phrase` when its ASCII capitals are lowered. -/
def ContainsIgnoreCase (text phrase : List Char) : Prop :=
  ∃ pre mid post, text = pre ++ mid ++ post ∧ mid.map Char.toLower = phrase

/-- As the spec words it: a figure of the form `d.d` or `d.dd` with leading digit 0-4. -/
def IsGpaFigure (fig : List Char) : Prop :=
  ∃ d0 d1, isDigit0to4 d0 = true ∧ isDigit d1 = true ∧
    (fig = [d0, '.', d1] ∨ ∃ d2, isDigit d2 = true ∧ fig = [d0, '.', d1, d2])

/-- The number a figure `d.d` or `d.dd` denotes. -/
def figureValue : List Char → ℚ
  | [d0, _, d1] => (digitValue d0 : ℚ) + (digitValue d1 : ℚ) / 10
  | [d0, _, d1, d2] => (digitValue d0 : ℚ) + (digitValue d1 : ℚ) / 10 + (digitValue d2 : ℚ) / 100
  | _ => 0

/-- As the spec words it: in `lower`, after the part `pre`, there is an occurrence of "gpa",
optional white space `ws` and a figure `fig`; `post` is what follows. -/
def GpaClaimAt (lower pre ws fig post : List Char) : Prop :=
  lower = pre ++ "gpa".data ++ ws ++ fig ++ post ∧ (∀ c ∈ ws, isWhiteSpace c = true) ∧
    IsGpaFigure fig

/-- The figure of an occurrence is read in full: a figure `d.d` is not followed by a further
digit (which would make it a figure `d.dd`). -/
def FigureComplete (fig post : List Char) : Prop :=
  fig.length = 3 → ∀ c rest, post = c :: rest → isDigit c = false

/-! ## Lemmas on the branches -/

theorem clamp_bounds (v lo hi : ℚ) (h : lo ≤ hi) : lo ≤ clamp v lo hi ∧ clamp v lo hi ≤ hi := by
  unfold clamp
  exact ⟨le_min h (le_max_left lo v), min_le_left hi _⟩

theorem clamp_cases (v lo hi : ℚ) (h : lo ≤ hi) :
    clamp v lo hi = if v < lo then lo else if hi < v then hi else v := by
  unfold clamp
  split_ifs with h1 h2
  · rw [max_eq_left h1.le, min_eq_right h]
  · rw [max_eq_right (not_lt.mp h1), min_eq_left h2.le]
  · rw [max_eq_right (not_lt.mp h1), min_eq_right (not_lt.mp h2)]

theorem updateFavorability_bounds (st : GameState) (delta : ℚ) :
    0 ≤ (updateFavorability st delta).favorability ∧
      (updateFavorability st delta).favorability ≤ 100 :=
  clamp_bounds _ 0 100 (by norm_num)

theorem foldl_updateFavorability_bounds (deltas : List ℚ) (st : GameState)
    (h : 0 ≤ st.favorability ∧ st.favorability ≤ 100) :
    0 ≤ (deltas.foldl updateFavorability st).favorability ∧
      (deltas.foldl updateFavorability st).favorability ≤ 100 := by
  induction deltas generalizing st with
  | nil => exact h
  | cons d ds ih => exact ih _ (updateFavorability_bounds st d)

theorem introductionBranch_delta (language : String) (f : Features) :
    (introductionBranch language f).delta =
      (if f.greeting then 5 else 2) + (if f.thanks then 3 else 0) := by
  simp [introductionBranch]

theorem topicBranch_delta_bounds (language : String) (f : Features) :
    -2 ≤ (topicBranch language f).delta ∧ (topicBranch language f).delta ≤ 10 := by
  unfold topicBranch
  split_ifs <;> constructor <;> norm_num

theorem bonusStage_bounds (f : Features) (r1 d : ℚ) (h : 0 ≤ r1 ∧ r1 < 1) :
    d - 1 ≤ bonusStage f r1 d ∧ bonusStage f r1 d < d + 12 := by
  unfold bonusStage
  obtain ⟨h0, h1⟩ := h
  split_ifs <;> constructor <;> linarith

theorem lyingBranch_delta_bounds (language : String) (r1 r2 : ℚ) (h : 0 ≤ r2 ∧ r2 < 1) :
    -24 < (lyingBranch language r1 r2).delta ∧ (lyingBranch language r1 r2).delta ≤ -8 := by
  unfold lyingBranch
  obtain ⟨h0, h1⟩ := h
  split_ifs <;> constructor <;> simp only <;> linarith

/-! ## Claims -/

/-- C1: for a favorability in [0,100] and any delta, `updateFavorability` stores the sum
clamped to [0,100] (0 below 0, 100 above 100, the sum itself otherwise), the stored value lies
in [0,100], and so does the favorability after any finite sequence of updates. -/
theorem updateFavorability_clamped (st : GameState) (delta : ℚ)
    (h : 0 ≤ st.favorability ∧ st.favorability ≤ 100) :
    (updateFavorability st delta).favorability = clamp (st.favorability + delta) 0 100 ∧
    (updateFavorability st delta).favorability =
      (if st.favorability + delta < 0 then 0
       else if 100 < st.favorability + delta then 100 else st.favorability + delta) ∧
    (0 ≤ (updateFavorability st delta).favorability ∧
      (updateFavorability st delta).favorability ≤ 100) ∧
    ∀ deltas : List ℚ,
      0 ≤ (deltas.foldl updateFavorability st).favorability ∧
        (deltas.foldl updateFavorability st).favorability ≤ 100 :=
  ⟨rfl, clamp_cases _ 0 100 (by norm_num), updateFavorability_bounds st delta,
    fun deltas => foldl_updateFavorability_bounds deltas st h⟩

theorem updateFavorability_clamped_witness :
    ((0 : ℚ) ≤ 40 ∧ (40 : ℚ) ≤ 100) ∧
    (updateFavorability ⟨3, 40, none, "en", false, []⟩ 1000).favorability = 100 ∧
    ∀ deltas : List ℚ,
      0 ≤ (deltas.foldl updateFavorability ⟨3, 40, none, "en", false, []⟩).favorability ∧
        (deltas.foldl updateFavorability ⟨3, 40, none, "en", false, []⟩).favorability ≤ 100 := by
  have h := updateFavorability_clamped ⟨3, 40, none, "en", false, []⟩ 1000
    (by constructor <;> norm_num)
  refine ⟨by constructor <;> norm_num, ?_, h.2.2.2⟩
  rw [h.2.1]
  norm_num

/-- C2: whatever the text, the round, the language, the student config and the two random
draws in [0,1), the delta returned by `getProfessorResponse` lies in [-30, 30]. -/
theorem getProfessorResponse_delta_range (st : GameState) (userText : String) (r1 r2 : ℚ)
    (h1 : 0 ≤ r1 ∧ r1 < 1) (h2 : 0 ≤ r2 ∧ r2 < 1) :
    -30 ≤ (getProfessorResponse st userText r1 r2).delta ∧
      (getProfessorResponse st userText r1 r2).delta ≤ 30 := by
  unfold getProfessorResponse
  simp only
  split_ifs
  · rw [introductionBranch_delta]
    split_ifs <;> constructor <;> norm_num
  · constructor <;> norm_num [nonsenseBranch]
  · have := lyingBranch_delta_bounds st.language r1 r2 h2
    constructor <;> linarith
  · have hb := bonusStage_bounds (analyzeMessageContent userText) r1
      (topicBranch st.language (analyzeMessageContent userText)).delta h1
    have ht := topicBranch_delta_bounds st.language (analyzeMessageContent userText)
    constructor <;> simp only <;> linarith

theorem getProfessorResponse_delta_range_witness :
    ((0 : ℚ) ≤ 1 / 4 ∧ (1 / 4 : ℚ) < 1) ∧ ((0 : ℚ) ≤ 3 / 4 ∧ (3 / 4 : ℚ) < 1) ∧
    -30 ≤ (getProfessorResponse ⟨2, 40, some ⟨"Ann", 3, 50⟩, "en", false, []⟩
        "I never miss a class" (1 / 4) (3 / 4)).delta ∧
      (getProfessorResponse ⟨2, 40, some ⟨"Ann", 3, 50⟩, "en", false, []⟩
        "I never miss a class" (1 / 4) (3 / 4)).delta ≤ 30 :=
  ⟨by constructor <;> norm_num, by constructor <;> norm_num,
    getProfessorResponse_delta_range _ _ _ _ (by constructor <;> norm_num)
      (by constructor <;> norm_num)⟩

/-- C3: on round 1, a text without the `mentionLetter` feature gets the fixed
self-introduction prompt of the current language as reply (and the fixed thought), whatever
its other features, the student config (hence the lie detection) and the random draws: the
whole result is that of the introduction branch, so no later branch is evaluated. -/
theorem round1_introduction_reply (st : GameState) (userText : String) (r1 r2 : ℚ)
    (hr : st.currentRound = 1)
    (hm : (analyzeMessageContent userText).mentionLetter = false) :
    (getProfessorResponse st userText r1 r2).response =
      (if st.language = "zh" then "好的，同學。先自我介紹一下，讓我知道你是哪一位、上過哪一科。"
       else "Alright. Let's start with a quick self‑introduction and remind me which course you took with me.") ∧
    (getProfessorResponse st userText r1 r2).thought =
      (if st.language = "zh" then "至少有問候，比直接衝進來要推薦信好一點。"
       else "At least they didn't open with \"please write me a letter\" immediately.") ∧
    ∀ (st' : GameState) (r1' r2' : ℚ), st'.currentRound = 1 → st'.language = st.language →
      getProfessorResponse st' userText r1' r2' = getProfessorResponse st userText r1 r2 := by
  have key : ∀ (s : GameState) (a b : ℚ), s.currentRound = 1 →
      getProfessorResponse s userText a b =
        introductionBranch s.language (analyzeMessageContent userText) := by
    intro s a b hs
    unfold getProfessorResponse
    simp only
    rw [if_pos ⟨hs, hm⟩]
  refine ⟨?_, ?_, ?_⟩
  · rw [key st r1 r2 hr]
    unfold introductionBranch politeOpening
    by_cases hl : st.language = "zh"
    · simp only [if_pos hl]; rfl
    · simp only [if_neg hl]; rfl
  · rw [key st r1 r2 hr]
    rfl
  · intro st' r1' r2' hr' hl'
    rw [key st r1 r2 hr, key st' r1' r2' hr', hl']

theorem round1_introduction_reply_witness :
    (1 : Nat) = 1 ∧
    (analyzeMessageContent "sorry, it is urgent: I never miss a class").mentionLetter = false ∧
    (getProfessorResponse ⟨1, 40, some ⟨"Ann", 3, 50⟩, "en", false, []⟩
        "sorry, it is urgent: I never miss a class" (1 / 4) (3 / 4)).response =
      "Alright. Let's start with a quick self‑introduction and remind me which course you took with me." :=
  ⟨rfl, by decide,
    (round1_introduction_reply ⟨1, 40, some ⟨"Ann", 3, 50⟩, "en", false, []⟩
      "sorry, it is urgent: I never miss a class" (1 / 4) (3 / 4) rfl (by decide)).1⟩

/-- C4: on round 1, for a text without the `mentionLetter` feature, the delta is exactly
(5 if greeting else 2) + (3 if thanks else 0), with no bonus and no noise, hence one of
2, 5, 7, 8; and the message "Hello professor, I took your corporate finance class" with
config gpa 3.8, attendance 95 takes the introduction branch (delta 5, the introduction
prompt as reply). -/
theorem round1_introduction_delta (st : GameState) (userText : String) (r1 r2 : ℚ)
    (hr : st.currentRound = 1)
    (hm : (analyzeMessageContent userText).mentionLetter = false) :
    (getProfessorResponse st userText r1 r2).delta =
      (if (analyzeMessageContent userText).greeting then 5 else 2) +
        (if (analyzeMessageContent userText).thanks then 3 else 0) ∧
    ((getProfessorResponse st userText r1 r2).delta = 2 ∨
      (getProfessorResponse st userText r1 r2).delta = 5 ∨
      (getProfessorResponse st userText r1 r2).delta = 7 ∨
      (getProfessorResponse st userText r1 r2).delta = 8) ∧
    ∀ (name language : String) (fav : ℚ) (over : Bool) (hist : List HistoryEntry),
      getProfessorResponse ⟨1, fav, some ⟨name, 19 / 5, 95⟩, language, over, hist⟩
          "Hello professor, I took your corporate finance class" r1 r2 =
        introductionBranch language
          (analyzeMessageContent "Hello professor, I took your corporate finance class") ∧
      (getProfessorResponse ⟨1, fav, some ⟨name, 19 / 5, 95⟩, language, over, hist⟩
          "Hello professor, I took your corporate finance class" r1 r2).delta = 5 := by
  have key : ∀ (s : GameState) (t : String), s.currentRound = 1 →
      (analyzeMessageContent t).mentionLetter = false →
      getProfessorResponse s t r1 r2 = introductionBranch s.language (analyzeMessageContent t) := by
    intro s t hs ht
    unfold getProfessorResponse
    simp only
    rw [if_pos ⟨hs, ht⟩]
  have hd := introductionBranch_delta st.language (analyzeMessageContent userText)
  rw [← key st userText hr hm] at hd
  refine ⟨hd, ?_, ?_⟩
  · rw [hd]
    split_ifs
    · right; right; right; norm_num
    · right; left; norm_num
    · right; left; norm_num
    · left; norm_num
  · intro name language fav over hist
    have hk := key ⟨1, fav, some ⟨name, 19 / 5, 95⟩, language, over, hist⟩
      "Hello professor, I took your corporate finance class" rfl (by decide)
    refine ⟨hk, ?_⟩
    rw [hk, introductionBranch_delta]
    have hg : (analyzeMessageContent
        "Hello professor, I took your corporate finance class").greeting = true := by decide
    have ht : (analyzeMessageContent
        "Hello professor, I took your corporate finance class").thanks = false := by decide
    rw [hg, ht]
    norm_num

theorem round1_introduction_delta_witness :
    (1 : Nat) = 1 ∧
    (analyzeMessageContent "thank you, sir").mentionLetter = false ∧
    (getProfessorResponse ⟨1, 40, some ⟨"Ann", 3, 50⟩, "en", false, []⟩
        "thank you, sir" (1 / 4) (3 / 4)).delta =
      (if (analyzeMessageContent "thank you, sir").greeting then 5 else 2) +
        (if (analyzeMessageContent "thank you, sir").thanks then 3 else 0) :=
  ⟨rfl, by decide,
    (round1_introduction_delta ⟨1, 40, some ⟨"Ann", 3, 50⟩, "en", false, []⟩
      "thank you, sir" (1 / 4) (3 / 4) rfl (by decide)).1⟩

/-! ## Lemmas on the matchers -/

theorem startsWith_iff (s p : List Char) : startsWith s p = true ↔ ∃ t, s = p ++ t := by
  induction p generalizing s with
  | nil => simp [startsWith]
  | cons q qs ih =>
    cases s with
    | nil => simp [startsWith]
    | cons c cs =>
      simp only [startsWith, Bool.and_eq_true, beq_iff_eq, ih, List.cons_append,
        List.cons.injEq]
      constructor
      · rintro ⟨rfl, t, rfl⟩
        exact ⟨t, rfl, rfl⟩
      · rintro ⟨t, rfl, rfl⟩
        exact ⟨rfl, t, rfl⟩

theorem includes_iff (s p : List Char) :
    includes s p = true ↔ ∃ a b, s = a ++ p ++ b := by
  induction s with
  | nil =>
    simp only [includes, startsWith_iff]
    constructor
    · rintro ⟨t, ht⟩
      exact ⟨[], t, by simpa using ht⟩
    · rintro ⟨a, b, h⟩
      have h1 : a ++ p ++ b = [] := h.symm
      simp only [List.append_eq_nil] at h1
      exact ⟨[], by simp [h1.1.2]⟩
  | cons c cs ih =>
    simp only [includes, Bool.or_eq_true, startsWith_iff, ih]
    constructor
    · rintro (⟨t, ht⟩ | ⟨a, b, h⟩)
      · exact ⟨[], t, by simpa using ht⟩
      · exact ⟨c :: a, b, by simp [h]⟩
    · rintro ⟨a, b, h⟩
      cases a with
      | nil => exact Or.inl ⟨b, by simpa using h⟩
      | cons x a =>
        simp only [List.cons_append, List.cons.injEq] at h
        exact Or.inr ⟨a, b, h.2⟩

theorem testAny_iff (pats : List String) (s : List Char) :
    testAny pats s = true ↔ ∃ p ∈ pats, ∃ a b, s = a ++ p.data ++ b := by
  simp only [testAny, List.any_eq_true, includes_iff]

theorem toLowerCase_append (a b : List Char) :
    toLowerCase (a ++ b) = toLowerCase a ++ toLowerCase b := by
  simp [toLowerCase]

theorem lowerChar_eq_toLower (c : Char) (h : c.toLower.toNat ≠ 8490 ∧ c.toLower.toNat ≠ 304) :
    lowerChar c = [c.toLower] := by
  unfold lowerChar Char.toLower at *
  by_cases hc : 65 ≤ c.toNat ∧ c.toNat ≤ 90
  · simp only [if_pos hc, ge_iff_le]
  · simp only [ge_iff_le, if_neg hc] at h ⊢
    rw [if_neg h.1, if_neg h.2]

theorem toLowerCase_eq_of_map_toLower (mid phrase : List Char)
    (h : mid.map Char.toLower = phrase)
    (hp : ∀ p ∈ phrase, p.toNat ≠ 8490 ∧ p.toNat ≠ 304) : toLowerCase mid = phrase := by
  induction mid generalizing phrase with
  | nil => simpa [toLowerCase] using h
  | cons c cs ih =>
    subst h
    have h1 := lowerChar_eq_toLower c (hp _ (by simp))
    have h2 := ih (cs.map Char.toLower) rfl (fun p hpm => hp p (by simp [hpm]))
    simp only [toLowerCase, List.flatMap_cons, List.map_cons] at h2 ⊢
    rw [h1, h2]
    rfl

theorem attendancePhrases_plain :
    ∀ phrase ∈ attendancePhrases, ∀ p ∈ phrase.data, p.toNat ≠ 8490 ∧ p.toNat ≠ 304 := by
  decide

theorem gpa_data : "gpa".data = ['g', 'p', 'a'] := rfl

theorem isWhiteSpace_of_isDigit0to4 (c : Char) (h : isDigit0to4 c = true) :
    isWhiteSpace c = false := by
  simp only [isDigit0to4, Bool.and_eq_true, decide_eq_true_eq] at h
  simp only [isWhiteSpace, Bool.or_eq_false_iff, Bool.and_eq_false_imp, decide_eq_true_eq,
    decide_eq_false_iff_not, beq_eq_false_iff_ne, ne_eq]
  omega

theorem isDigit_of_isDigit0to4 (c : Char) (h : isDigit0to4 c = true) : isDigit c = true := by
  simp only [isDigit0to4, isDigit, Bool.and_eq_true, decide_eq_true_eq] at h ⊢
  omega

theorem matchFigure_sound (s fig : List Char) (h : matchFigure s = some fig) :
    IsGpaFigure fig ∧ ∃ post, s = fig ++ post ∧ FigureComplete fig post := by
  rcases s with _ | ⟨d0, _ | ⟨p, _ | ⟨d1, rest⟩⟩⟩
  · simp [matchFigure] at h
  · simp [matchFigure] at h
  · simp [matchFigure] at h
  · simp only [matchFigure] at h
    split_ifs at h with hc
    simp only [Bool.and_eq_true, beq_iff_eq] at hc
    obtain ⟨⟨h0, hp⟩, h1⟩ := hc
    subst hp
    cases rest with
    | nil =>
      simp only [Option.some.injEq] at h
      subst h
      exact ⟨⟨d0, d1, h0, h1, Or.inl rfl⟩, [], by simp, fun _ c rest hcr => by simp at hcr⟩
    | cons d2 rest =>
      simp only at h
      split_ifs at h with h2
      · simp only [Option.some.injEq] at h
        subst h
        exact ⟨⟨d0, d1, h0, h1, Or.inr ⟨d2, h2, rfl⟩⟩, rest, by simp,
          fun hl => by simp at hl⟩
      · simp only [Option.some.injEq] at h
        subst h
        refine ⟨⟨d0, d1, h0, h1, Or.inl rfl⟩, d2 :: rest, by simp, fun _ c r hcr => ?_⟩
        simp only [List.cons.injEq] at hcr
        rw [← hcr.1]
        simpa using h2

theorem matchFigure_complete (fig post : List Char) (hf : IsGpaFigure fig)
    (hc : FigureComplete fig post) : matchFigure (fig ++ post) = some fig := by
  obtain ⟨d0, d1, h0, h1, rfl | ⟨d2, h2, rfl⟩⟩ := hf
  · cases post with
    | nil => simp [matchFigure, h0, h1]
    | cons c rest =>
      have := hc rfl c rest rfl
      simp [matchFigure, h0, h1, this]
  · simp [matchFigure, h0, h1, h2]

theorem matchGpaAt_sound (s fig : List Char) (h : matchGpaAt s = some fig) :
    ∃ ws post, GpaClaimAt s [] ws fig post ∧ FigureComplete fig post := by
  unfold matchGpaAt at h
  split_ifs at h with hs
  obtain ⟨t, rfl⟩ := (startsWith_iff _ _).mp hs
  have hd : List.drop 3 ("gpa".data ++ t) = t := by simp [gpa_data]
  rw [hd] at h
  obtain ⟨hfig, post, hpost, hcomp⟩ := matchFigure_sound _ _ h
  refine ⟨t.takeWhile isWhiteSpace, post, ⟨?_, ?_, hfig⟩, hcomp⟩
  · rw [List.nil_append, List.append_assoc, List.append_assoc, ← hpost,
      List.takeWhile_append_dropWhile]
  · intro c hcm
    exact (List.mem_takeWhile_imp hcm)

theorem matchGpaAt_complete (ws fig post : List Char)
    (hw : ∀ c ∈ ws, isWhiteSpace c = true) (hf : IsGpaFigure fig)
    (hc : FigureComplete fig post) :
    matchGpaAt ("gpa".data ++ ws ++ fig ++ post) = some fig := by
  unfold matchGpaAt
  have hs : startsWith ("gpa".data ++ ws ++ fig ++ post) "gpa".data = true :=
    (startsWith_iff _ _).mpr ⟨ws ++ fig ++ post, by simp⟩
  rw [if_pos hs]
  have hd : List.drop 3 ("gpa".data ++ ws ++ fig ++ post) = ws ++ (fig ++ post) := by
    simp [gpa_data]
  rw [hd, List.dropWhile_append_of_pos hw]
  have hfig := hf
  obtain ⟨d0, d1, h0, h1, rfl | ⟨d2, h2, rfl⟩⟩ := hf
  · rw [List.cons_append, List.dropWhile_cons_of_neg (by simp [isWhiteSpace_of_isDigit0to4 d0 h0])]
    exact matchFigure_complete _ _ hfig hc
  · rw [List.cons_append, List.dropWhile_cons_of_neg (by simp [isWhiteSpace_of_isDigit0to4 d0 h0])]
    exact matchFigure_complete _ _ hfig hc

theorem GpaClaimAt_cons (c : Char) (s pre ws fig post : List Char)
    (h : GpaClaimAt s pre ws fig post) : GpaClaimAt (c :: s) (c :: pre) ws fig post := by
  obtain ⟨h1, h2, h3⟩ := h
  exact ⟨by simp [h1], h2, h3⟩

theorem gpaMatch_sound (s fig : List Char) (h : gpaMatch s = some fig) :
    ∃ pre ws post, GpaClaimAt s pre ws fig post ∧ FigureComplete fig post := by
  induction s with
  | nil => simp [gpaMatch] at h
  | cons c cs ih =>
    unfold gpaMatch at h
    cases hm : matchGpaAt (c :: cs) with
    | some f =>
      rw [hm] at h
      simp only [Option.some.injEq] at h
      subst h
      obtain ⟨ws, post, h1, h2⟩ := matchGpaAt_sound _ _ hm
      exact ⟨[], ws, post, h1, h2⟩
    | none =>
      rw [hm] at h
      obtain ⟨pre, ws, post, h1, h2⟩ := ih h
      exact ⟨c :: pre, ws, post, GpaClaimAt_cons c _ _ _ _ _ h1, h2⟩

theorem gpaMatch_first (s pre ws fig post : List Char)
    (hocc : GpaClaimAt s pre ws fig post) (hc : FigureComplete fig post)
    (hfirst : ∀ pre' ws' fig' post', GpaClaimAt s pre' ws' fig' post' →
      pre.length ≤ pre'.length) :
    gpaMatch s = some fig := by
  induction pre generalizing s with
  | nil =>
    obtain ⟨h1, h2, h3⟩ := hocc
    have hm := matchGpaAt_complete ws fig post h2 h3 hc
    rw [List.nil_append] at h1
    rw [← h1] at hm
    cases s with
    | nil => simp [matchGpaAt, startsWith, gpa_data] at hm
    | cons c cs =>
      unfold gpaMatch
      rw [hm]
  | cons c pre ih =>
    have hs : s = c :: (pre ++ "gpa".data ++ ws ++ fig ++ post) := by
      rw [hocc.1]; simp
    subst hs
    have hocc' : GpaClaimAt (pre ++ "gpa".data ++ ws ++ fig ++ post) pre ws fig post :=
      ⟨rfl, hocc.2.1, hocc.2.2⟩
    unfold gpaMatch
    cases hm : matchGpaAt (c :: (pre ++ "gpa".data ++ ws ++ fig ++ post)) with
    | some f =>
      obtain ⟨ws', post', h1, _⟩ := matchGpaAt_sound _ _ hm
      have := hfirst [] ws' f post' h1
      simp at this
    | none =>
      simp only
      apply ih _ hocc'
      intro pre' ws' fig' post' h'
      have := hfirst (c :: pre') ws' fig' post' (GpaClaimAt_cons c _ _ _ _ _ h')
      simpa using this

theorem gpaMatch_first_value (s pre ws fig post : List Char)
    (hocc : GpaClaimAt s pre ws fig post)
    (hfirst : ∀ pre' ws' fig' post', GpaClaimAt s pre' ws' fig' post' →
      pre.length ≤ pre'.length) :
    ∃ fig', gpaMatch s = some fig' ∧ IsGpaFigure fig' ∧ figureValue fig ≤ figureValue fig' := by
  by_cases hc : FigureComplete fig post
  · exact ⟨fig, gpaMatch_first s pre ws fig post hocc hc hfirst, hocc.2.2, le_refl _⟩
  · unfold FigureComplete at hc
    push_neg at hc
    obtain ⟨hlen, c, rest, hpost, hdig⟩ := hc
    obtain ⟨h1, hw, hf⟩ := hocc
    obtain ⟨d0, d1, h0, hd1, rfl | ⟨d2, h2, rfl⟩⟩ := hf
    · have hc' : isDigit c = true := by simpa using hdig
      have hf' : IsGpaFigure [d0, '.', d1, c] := ⟨d0, d1, h0, hd1, Or.inr ⟨c, hc', rfl⟩⟩
      have hocc' : GpaClaimAt s pre ws [d0, '.', d1, c] rest :=
        ⟨by rw [h1, hpost]; simp, hw, hf'⟩
      refine ⟨[d0, '.', d1, c], ?_, hf', ?_⟩
      · exact gpaMatch_first s pre ws _ rest hocc' (fun hl => by simp at hl) hfirst
      · simp only [figureValue]
        have : (0 : ℚ) ≤ (digitValue c : ℚ) / 100 := by positivity
        linarith
    · simp at hlen

theorem isDigit_dot : isDigit '.' = false := by decide

theorem parseFloat_figure (fig : List Char) (hf : IsGpaFigure fig) :
    parseFloat fig = some (figureValue fig) := by
  obtain ⟨d0, d1, h0, h1, rfl | ⟨d2, h2, rfl⟩⟩ := hf
  · have h0' := isDigit_of_isDigit0to4 d0 h0
    simp [parseFloat, parseDecimal, List.takeWhile, List.dropWhile, h0', h1, isDigit_dot,
      parseDigits, figureValue]
    ring
  · have h0' := isDigit_of_isDigit0to4 d0 h0
    simp [parseFloat, parseDecimal, List.takeWhile, List.dropWhile, h0', h1, h2, isDigit_dot,
      parseDigits, figureValue]
    ring

theorem matchFigure_isSome (fig post : List Char) (hf : IsGpaFigure fig) :
    (matchFigure (fig ++ post)).isSome = true := by
  obtain ⟨d0, d1, h0, h1, rfl | ⟨d2, h2, rfl⟩⟩ := hf
  · cases post with
    | nil => simp [matchFigure, h0, h1]
    | cons c rest =>
      by_cases hc : isDigit c = true <;> simp [matchFigure, h0, h1, hc]
  · simp [matchFigure, h0, h1, h2]

theorem matchGpaAt_isSome_of_claim (s pre ws fig post : List Char)
    (h : GpaClaimAt s pre ws fig post) : (matchGpaAt (s.drop pre.length)).isSome = true := by
  obtain ⟨h1, hw, hf⟩ := h
  have hdrop : s.drop pre.length = "gpa".data ++ ws ++ fig ++ post := by
    rw [h1]
    simp only [List.append_assoc]
    exact List.drop_left _ _
  rw [hdrop]
  unfold matchGpaAt
  have hs : startsWith ("gpa".data ++ ws ++ fig ++ post) "gpa".data = true :=
    (startsWith_iff _ _).mpr ⟨ws ++ fig ++ post, by simp⟩
  rw [if_pos hs]
  have hd : List.drop 3 ("gpa".data ++ ws ++ fig ++ post) = ws ++ (fig ++ post) := by
    simp [gpa_data]
  rw [hd, List.dropWhile_append_of_pos hw]
  have hfig := hf
  obtain ⟨d0, d1, h0, _, rfl | ⟨d2, _, rfl⟩⟩ := hf
  · rw [List.cons_append, List.dropWhile_cons_of_neg (by simp [isWhiteSpace_of_isDigit0to4 d0 h0])]
    exact matchFigure_isSome _ _ hfig
  · rw [List.cons_append, List.dropWhile_cons_of_neg (by simp [isWhiteSpace_of_isDigit0to4 d0 h0])]
    exact matchFigure_isSome _ _ hfig

theorem GpaClaimAt_length (s pre ws fig post : List Char)
    (h : GpaClaimAt s pre ws fig post) : pre.length + 6 ≤ s.length := by
  obtain ⟨h1, _, hf⟩ := h
  obtain ⟨d0, d1, _, _, rfl | ⟨d2, _, rfl⟩⟩ := hf <;>
    · rw [h1]
      simp [gpa_data]
      omega

theorem gpaMatch_isSome_of_claim (s pre ws fig post : List Char)
    (h : GpaClaimAt s pre ws fig post) : (gpaMatch s).isSome = true := by
  induction pre generalizing s with
  | nil =>
    have hm := matchGpaAt_isSome_of_claim s [] ws fig post h
    simp only [List.length_nil, List.drop_zero] at hm
    cases s with
    | nil => simp [matchGpaAt, startsWith, gpa_data] at hm
    | cons c cs =>
      unfold gpaMatch
      cases hx : matchGpaAt (c :: cs) with
      | some f => rfl
      | none => rw [hx] at hm; simp at hm
  | cons c pre ih =>
    have hs : s = c :: (pre ++ "gpa".data ++ ws ++ fig ++ post) := by
      rw [h.1]; simp
    subst hs
    unfold gpaMatch
    cases hx : matchGpaAt (c :: (pre ++ "gpa".data ++ ws ++ fig ++ post)) with
    | some f => rfl
    | none => exact ih _ ⟨rfl, h.2.1, h.2.2⟩

theorem not_includes_of_testAny_false (pats : List String) (s : List Char)
    (h : testAny pats s = false) : ∀ p ∈ pats, ¬ ∃ a b, s = a ++ p.data ++ b := by
  intro p hp hex
  have := (testAny_iff pats s).mpr ⟨p, hp, hex⟩
  rw [h] at this
  exact Bool.noConfusion this

theorem no_claim_of_gpaMatch_none (s : List Char) (h : gpaMatch s = none) :
    ¬ ∃ pre ws fig post, GpaClaimAt s pre ws fig post := by
  rintro ⟨pre, ws, fig, post, hc⟩
  have := gpaMatch_isSome_of_claim s pre ws fig post hc
  rw [h] at this
  exact Bool.noConfusion this

theorem detectLying_of_gpaMatch (text : String) (cfg : StudentConfig) (fig : List Char)
    (hA : testAny attendancePhrases (toLowerCase text.data) = false)
    (hm : gpaMatch (toLowerCase text.data) = some fig) (hf : IsGpaFigure fig) :
    detectLying text (some cfg) = decide (figureValue fig - cfg.gpa > 2 / 5) := by
  unfold detectLying
  simp only [hA, hm, parseFloat_figure fig hf, Bool.false_and]
  rfl

/-- C5: with a config whose attendance is below 80, `detectLying` is true for every text
that contains one of the fixed attendance phrases up to letter case, whatever the config's
GPA; in particular for "never miss a class" with attendance 50. -/
theorem detectLying_attendance_phrase (text : String) (cfg : StudentConfig) (phrase : String)
    (hp : phrase ∈ attendancePhrases)
    (hc : ContainsIgnoreCase text.data phrase.data)
    (ha : cfg.attendance < 80) :
    detectLying text (some cfg) = true ∧
    ∀ (name : String) (gpa : ℚ), detectLying "never miss a class" (some ⟨name, gpa, 50⟩) = true := by
  have main : ∀ (t : String) (c : StudentConfig) (ph : String), ph ∈ attendancePhrases →
      ContainsIgnoreCase t.data ph.data → c.attendance < 80 →
      detectLying t (some c) = true := by
    intro t c ph hph hcon hatt
    obtain ⟨pre, mid, post, ht, hmid⟩ := hcon
    have hlow : toLowerCase mid = ph.data :=
      toLowerCase_eq_of_map_toLower mid ph.data hmid (attendancePhrases_plain ph hph)
    have hA : testAny attendancePhrases (toLowerCase t.data) = true := by
      rw [testAny_iff]
      refine ⟨ph, hph, toLowerCase pre, toLowerCase post, ?_⟩
      rw [ht, toLowerCase_append, toLowerCase_append, hlow]
    unfold detectLying
    simp only [hA, Bool.true_and, decide_eq_true_eq]
    rw [if_pos hatt]
  refine ⟨main text cfg phrase hp hc ha, fun name gpa => ?_⟩
  refine main "never miss a class" ⟨name, gpa, 50⟩ "never miss" (by decide)
    ⟨[], "never miss".data, " a class".data, by decide, by decide⟩ ?_
  norm_num

theorem detectLying_attendance_phrase_witness :
    "never miss" ∈ attendancePhrases ∧
    ContainsIgnoreCase "I NEVER Miss a class".data "never miss".data ∧
    (50 : ℚ) < 80 ∧
    detectLying "I NEVER Miss a class" (some ⟨"Ann", 43 / 10, 50⟩) = true :=
  ⟨by decide, ⟨"I ".data, "NEVER Miss".data, " a class".data, by decide, by decide⟩,
    by norm_num,
    (detectLying_attendance_phrase "I NEVER Miss a class" ⟨"Ann", 43 / 10, 50⟩ "never miss"
      (by decide) ⟨"I ".data, "NEVER Miss".data, " a class".data, by decide, by decide⟩
      (by norm_num)).1⟩

/-- C6, as stated, fails: in "last year gpa 3.0, this year gpa 4.0" the occurrence "gpa 4.0"
exceeds the configured GPA 3.5 by 0.5, yet `detectLying` returns false, because only the
first match of the pattern ("gpa 3.0") is examined. -/
theorem detectLying_later_gpa_claim_missed :
    (∃ pre ws fig post,
      GpaClaimAt (toLowerCase "last year gpa 3.0, this year gpa 4.0".data) pre ws fig post ∧
        FigureComplete fig post ∧ figureValue fig - 7 / 2 > 2 / 5) ∧
    detectLying "last year gpa 3.0, this year gpa 4.0" (some ⟨"Ann", 7 / 2, 100⟩) = false := by
  constructor
  · refine ⟨"last year gpa 3.0, this year ".data, " ".data, "4.0".data, [], ?_, ?_, ?_⟩
    · exact ⟨by decide, by decide, '4', '0', by decide, by decide, Or.inl rfl⟩
    · intro _ c rest h
      exact List.noConfusion h
    · have h4 : digitValue '4' = 4 := by decide
      have h0 : digitValue '0' = 0 := by decide
      show (digitValue '4' : ℚ) + (digitValue '0' : ℚ) / 10 - 7 / 2 > 2 / 5
      rw [h4, h0]
      norm_num
  · have hA : testAny attendancePhrases
        (toLowerCase "last year gpa 3.0, this year gpa 4.0".data) = false := by decide
    have hm : gpaMatch (toLowerCase "last year gpa 3.0, this year gpa 4.0".data) =
        some "3.0".data := by decide
    rw [detectLying_of_gpaMatch _ _ _ hA hm ⟨'3', '0', by decide, by decide, Or.inl rfl⟩]
    have h3 : digitValue '3' = 3 := by decide
    have h0 : digitValue '0' = 0 := by decide
    show decide ((digitValue '3' : ℚ) + (digitValue '0' : ℚ) / 10 - 7 / 2 > 2 / 5) = false
    rw [h3, h0]
    norm_num

/-- C6, amended: with a config present, `detectLying` is true whenever the first (leftmost)
occurrence in the lower-cased text of "gpa", optional white space and a figure `d.d` or `d.dd`
(leading digit 0-4) has a value that exceeds `config.gpa` by more than 0.4. -/
theorem detectLying_first_gpa_claim (text : String) (cfg : StudentConfig)
    (pre ws fig post : List Char)
    (hocc : GpaClaimAt (toLowerCase text.data) pre ws fig post)
    (hfirst : ∀ pre' ws' fig' post',
      GpaClaimAt (toLowerCase text.data) pre' ws' fig' post' → pre.length ≤ pre'.length)
    (hv : figureValue fig - cfg.gpa > 2 / 5) :
    detectLying text (some cfg) = true := by
  obtain ⟨fig', hm, hf', hle⟩ := gpaMatch_first_value _ pre ws fig post hocc hfirst
  unfold detectLying
  simp only [hm, parseFloat_figure fig' hf']
  split_ifs
  · rfl
  · exact decide_eq_true (by linarith)

theorem detectLying_first_gpa_claim_witness :
    GpaClaimAt (toLowerCase "My GPA 4.0, before that gpa 3.0".data) "my ".data " ".data
      "4.0".data ", before that gpa 3.0".data ∧
    (∀ pre' ws' fig' post',
      GpaClaimAt (toLowerCase "My GPA 4.0, before that gpa 3.0".data) pre' ws' fig' post' →
        "my ".data.length ≤ pre'.length) ∧
    figureValue "4.0".data - 7 / 2 > 2 / 5 ∧
    detectLying "My GPA 4.0, before that gpa 3.0" (some ⟨"Ann", 7 / 2, 100⟩) = true := by
  have hocc : GpaClaimAt (toLowerCase "My GPA 4.0, before that gpa 3.0".data) "my ".data
      " ".data "4.0".data ", before that gpa 3.0".data :=
    ⟨by decide, by decide, '4', '0', by decide, by decide, Or.inl rfl⟩
  have hfirst : ∀ pre' ws' fig' post',
      GpaClaimAt (toLowerCase "My GPA 4.0, before that gpa 3.0".data) pre' ws' fig' post' →
        "my ".data.length ≤ pre'.length := by
    intro pre' ws' fig' post' h
    have hk := matchGpaAt_isSome_of_claim _ _ _ _ _ h
    have hlen := GpaClaimAt_length _ _ _ _ _ h
    have hall : ∀ k < 32,
        (matchGpaAt ((toLowerCase "My GPA 4.0, before that gpa 3.0".data).drop k)).isSome = true →
          3 ≤ k := by decide
    have hl : (toLowerCase "My GPA 4.0, before that gpa 3.0".data).length = 31 := by decide
    exact hall _ (by omega) hk
  have hv : figureValue "4.0".data - 7 / 2 > 2 / 5 := by
    have h4 : digitValue '4' = 4 := by decide
    have h0 : digitValue '0' = 0 := by decide
    show (digitValue '4' : ℚ) + (digitValue '0' : ℚ) / 10 - 7 / 2 > 2 / 5
    rw [h4, h0]
    norm_num
  exact ⟨hocc, hfirst, hv,
    detectLying_first_gpa_claim "My GPA 4.0, before that gpa 3.0" ⟨"Ann", 7 / 2, 100⟩
      "my ".data " ".data "4.0".data ", before that gpa 3.0".data hocc hfirst hv⟩

/-- C8: `detectLying` flags nothing it cannot parse: for a text whose lower-cased form
contains none of the attendance phrases and no occurrence of "gpa", optional white space and
a figure `[0-4].d` (so no match of the pattern), it returns false for every config, present or
absent; and with the config absent it returns false for every text. -/
theorem detectLying_unparsed_false (text : String)
    (hA : ∀ phrase ∈ attendancePhrases,
      ¬ ∃ a b, toLowerCase text.data = a ++ phrase.data ++ b)
    (hG : ¬ ∃ pre ws fig post, GpaClaimAt (toLowerCase text.data) pre ws fig post) :
    (∀ config : Option StudentConfig, detectLying text config = false) ∧
    ∀ text' : String, detectLying text' none = false := by
  have hT : testAny attendancePhrases (toLowerCase text.data) = false := by
    cases h : testAny attendancePhrases (toLowerCase text.data) with
    | false => rfl
    | true =>
      obtain ⟨p, hp, hex⟩ := (testAny_iff _ _).mp h
      exact absurd hex (hA p hp)
  have hm : gpaMatch (toLowerCase text.data) = none := by
    cases h : gpaMatch (toLowerCase text.data) with
    | none => rfl
    | some fig =>
      obtain ⟨pre, ws, post, hc, _⟩ := gpaMatch_sound _ _ h
      exact absurd ⟨pre, ws, fig, post, hc⟩ hG
  refine ⟨fun config => ?_, fun text' => rfl⟩
  cases config with
  | none => rfl
  | some cfg =>
    unfold detectLying
    simp only [hT, hm, Bool.false_and]
    rfl

theorem detectLying_unparsed_false_witness :
    (∀ phrase ∈ attendancePhrases,
      ¬ ∃ a b, toLowerCase "My GPA is four point three, I attend always".data =
        a ++ phrase.data ++ b) ∧
    (¬ ∃ pre ws fig post,
      GpaClaimAt (toLowerCase "My GPA is four point three, I attend always".data)
        pre ws fig post) ∧
    detectLying "My GPA is four point three, I attend always" (some ⟨"Ann", 2, 10⟩) = false :=
  ⟨not_includes_of_testAny_false _ _ (by decide), no_claim_of_gpaMatch_none _ (by decide),
    (detectLying_unparsed_false "My GPA is four point three, I attend always"
      (not_includes_of_testAny_false _ _ (by decide))
      (no_claim_of_gpaMatch_none _ (by decide))).1 (some ⟨"Ann", 2, 10⟩)⟩

/-- C9: when neither the round-1 introduction branch nor the nonsense branch applies and
`detectLying` is true, the harsh reply is taken exactly when the first draw `r1` is below 0.6,
with delta `-(18 + 6 * r2)` in [-24,-12]; otherwise the gentle reply is taken, with delta
`-(8 + 6 * r2)` in [-14,-8]; no feature bonus and no further noise enters either delta. -/
theorem lying_branch_reply_delta (st : GameState) (userText : String) (r1 r2 : ℚ)
    (hintro : st.currentRound ≠ 1 ∨ (analyzeMessageContent userText).mentionLetter = true)
    (hnon : (analyzeMessageContent userText).nonsense = false ∧
      jsLength (trim userText.data) ≠ 0)
    (hly : detectLying userText st.studentConfig = true)
    (h2 : 0 ≤ r2 ∧ r2 < 1) :
    (r1 < 3 / 5 →
      (getProfessorResponse st userText r1 r2).response =
        (if st.language = "zh" then
          "同學，你說「幾乎每一堂都有來」，但我的出席紀錄好像不是這樣寫的喔。作為金融人，我們對數字應該誠實一點。"
        else
          "You mentioned you \"almost never missed a class\", but my attendance sheet tells a very different story. As finance people, we should at least be honest with numbers.") ∧
      (getProfessorResponse st userText r1 r2).thought =
        (if st.language = "zh" then "誠信這一關都過不了，寫推薦信有點心虛。"
        else "If we can't clear the honesty bar, it's hard to write a convincing recommendation.") ∧
      (getProfessorResponse st userText r1 r2).delta = -(18 + 6 * r2) ∧
      -24 ≤ (getProfessorResponse st userText r1 r2).delta ∧
      (getProfessorResponse st userText r1 r2).delta ≤ -12) ∧
    (¬ r1 < 3 / 5 →
      (getProfessorResponse st userText r1 r2).response =
        (if st.language = "zh" then
          "哈哈，我知道這門課九點鐘很痛苦，但我們不用把 60% 說成 100%。你可以直接坦白。"
        else
          "Haha, I know a 9am class is painful, but we don't have to turn 60% into 100%. You can just be frank with me.") ∧
      (getProfessorResponse st userText r1 r2).thought =
        (if st.language = "zh" then "至少他/她願意聊，還有得救。"
        else "At least they're still here with some courage left. Could be saved.") ∧
      (getProfessorResponse st userText r1 r2).delta = -(8 + 6 * r2) ∧
      -14 ≤ (getProfessorResponse st userText r1 r2).delta ∧
      (getProfessorResponse st userText r1 r2).delta ≤ -8) := by
  have key : getProfessorResponse st userText r1 r2 = lyingBranch st.language r1 r2 := by
    unfold getProfessorResponse
    simp only
    have h1 : ¬ (st.currentRound = 1 ∧ (analyzeMessageContent userText).mentionLetter = false) := by
      rintro ⟨ha, hb⟩
      rcases hintro with h | h
      · exact h ha
      · rw [hb] at h; exact Bool.noConfusion h
    have h3 : ((analyzeMessageContent userText).nonsense ||
        jsLength (trim userText.data) == 0) = false := by
      rw [hnon.1, Bool.false_or]
      exact beq_false_of_ne hnon.2
    rw [if_neg h1, h3, hly]
    rfl
  obtain ⟨h0, h1⟩ := h2
  rw [key]
  unfold lyingBranch
  constructor
  · intro hr
    rw [if_pos hr]
    refine ⟨rfl, rfl, ?_, ?_, ?_⟩ <;> simp only <;> linarith
  · intro hr
    rw [if_neg hr]
    refine ⟨rfl, rfl, ?_, ?_, ?_⟩ <;> simp only <;> linarith

theorem lying_branch_reply_delta_witness :
    ((2 : Nat) ≠ 1 ∨ (analyzeMessageContent "I never miss a class").mentionLetter = true) ∧
    ((analyzeMessageContent "I never miss a class").nonsense = false ∧
      jsLength (trim "I never miss a class".data) ≠ 0) ∧
    detectLying "I never miss a class" (some ⟨"Ann", 3, 50⟩) = true ∧
    ((0 : ℚ) ≤ 1 / 2 ∧ (1 / 2 : ℚ) < 1) ∧
    (getProfessorResponse ⟨2, 40, some ⟨"Ann", 3, 50⟩, "en", false, []⟩
        "I never miss a class" (1 / 4) (1 / 2)).delta = -21 := by
  have hA : testAny attendancePhrases (toLowerCase "I never miss a class".data) = true := by
    decide
  have hly : detectLying "I never miss a class" (some ⟨"Ann", 3, 50⟩) = true := by
    unfold detectLying
    simp only [hA]
    norm_num
  have h := (lying_branch_reply_delta ⟨2, 40, some ⟨"Ann", 3, 50⟩, "en", false, []⟩
    "I never miss a class" (1 / 4) (1 / 2) (Or.inl (by decide)) (by decide) hly
    (by constructor <;> norm_num)).1 (by norm_num)
  refine ⟨Or.inl (by decide), by decide, hly, by constructor <;> norm_num, ?_⟩
  rw [h.2.2.1]
  norm_num

/-- C10: when the round-1 introduction branch does not apply (the round is not 1, or
`mentionLetter` holds) and the text is nonsense or empty after trimming, the reproachful
reply is returned with delta exactly -3, for every student config (whatever `detectLying`
says) and every random draw. -/
theorem nonsense_branch_reply_delta (st : GameState) (userText : String) (r1 r2 : ℚ)
    (hintro : st.currentRound ≠ 1 ∨ (analyzeMessageContent userText).mentionLetter = true)
    (hnon : (analyzeMessageContent userText).nonsense = true ∨
      jsLength (trim userText.data) = 0) :
    (getProfessorResponse st userText r1 r2).response =
      (if st.language = "zh" then
        "嗯？我猜這不是你平時在 tutorial 裡的表現吧。我們試試用完整句子，好嗎？"
      else
        "Hm? I assume that's not how you wrote answers in my tutorial. Let's try full sentences, shall we?") ∧
    (getProfessorResponse st userText r1 r2).thought =
      (if st.language = "zh" then "還以為是 spam bot 進來了。"
      else "For a second I thought a spam bot somehow joined my office hour.") ∧
    (getProfessorResponse st userText r1 r2).delta = -3 := by
  have key : getProfessorResponse st userText r1 r2 = nonsenseBranch st.language := by
    unfold getProfessorResponse
    simp only
    have h1 : ¬ (st.currentRound = 1 ∧ (analyzeMessageContent userText).mentionLetter = false) := by
      rintro ⟨ha, hb⟩
      rcases hintro with h | h
      · exact h ha
      · rw [hb] at h; exact Bool.noConfusion h
    have h3 : ((analyzeMessageContent userText).nonsense ||
        jsLength (trim userText.data) == 0) = true := by
      rcases hnon with h | h
      · rw [h, Bool.true_or]
      · rw [h]; simp
    rw [if_neg h1, if_pos h3]
  rw [key]
  refine ⟨rfl, rfl, ?_⟩
  norm_num [nonsenseBranch]

theorem nonsense_branch_reply_delta_witness :
    ((2 : Nat) ≠ 1 ∨ (analyzeMessageContent "hi").mentionLetter = true) ∧
    ((analyzeMessageContent "hi").nonsense = true ∨ jsLength (trim "hi".data) = 0) ∧
    (getProfessorResponse ⟨2, 40, some ⟨"Ann", 3, 50⟩, "en", false, []⟩
        "hi" (1 / 4) (1 / 2)).delta = -3 :=
  ⟨Or.inl (by decide), Or.inl (by decide),
    (nonsense_branch_reply_delta ⟨2, 40, some ⟨"Ann", 3, 50⟩, "en", false, []⟩
      "hi" (1 / 4) (1 / 2) (Or.inl (by decide)) (Or.inl (by decide))).2.2⟩
/-! ## Lemmas on the whole policy -/

theorem not_introduction_of (st : GameState) (userText : String)
    (hintro : st.currentRound ≠ 1 ∨ (analyzeMessageContent userText).mentionLetter = true) :
    ¬ (st.currentRound = 1 ∧ (analyzeMessageContent userText).mentionLetter = false) := by
  rintro ⟨ha, hb⟩
  rcases hintro with h | h
  · exact h ha
  · rw [hb] at h; exact Bool.noConfusion h

theorem getProfessorResponse_topic (st : GameState) (userText : String) (r1 r2 : ℚ)
    (hintro : st.currentRound ≠ 1 ∨ (analyzeMessageContent userText).mentionLetter = true)
    (hnon : (analyzeMessageContent userText).nonsense = false ∧
      jsLength (trim userText.data) ≠ 0)
    (hly : detectLying userText st.studentConfig = false) :
    getProfessorResponse st userText r1 r2 =
      { topicBranch st.language (analyzeMessageContent userText) with
        delta := bonusStage (analyzeMessageContent userText) r1
          (topicBranch st.language (analyzeMessageContent userText)).delta } := by
  unfold getProfessorResponse
  simp only
  have h3 : ((analyzeMessageContent userText).nonsense ||
      jsLength (trim userText.data) == 0) = false := by
    rw [hnon.1, Bool.false_or]
    exact beq_false_of_ne hnon.2
  rw [if_neg (not_introduction_of st userText hintro), h3, hly]
  rfl

theorem topicBranch_delta (language : String) (f : Features) :
    (topicBranch language f).delta =
      if f.mentionLetter then 6 + (if f.greeting then 2 else 0) + (if f.thanks then 2 else 0)
      else if f.effort || f.future then 8
      else if f.panic then -2
      else if f.apology then 5
      else 1 := by
  unfold topicBranch
  split_ifs <;> norm_num

theorem detectLying_eq_false (text : String)
    (hT : testAny attendancePhrases (toLowerCase text.data) = false)
    (hm : gpaMatch (toLowerCase text.data) = none) (config : Option StudentConfig) :
    detectLying text config = false := by
  cases config with
  | none => rfl
  | some cfg =>
    unfold detectLying
    simp only [hT, hm, Bool.false_and]
    rfl

theorem getProfessorResponse_delta_eq (st : GameState) (userText : String) (r1 r2 : ℚ) :
    (getProfessorResponse st userText r1 r2).delta =
      if st.currentRound = 1 ∧ (analyzeMessageContent userText).mentionLetter = false then
        (if (analyzeMessageContent userText).greeting then 5 else 2) +
          (if (analyzeMessageContent userText).thanks then 3 else 0)
      else if (analyzeMessageContent userText).nonsense = true ∨
          jsLength (trim userText.data) = 0 then -3
      else if detectLying userText st.studentConfig = true then
        (if r1 < 3 / 5 then -(18 + 6 * r2) else -(8 + 6 * r2))
      else
        (if (analyzeMessageContent userText).mentionLetter then
          6 + (if (analyzeMessageContent userText).greeting then 2 else 0) +
            (if (analyzeMessageContent userText).thanks then 2 else 0)
        else if (analyzeMessageContent userText).effort ||
            (analyzeMessageContent userText).future then 8
        else if (analyzeMessageContent userText).panic then -2
        else if (analyzeMessageContent userText).apology then 5
        else 1) +
          (if (analyzeMessageContent userText).flattery then 4 else 0) +
          (if (analyzeMessageContent userText).thanks then 2 else 0) +
          (if (analyzeMessageContent userText).effort then 3 else 0) +
          (if (analyzeMessageContent userText).future then 2 else 0) +
          2 * (r1 - 1 / 2) := by
  by_cases h1 : st.currentRound = 1 ∧ (analyzeMessageContent userText).mentionLetter = false
  · rw [if_pos h1]
    unfold getProfessorResponse
    simp only
    rw [if_pos h1, introductionBranch_delta]
  · rw [if_neg h1]
    by_cases h2 : (analyzeMessageContent userText).nonsense = true ∨
        jsLength (trim userText.data) = 0
    · rw [if_pos h2]
      unfold getProfessorResponse
      simp only
      have h3 : ((analyzeMessageContent userText).nonsense ||
          jsLength (trim userText.data) == 0) = true := by
        rcases h2 with h | h
        · rw [h, Bool.true_or]
        · rw [h]; simp
      rw [if_neg h1, if_pos h3]
      norm_num [nonsenseBranch]
    · rw [if_neg h2]
      have h3 : ((analyzeMessageContent userText).nonsense ||
          jsLength (trim userText.data) == 0) = false := by
        rw [Bool.or_eq_false_iff]
        constructor
        · cases hn : (analyzeMessageContent userText).nonsense with
          | false => rfl
          | true => exact absurd (Or.inl hn) h2
        · exact beq_false_of_ne (fun h => h2 (Or.inr h))
      by_cases h4 : detectLying userText st.studentConfig = true
      · rw [if_pos h4]
        unfold getProfessorResponse
        simp only
        rw [if_neg h1, h3, h4]
        simp only [Bool.false_eq_true, if_false, if_true]
        unfold lyingBranch
        split_ifs <;> simp only <;> ring
      · rw [if_neg h4]
        have h5 : detectLying userText st.studentConfig = false := by
          cases hd : detectLying userText st.studentConfig with
          | false => rfl
          | true => exact absurd hd h4
        unfold getProfessorResponse
        simp only
        rw [if_neg h1, h3, h5]
        simp only [Bool.false_eq_true, if_false]
        rw [topicBranch_delta]
        unfold bonusStage
        ring

/-- C11: when none of the introduction, nonsense and lying branches applies, reply, thought
and base delta are chosen by first match in the order: `mentionLetter` (base 6, +2 if
greeting, +2 if thanks), else effort or future (base 8), else panic (base -2), else apology
(base 5), else the generic fallback (base 1); the returned delta is that base with the bonus
stage applied.  So a text with `mentionLetter` and panic gets the letter reply, and a text
without `mentionLetter`, effort and future but with panic and apology gets the panic reply. -/
theorem topic_branch_first_match (st : GameState) (userText : String) (r1 r2 : ℚ)
    (hintro : st.currentRound ≠ 1 ∨ (analyzeMessageContent userText).mentionLetter = true)
    (hnon : (analyzeMessageContent userText).nonsense = false ∧
      jsLength (trim userText.data) ≠ 0)
    (hly : detectLying userText st.studentConfig = false) :
    (getProfessorResponse st userText r1 r2).response =
      (if (analyzeMessageContent userText).mentionLetter then
        (if st.language = "zh" then
          "所以你今天是想談推薦信的事，對吧？在我答應之前，我想先了解幾件事：你在課堂上的表現、你真正想追求的方向，以及為什麼會找到我。可以多說一點嗎？"
        else
          "So you're here about a recommendation letter, right? Before I say yes or no, I need to know a few things: how you actually performed in my course, what you're truly aiming for, and why you think I'm the right person to write it. Tell me more.")
      else if (analyzeMessageContent userText).effort || (analyzeMessageContent userText).future then
        (if st.language = "zh" then
          "我欣賞你有認真想過自己的路向。你可以具體一點說，在我的課裡你做過哪一樣令你自己覺得「值得被寫進推薦信」的事嗎？"
        else
          "I appreciate that you've thought about your path. Can you be concrete: what did you actually do in my course that you feel is \"letter‑worthy\"?")
      else if (analyzeMessageContent userText).panic then
        (if st.language = "zh" then
          "臨急抱佛腳是 HKU 傳統文化之一，不過推薦信這種東西，通常需要時間累積。我想聽聽，你之前有沒有主動參與課堂、問問題、或者跟我談過？"
        else
          "Last‑minute panic is a proud HKU tradition, but recommendation letters usually rely on more than panic. Tell me: have you engaged in class, asked questions, or talked to me before this week?")
      else if (analyzeMessageContent userText).apology then
        (if st.language = "zh" then
          "知道自己來得晚，已經比很多人有自覺。重點是，你接下來想怎樣令我相信，你值得我花時間幫你寫一封有內容的信？"
        else
          "Recognizing you're a bit late is already more self‑aware than many. The real question is: how will you convince me you're worth the time for a meaningful letter?")
      else
        (if st.language = "zh" then
          "好，我大概明白你的情況。不過單靠一句話，很難判斷你是否適合拿到推薦信。你可以舉一兩個在我課堂或 project 裡的具體例子嗎？"
        else
          "Alright, I see. But from a couple of sentences it's hard to judge whether you're someone I can genuinely recommend. Could you give me one or two concrete examples from my class or the project?")) ∧
    (getProfessorResponse st userText r1 r2).thought =
      (if (analyzeMessageContent userText).mentionLetter then
        (if st.language = "zh" then
          "又一位為了 exchange 或 IB 而出現的同學，不過至少他/她先講清楚目的。"
        else
          "Another student chasing exchange or IB, but at least they're being upfront.")
      else if (analyzeMessageContent userText).effort || (analyzeMessageContent userText).future then
        (if st.language = "zh" then
          "有思考未來，不只是「我要高分」，這類學生寫起來比較有故事。"
        else
          "At least they're not only here for the grade. Story potential detected.")
      else if (analyzeMessageContent userText).panic then
        (if st.language = "zh" then
          "如果又是「deadline 明天才想起」，那就要看他/她說服力有多強了。"
        else
          "If this is another \"deadline is tomorrow\" case, let's see how persuasive they can be.")
      else if (analyzeMessageContent userText).apology then
        (if st.language = "zh" then
          "有歉意總比理所當然好。看他/她怎樣補救。"
        else
          "At least there's some humility. Let's see if they can back it up.")
      else
        (if st.language = "zh" then
          "希望不是只在 Canvas 上存在的名字。"
        else
          "I wonder if they existed anywhere beyond the Canvas gradebook.")) ∧
    (getProfessorResponse st userText r1 r2).delta =
      bonusStage (analyzeMessageContent userText) r1
        (if (analyzeMessageContent userText).mentionLetter then
          6 + (if (analyzeMessageContent userText).greeting then 2 else 0) +
            (if (analyzeMessageContent userText).thanks then 2 else 0)
        else if (analyzeMessageContent userText).effort ||
            (analyzeMessageContent userText).future then 8
        else if (analyzeMessageContent userText).panic then -2
        else if (analyzeMessageContent userText).apology then 5
        else 1) ∧
    ((analyzeMessageContent userText).mentionLetter = true →
      (analyzeMessageContent userText).panic = true →
      (getProfessorResponse st userText r1 r2).response =
        (if st.language = "zh" then
          "所以你今天是想談推薦信的事，對吧？在我答應之前，我想先了解幾件事：你在課堂上的表現、你真正想追求的方向，以及為什麼會找到我。可以多說一點嗎？"
        else
          "So you're here about a recommendation letter, right? Before I say yes or no, I need to know a few things: how you actually performed in my course, what you're truly aiming for, and why you think I'm the right person to write it. Tell me more.")) ∧
    ((analyzeMessageContent userText).mentionLetter = false →
      (analyzeMessageContent userText).effort = false →
      (analyzeMessageContent userText).future = false →
      (analyzeMessageContent userText).panic = true →
      (analyzeMessageContent userText).apology = true →
      (getProfessorResponse st userText r1 r2).response =
        (if st.language = "zh" then
          "臨急抱佛腳是 HKU 傳統文化之一，不過推薦信這種東西，通常需要時間累積。我想聽聽，你之前有沒有主動參與課堂、問問題、或者跟我談過？"
        else
          "Last‑minute panic is a proud HKU tradition, but recommendation letters usually rely on more than panic. Tell me: have you engaged in class, asked questions, or talked to me before this week?")) := by
  rw [getProfessorResponse_topic st userText r1 r2 hintro hnon hly]
  simp only
  rw [topicBranch_delta]
  refine ⟨?_, ?_, rfl, ?_, ?_⟩
  · unfold topicBranch
    split_ifs <;> rfl
  · unfold topicBranch
    split_ifs <;> rfl
  · intro hm _
    unfold topicBranch
    rw [if_pos hm]
  · intro hm he hf hp _
    unfold topicBranch
    simp only [hm, he, hf, hp, Bool.false_eq_true, if_false, Bool.or_self, if_true]
theorem topic_branch_first_match_witness :
    ((2 : Nat) ≠ 1 ∨
      (analyzeMessageContent "I need a letter, the deadline is tomorrow").mentionLetter = true) ∧
    ((analyzeMessageContent "I need a letter, the deadline is tomorrow").nonsense = false ∧
      jsLength (trim "I need a letter, the deadline is tomorrow".data) ≠ 0) ∧
    detectLying "I need a letter, the deadline is tomorrow" (some ⟨"Ann", 3, 50⟩) = false ∧
    (analyzeMessageContent "I need a letter, the deadline is tomorrow").panic = true ∧
    (getProfessorResponse ⟨2, 40, some ⟨"Ann", 3, 50⟩, "en", false, []⟩
        "I need a letter, the deadline is tomorrow" (1 / 4) (1 / 2)).response =
      "So you're here about a recommendation letter, right? Before I say yes or no, I need to know a few things: how you actually performed in my course, what you're truly aiming for, and why you think I'm the right person to write it. Tell me more." := by
  have hly : detectLying "I need a letter, the deadline is tomorrow" (some ⟨"Ann", 3, 50⟩) =
      false := detectLying_eq_false _ (by decide) (by decide) _
  have h := (topic_branch_first_match ⟨2, 40, some ⟨"Ann", 3, 50⟩, "en", false, []⟩
    "I need a letter, the deadline is tomorrow" (1 / 4) (1 / 2) (Or.inl (by decide))
    (by decide) hly).2.2.2.1 (by decide) (by decide)
  refine ⟨Or.inl (by decide), by decide, hly, by decide, ?_⟩
  rw [h]
  rfl

/-- C12: the delta of `getProfessorResponse` in full.  In branches 4-8 it is the base of the
branch plus 4 if flattery, 2 if thanks, 3 if effort, 2 if future, plus the noise
`2 * (r1 - 0.5)`, which lies in [-1,1] for a draw in [0,1); so thanks counts 4 in total in the
letter branch and effort 11 in total in the effort branch.  In the introduction, nonsense and
lying branches neither a bonus nor that noise is added. -/
theorem delta_bonus_stage (st : GameState) (userText : String) (r1 r2 : ℚ) :
    (getProfessorResponse st userText r1 r2).delta =
      (if st.currentRound = 1 ∧ (analyzeMessageContent userText).mentionLetter = false then
        (if (analyzeMessageContent userText).greeting then 5 else 2) +
          (if (analyzeMessageContent userText).thanks then 3 else 0)
      else if (analyzeMessageContent userText).nonsense = true ∨
          jsLength (trim userText.data) = 0 then -3
      else if detectLying userText st.studentConfig = true then
        (if r1 < 3 / 5 then -(18 + 6 * r2) else -(8 + 6 * r2))
      else
        (if (analyzeMessageContent userText).mentionLetter then
          6 + (if (analyzeMessageContent userText).greeting then 2 else 0) +
            (if (analyzeMessageContent userText).thanks then 2 else 0)
        else if (analyzeMessageContent userText).effort ||
            (analyzeMessageContent userText).future then 8
        else if (analyzeMessageContent userText).panic then -2
        else if (analyzeMessageContent userText).apology then 5
        else 1) +
          (if (analyzeMessageContent userText).flattery then 4 else 0) +
          (if (analyzeMessageContent userText).thanks then 2 else 0) +
          (if (analyzeMessageContent userText).effort then 3 else 0) +
          (if (analyzeMessageContent userText).future then 2 else 0) +
          2 * (r1 - 1 / 2)) ∧
    (0 ≤ r1 ∧ r1 < 1 → -1 ≤ 2 * (r1 - 1 / 2) ∧ 2 * (r1 - 1 / 2) ≤ 1) ∧
    (((analyzeMessageContent userText).nonsense = false ∧
        jsLength (trim userText.data) ≠ 0) →
      detectLying userText st.studentConfig = false →
      (analyzeMessageContent userText).mentionLetter = true →
      (getProfessorResponse st userText r1 r2).delta =
        6 + (if (analyzeMessageContent userText).greeting then 2 else 0) +
          (if (analyzeMessageContent userText).thanks then 4 else 0) +
          (if (analyzeMessageContent userText).flattery then 4 else 0) +
          (if (analyzeMessageContent userText).effort then 3 else 0) +
          (if (analyzeMessageContent userText).future then 2 else 0) +
          2 * (r1 - 1 / 2)) ∧
    (st.currentRound ≠ 1 →
      ((analyzeMessageContent userText).nonsense = false ∧
        jsLength (trim userText.data) ≠ 0) →
      detectLying userText st.studentConfig = false →
      (analyzeMessageContent userText).mentionLetter = false →
      (analyzeMessageContent userText).effort = true →
      (getProfessorResponse st userText r1 r2).delta =
        11 + (if (analyzeMessageContent userText).flattery then 4 else 0) +
          (if (analyzeMessageContent userText).thanks then 2 else 0) +
          (if (analyzeMessageContent userText).future then 2 else 0) +
          2 * (r1 - 1 / 2)) := by
  refine ⟨getProfessorResponse_delta_eq st userText r1 r2, ?_, ?_, ?_⟩
  · rintro ⟨h0, h1⟩
    constructor <;> linarith
  · intro hnon hly hm
    rw [getProfessorResponse_topic st userText r1 r2 (Or.inr hm) hnon hly]
    simp only
    rw [topicBranch_delta, hm]
    unfold bonusStage
    simp only [if_true]
    split_ifs <;> ring
  · intro hr hnon hly hm he
    rw [getProfessorResponse_topic st userText r1 r2 (Or.inl hr) hnon hly]
    simp only
    rw [topicBranch_delta, hm, he]
    unfold bonusStage
    simp only [Bool.false_eq_true, if_false, Bool.true_or, if_true, he]
    split_ifs <;> ring

theorem delta_bonus_stage_witness :
    ((0 : ℚ) ≤ 1 / 4 ∧ (1 / 4 : ℚ) < 1) ∧
    (-1 ≤ 2 * ((1 / 4 : ℚ) - 1 / 2) ∧ 2 * ((1 / 4 : ℚ) - 1 / 2) ≤ 1) ∧
    (2 : Nat) ≠ 1 ∧
    ((analyzeMessageContent "I worked hard on the project").nonsense = false ∧
      jsLength (trim "I worked hard on the project".data) ≠ 0) ∧
    detectLying "I worked hard on the project" (some ⟨"Ann", 3, 50⟩) = false ∧
    (analyzeMessageContent "I worked hard on the project").mentionLetter = false ∧
    (analyzeMessageContent "I worked hard on the project").effort = true ∧
    (getProfessorResponse ⟨2, 40, some ⟨"Ann", 3, 50⟩, "en", false, []⟩
        "I worked hard on the project" (1 / 4) (1 / 2)).delta = 21 / 2 := by
  have hly : detectLying "I worked hard on the project" (some ⟨"Ann", 3, 50⟩) = false :=
    detectLying_eq_false _ (by decide) (by decide) _
  have h := delta_bonus_stage ⟨2, 40, some ⟨"Ann", 3, 50⟩, "en", false, []⟩
    "I worked hard on the project" (1 / 4) (1 / 2)
  have hd := h.2.2.2 (by decide) (by decide) hly (by decide) (by decide)
  have hf : (analyzeMessageContent "I worked hard on the project").flattery = false := by
    decide
  have ht : (analyzeMessageContent "I worked hard on the project").thanks = false := by
    decide
  have hfu : (analyzeMessageContent "I worked hard on the project").future = false := by
    decide
  refine ⟨by constructor <;> norm_num, h.2.1 (by constructor <;> norm_num), by decide,
    by decide, hly, by decide, by decide, ?_⟩
  rw [hd, hf, ht, hfu]
  norm_num
/-- C13: `computeOutcome` follows the threshold table on the final favorability f: "high"
for f >= 75, "poor" for 38 <= f < 75, "reject" for 25 <= f < 38, each whatever the draw; for
f < 25, "poor" when the draw is below 0.3 and "reject" otherwise, never "high".  So 80 gives
high, 50 poor, 37 reject, and 20 reject or poor. -/
theorem computeOutcome_thresholds (st : GameState) (r : ℚ) :
    (75 ≤ st.favorability → computeOutcome st r = "high") ∧
    (38 ≤ st.favorability → st.favorability < 75 → computeOutcome st r = "poor") ∧
    (25 ≤ st.favorability → st.favorability < 38 → computeOutcome st r = "reject") ∧
    (st.favorability < 25 →
      (r < 3 / 10 → computeOutcome st r = "poor") ∧
      (¬ r < 3 / 10 → computeOutcome st r = "reject") ∧
      computeOutcome st r ≠ "high") ∧
    (st.favorability = 80 → computeOutcome st r = "high") ∧
    (st.favorability = 50 → computeOutcome st r = "poor") ∧
    (st.favorability = 37 → computeOutcome st r = "reject") ∧
    (st.favorability = 20 → computeOutcome st r = "reject" ∨ computeOutcome st r = "poor") := by
  have hhigh : 75 ≤ st.favorability → computeOutcome st r = "high" := by
    intro h
    unfold computeOutcome
    simp only
    rw [if_neg (by linarith), if_neg (by linarith), if_pos h]
  have hpoor : 38 ≤ st.favorability → st.favorability < 75 → computeOutcome st r = "poor" := by
    intro h1 h2
    unfold computeOutcome
    simp only
    rw [if_neg (by linarith), if_neg (by linarith), if_neg (by linarith)]
  have hrej : 25 ≤ st.favorability → st.favorability < 38 →
      computeOutcome st r = "reject" := by
    intro h1 h2
    unfold computeOutcome
    simp only
    rw [if_neg (by linarith), if_pos h2]
  have hlow : st.favorability < 25 →
      (r < 3 / 10 → computeOutcome st r = "poor") ∧
      (¬ r < 3 / 10 → computeOutcome st r = "reject") ∧
      computeOutcome st r ≠ "high" := by
    intro h
    unfold computeOutcome
    simp only
    rw [if_pos h]
    refine ⟨fun hr => by rw [if_pos hr], fun hr => by rw [if_neg hr], ?_⟩
    split_ifs <;> decide
  refine ⟨hhigh, hpoor, hrej, hlow, ?_, ?_, ?_, ?_⟩
  · intro h
    exact hhigh (by rw [h]; norm_num)
  · intro h
    exact hpoor (by rw [h]; norm_num) (by rw [h]; norm_num)
  · intro h
    exact hrej (by rw [h]; norm_num) (by rw [h]; norm_num)
  · intro h
    have hl := hlow (by rw [h]; norm_num)
    by_cases hr : r < 3 / 10
    · exact Or.inr (hl.1 hr)
    · exact Or.inl (hl.2.1 hr)

theorem computeOutcome_thresholds_witness :
    (75 : ℚ) ≤ 80 ∧
    computeOutcome ⟨10, 80, some ⟨"Ann", 3, 50⟩, "en", false, []⟩ (1 / 10) = "high" :=
  ⟨by norm_num,
    (computeOutcome_thresholds ⟨10, 80, some ⟨"Ann", 3, 50⟩, "en", false, []⟩ (1 / 10)).1
      (by norm_num)⟩

theorem isInteger_clamp (n lo hi : ℤ) (h : lo ≤ hi) :
    IsInteger (clamp (n : ℚ) (lo : ℚ) (hi : ℚ)) := by
  rw [clamp_cases _ _ _ (by exact_mod_cast h)]
  split_ifs
  · exact ⟨lo, rfl⟩
  · exact ⟨hi, rfl⟩
  · exact ⟨n, rfl⟩

/-- C14: for every student config, whatever its GPA and attendance, and every draw,
`initialFavorabilityFromStats` returns an integer in [10,80]; with no config it returns 40. -/
theorem initialFavorabilityFromStats_range (config : Option StudentConfig) (r : ℚ) :
    IsInteger (initialFavorabilityFromStats config r) ∧
    10 ≤ initialFavorabilityFromStats config r ∧
    initialFavorabilityFromStats config r ≤ 80 ∧
    initialFavorabilityFromStats none r = 40 := by
  refine ⟨?_, ?_, ?_, rfl⟩
  · cases config with
    | none => exact ⟨40, by norm_num [initialFavorabilityFromStats]⟩
    | some cfg =>
      unfold initialFavorabilityFromStats mathRound
      simp only
      have := isInteger_clamp ⌊35 + (clamp cfg.gpa 0 (43 / 10) - 27 / 10) * 6 +
        (clamp cfg.attendance 0 100 - 60) * (15 / 100) + (r - 1 / 2) * 6 + 1 / 2⌋ 10 80
        (by norm_num)
      simpa using this
  · cases config with
    | none => norm_num [initialFavorabilityFromStats]
    | some cfg => exact (clamp_bounds _ 10 80 (by norm_num)).1
  · cases config with
    | none => norm_num [initialFavorabilityFromStats]
    | some cfg => exact (clamp_bounds _ 10 80 (by norm_num)).2
theorem isInteger_int_add_iff (k : ℤ) (x : ℚ) : IsInteger ((k : ℚ) + x) ↔ IsInteger x := by
  constructor
  · rintro ⟨n, hn⟩
    exact ⟨n - k, by push_cast; linarith⟩
  · rintro ⟨n, hn⟩
    exact ⟨k + n, by push_cast; linarith⟩

theorem isInteger_neg_iff (x : ℚ) : IsInteger (-x) ↔ IsInteger x := by
  constructor
  · rintro ⟨n, hn⟩
    exact ⟨-n, by push_cast; linarith⟩
  · rintro ⟨n, hn⟩
    exact ⟨-n, by push_cast; linarith⟩

theorem not_isInteger_half (k : ℤ) : ¬ IsInteger ((k : ℚ) + 1 / 2) := by
  rintro ⟨n, hn⟩
  have h : (2 * k + 1 : ℚ) = 2 * n := by linarith
  have h' : (2 * k + 1 : ℤ) = 2 * n := by exact_mod_cast h
  omega

theorem effort_example_delta :
    (getProfessorResponse ⟨2, 40, some ⟨"Ann", 3, 50⟩, "en", false, []⟩
      "I worked hard on the project" (1 / 4) (1 / 2)).delta = 21 / 2 := by
  have hly : detectLying "I worked hard on the project" (some ⟨"Ann", 3, 50⟩) = false :=
    detectLying_eq_false _ (by decide) (by decide) _
  rw [getProfessorResponse_topic _ _ _ _ (Or.inl (by decide)) (by decide) hly]
  simp only
  rw [topicBranch_delta]
  unfold bonusStage
  have hm : (analyzeMessageContent "I worked hard on the project").mentionLetter = false := by
    decide
  have he : (analyzeMessageContent "I worked hard on the project").effort = true := by decide
  have hf : (analyzeMessageContent "I worked hard on the project").flattery = false := by
    decide
  have ht : (analyzeMessageContent "I worked hard on the project").thanks = false := by
    decide
  have hfu : (analyzeMessageContent "I worked hard on the project").future = false := by
    decide
  rw [hm, he, hf, ht, hfu]
  norm_num

/-- C15, as stated, fails: on round 2 the message "I worked hard on the project" with the
draw 0.25 gets the delta 8 + 3 - 0.5 = 10.5, which is not an integer, and the favorability 40
becomes 50.5. -/
theorem delta_not_always_integer :
    ¬ IsInteger (getProfessorResponse ⟨2, 40, some ⟨"Ann", 3, 50⟩, "en", false, []⟩
      "I worked hard on the project" (1 / 4) (1 / 2)).delta ∧
    IsInteger (40 : ℚ) ∧
    ¬ IsInteger (updateFavorability ⟨2, 40, some ⟨"Ann", 3, 50⟩, "en", false, []⟩
      (getProfessorResponse ⟨2, 40, some ⟨"Ann", 3, 50⟩, "en", false, []⟩
        "I worked hard on the project" (1 / 4) (1 / 2)).delta).favorability := by
  rw [effort_example_delta]
  refine ⟨?_, ⟨40, by norm_num⟩, ?_⟩
  · have := not_isInteger_half 10
    norm_num at this
    exact this
  · have h : (updateFavorability ⟨2, 40, some ⟨"Ann", 3, 50⟩, "en", false, []⟩
        (21 / 2)).favorability = 101 / 2 := by
      unfold updateFavorability
      simp only
      rw [clamp_cases _ _ _ (by norm_num)]
      norm_num
    rw [h]
    have := not_isInteger_half 50
    norm_num at this
    exact this

theorem heuristic_delta_range (st : GameState) (userText : String) (r1 r2 : ℚ)
    (h1 : 0 ≤ r1 ∧ r1 < 1) (h2 : 0 ≤ r2 ∧ r2 < 1) :
    -30 ≤ (getProfessorResponse st userText r1 r2).delta ∧
      (getProfessorResponse st userText r1 r2).delta ≤ 30 := by
  unfold getProfessorResponse
  simp only
  split_ifs
  · rw [introductionBranch_delta]
    split_ifs <;> constructor <;> norm_num
  · constructor <;> norm_num [nonsenseBranch]
  · have := lyingBranch_delta_bounds st.language r1 r2 h2
    constructor <;> linarith
  · have hb := bonusStage_bounds (analyzeMessageContent userText) r1
      (topicBranch st.language (analyzeMessageContent userText)).delta h1
    have ht := topicBranch_delta_bounds st.language (analyzeMessageContent userText)
    constructor <;> simp only <;> linarith

theorem turnResult_delta (st : GameState) (text : String) (ai : AIResponse) (r1 r2 : ℚ) :
    (turnResult st text ai r1 r2).delta =
      match ai with
      | .body _ _ _ (.number q) => q
      | _ => (getProfessorResponse st text r1 r2).delta := by
  cases ai with
  | networkError => rfl
  | httpError => rfl
  | malformedBody => rfl
  | nullBody => rfl
  | body reply response thought delta => cases delta <;> rfl

theorem handleUserSubmit_favorability (st : GameState) (inputValue : String)
    (ai : AIResponse) (r1 r2 : ℚ) (cfg : StudentConfig)
    (hover : st.gameOver = false) (htext : String.mk (trim inputValue.data) ≠ "")
    (hcfg : st.studentConfig = some cfg) :
    ∃ st2 : GameState,
      (st2.currentRound = st.currentRound ∧ st2.studentConfig = st.studentConfig ∧
        st2.favorability = st.favorability ∧
        st2.language =
          (if st.currentRound = 1 then
            detectLanguageFromText (String.mk (trim inputValue.data)).data
          else st.language)) ∧
      (handleUserSubmit st inputValue ai r1 r2).1.favorability =
        clamp (st.favorability +
          (turnResult st2 (String.mk (trim inputValue.data)) ai r1 r2).delta) 0 100 := by
  obtain ⟨round, fav, config, lang, over, hist⟩ := st
  simp only at hover hcfg
  subst hover hcfg
  unfold handleUserSubmit
  simp only [Bool.false_eq_true, if_false, if_neg htext]
  by_cases hr : round = 1
  · refine ⟨⟨round, fav, some cfg,
        detectLanguageFromText (String.mk (trim inputValue.data)).data, false,
        hist ++ [⟨"student", .string (String.mk (trim inputValue.data))⟩]⟩,
      ⟨rfl, rfl, rfl, by simp only [if_pos hr]⟩, ?_⟩
    simp only [if_pos hr]
    split_ifs <;> rfl
  · refine ⟨⟨round, fav, some cfg, lang, false,
        hist ++ [⟨"student", .string (String.mk (trim inputValue.data))⟩]⟩,
      ⟨rfl, rfl, rfl, by simp only [if_neg hr]⟩, ?_⟩
    simp only [if_neg hr]
    split_ifs <;> rfl

/-- C16, as stated, fails: for the response body with `delta: 100` the delta that
`callProfessorAIForTurn` returns is 100, outside [-30,30], and `handleUserSubmit` passes it
on: the favorability 40 becomes 100. -/
theorem ai_delta_not_clamped :
    (callProfessorAIForTurn ⟨2, 40, some ⟨"Ann", 3, 50⟩, "en", false, []⟩ "hello there"
      (.body (.string "Impressive.") .undefined (.string "Not bad.") (.number 100))
      (1 / 4) (1 / 2)).map TurnResult.delta = some 100 ∧
    ¬ ((100 : ℚ) ≤ 30) ∧
    (handleUserSubmit ⟨2, 40, some ⟨"Ann", 3, 50⟩, "en", false, []⟩ "hello there"
      (.body (.string "Impressive.") .undefined (.string "Not bad.") (.number 100))
      (1 / 4) (1 / 2)).1.favorability = 100 := by
  refine ⟨rfl, by norm_num, ?_⟩
  obtain ⟨st2, _, h⟩ := handleUserSubmit_favorability
    ⟨2, 40, some ⟨"Ann", 3, 50⟩, "en", false, []⟩ "hello there"
    (.body (.string "Impressive.") .undefined (.string "Not bad.") (.number 100))
    (1 / 4) (1 / 2) ⟨"Ann", 3, 50⟩ rfl (by decide) rfl
  rw [h, turnResult_delta, clamp_cases _ _ _ (by norm_num)]
  norm_num

/-- C16, amended: the delta a turn works with is `data.delta` itself whenever that is a
number, of any magnitude, and the heuristic's delta otherwise (also when the call fails); so,
for draws in [0,1), it lies in [-30,30] exactly when `data.delta` is not a number or is a
number in [-30,30]. -/
theorem ai_delta_range (st : GameState) (text : String) (ai : AIResponse) (r1 r2 : ℚ)
    (h1 : 0 ≤ r1 ∧ r1 < 1) (h2 : 0 ≤ r2 ∧ r2 < 1) :
    (∀ reply response thought q, ai = .body reply response thought (.number q) →
      (callProfessorAIForTurn st text ai r1 r2).map TurnResult.delta = some q ∧
      (turnResult st text ai r1 r2).delta = q) ∧
    ((∀ reply response thought q, ai ≠ .body reply response thought (.number q)) →
      (turnResult st text ai r1 r2).delta = (getProfessorResponse st text r1 r2).delta) ∧
    ((-30 ≤ (turnResult st text ai r1 r2).delta ∧ (turnResult st text ai r1 r2).delta ≤ 30) ↔
      ∀ reply response thought q, ai = .body reply response thought (.number q) →
        -30 ≤ q ∧ q ≤ 30) := by
  have hh := heuristic_delta_range st text r1 r2 h1 h2
  refine ⟨?_, ?_, ?_⟩
  · rintro reply response thought q rfl
    exact ⟨rfl, rfl⟩
  · intro hne
    rw [turnResult_delta]
    cases ai with
    | networkError => rfl
    | httpError => rfl
    | malformedBody => rfl
    | nullBody => rfl
    | body reply response thought delta =>
      cases delta with
      | number q => exact absurd rfl (hne reply response thought q)
      | undefined => rfl
      | null => rfl
      | bool b => rfl
      | string x => rfl
      | object => rfl
  · rw [turnResult_delta]
    cases ai with
    | networkError => exact ⟨fun _ _ _ _ _ h => AIResponse.noConfusion h, fun _ => hh⟩
    | httpError => exact ⟨fun _ _ _ _ _ h => AIResponse.noConfusion h, fun _ => hh⟩
    | malformedBody => exact ⟨fun _ _ _ _ _ h => AIResponse.noConfusion h, fun _ => hh⟩
    | nullBody => exact ⟨fun _ _ _ _ _ h => AIResponse.noConfusion h, fun _ => hh⟩
    | body reply response thought delta =>
      cases delta with
      | number q =>
        constructor
        · intro hq a b c q' heq
          simp only [AIResponse.body.injEq, JsValue.number.injEq] at heq
          rw [← heq.2.2.2]
          exact hq
        · intro hall
          exact hall reply response thought q rfl
      | undefined =>
        exact ⟨fun _ a b c q' heq => by simp at heq, fun _ => hh⟩
      | null =>
        exact ⟨fun _ a b c q' heq => by simp at heq, fun _ => hh⟩
      | bool b =>
        exact ⟨fun _ a b c q' heq => by simp at heq, fun _ => hh⟩
      | string x =>
        exact ⟨fun _ a b c q' heq => by simp at heq, fun _ => hh⟩
      | object =>
        exact ⟨fun _ a b c q' heq => by simp at heq, fun _ => hh⟩

theorem ai_delta_range_witness :
    ((0 : ℚ) ≤ 1 / 4 ∧ (1 / 4 : ℚ) < 1) ∧ ((0 : ℚ) ≤ 1 / 2 ∧ (1 / 2 : ℚ) < 1) ∧
    (turnResult ⟨2, 40, some ⟨"Ann", 3, 50⟩, "en", false, []⟩ "hello there"
      (.body (.string "Impressive.") .undefined (.string "Not bad.") (.number 12))
      (1 / 4) (1 / 2)).delta = 12 :=
  ⟨by constructor <;> norm_num, by constructor <;> norm_num,
    ((ai_delta_range ⟨2, 40, some ⟨"Ann", 3, 50⟩, "en", false, []⟩ "hello there"
      (.body (.string "Impressive.") .undefined (.string "Not bad.") (.number 12))
      (1 / 4) (1 / 2) (by constructor <;> norm_num) (by constructor <;> norm_num)).1
      (.string "Impressive.") .undefined (.string "Not bad.") 12 rfl).2⟩
theorem introductionBranch_nonempty (language : String) (f : Features) :
    (introductionBranch language f).response ≠ "" ∧
      (introductionBranch language f).thought ≠ "" := by
  unfold introductionBranch politeOpening
  by_cases hl : language = "zh"
  · simp only [if_pos hl]
    decide
  · simp only [if_neg hl]
    decide

theorem nonsenseBranch_nonempty (language : String) :
    (nonsenseBranch language).response ≠ "" ∧ (nonsenseBranch language).thought ≠ "" := by
  unfold nonsenseBranch
  by_cases hl : language = "zh"
  · simp only [if_pos hl]
    decide
  · simp only [if_neg hl]
    decide

theorem lyingBranch_nonempty (language : String) (r1 r2 : ℚ) :
    (lyingBranch language r1 r2).response ≠ "" ∧ (lyingBranch language r1 r2).thought ≠ "" := by
  unfold lyingBranch
  by_cases hl : language = "zh" <;> by_cases hr : r1 < 3 / 5
  · simp only [if_pos hl, if_pos hr]
    decide
  · simp only [if_pos hl, if_neg hr]
    decide
  · simp only [if_neg hl, if_pos hr]
    decide
  · simp only [if_neg hl, if_neg hr]
    decide

theorem topicBranch_nonempty (language : String) (f : Features) :
    (topicBranch language f).response ≠ "" ∧ (topicBranch language f).thought ≠ "" := by
  unfold topicBranch
  by_cases hl : language = "zh"
  · simp only [if_pos hl]
    split_ifs <;> decide
  · simp only [if_neg hl]
    split_ifs <;> decide

theorem getProfessorResponse_nonempty (st : GameState) (userText : String) (r1 r2 : ℚ) :
    (getProfessorResponse st userText r1 r2).response ≠ "" ∧
      (getProfessorResponse st userText r1 r2).thought ≠ "" := by
  unfold getProfessorResponse
  simp only
  split_ifs
  · exact introductionBranch_nonempty _ _
  · exact nonsenseBranch_nonempty _
  · exact lyingBranch_nonempty _ _ _
  · exact topicBranch_nonempty _ _

/-- C17, as stated, fails: for a successful response whose JSON body is `{}` the turn uses
the empty string as reply, not the heuristic's reply (which is never empty). -/
theorem empty_body_not_heuristic :
    (turnResult ⟨2, 40, some ⟨"Ann", 3, 50⟩, "en", false, []⟩ "hello there"
      (.body .undefined .undefined .undefined .undefined) (1 / 4) (1 / 2)).response =
        .string "" ∧
    (heuristicTurn ⟨2, 40, some ⟨"Ann", 3, 50⟩, "en", false, []⟩ "hello there"
      (1 / 4) (1 / 2)).response ≠ .string "" ∧
    turnResult ⟨2, 40, some ⟨"Ann", 3, 50⟩, "en", false, []⟩ "hello there"
      (.body .undefined .undefined .undefined .undefined) (1 / 4) (1 / 2) ≠
        heuristicTurn ⟨2, 40, some ⟨"Ann", 3, 50⟩, "en", false, []⟩ "hello there"
          (1 / 4) (1 / 2) := by
  have h1 : (turnResult ⟨2, 40, some ⟨"Ann", 3, 50⟩, "en", false, []⟩ "hello there"
      (.body .undefined .undefined .undefined .undefined) (1 / 4) (1 / 2)).response =
        .string "" := rfl
  have h2 : (heuristicTurn ⟨2, 40, some ⟨"Ann", 3, 50⟩, "en", false, []⟩ "hello there"
      (1 / 4) (1 / 2)).response ≠ .string "" := by
    intro h
    simp only [heuristicTurn, JsValue.string.injEq] at h
    exact (getProfessorResponse_nonempty _ _ _ _).1 h
  refine ⟨h1, h2, fun h => h2 ?_⟩
  rw [← h, h1]

/-- C17, amended: when the call fails by a network error, a non-success status or a body
that cannot be read as a JSON object (not JSON, or `null`), the turn uses exactly the
heuristic's reply, thought and delta.  For any other successful response the body is used
field by field: the reply is `data.reply` if truthy, else `data.response` if truthy, else
the empty string; the thought is `data.thought` if truthy, else the empty string; the delta
is `data.delta` if it is a number, and only otherwise the heuristic's delta. -/
theorem ai_failure_falls_back (st : GameState) (text : String) (r1 r2 : ℚ) :
    (∀ ai : AIResponse,
      ai = .networkError ∨ ai = .httpError ∨ ai = .malformedBody ∨ ai = .nullBody →
      turnResult st text ai r1 r2 = heuristicTurn st text r1 r2 ∧
      (turnResult st text ai r1 r2).response =
        .string (getProfessorResponse st text r1 r2).response ∧
      (turnResult st text ai r1 r2).thought =
        .string (getProfessorResponse st text r1 r2).thought ∧
      (turnResult st text ai r1 r2).delta = (getProfessorResponse st text r1 r2).delta) ∧
    (∀ reply response thought delta : JsValue,
      (turnResult st text (.body reply response thought delta) r1 r2).response =
        (if reply.truthy then reply else if response.truthy then response else .string "") ∧
      (turnResult st text (.body reply response thought delta) r1 r2).thought =
        (if thought.truthy then thought else .string "") ∧
      (∀ q, delta = .number q →
        (turnResult st text (.body reply response thought delta) r1 r2).delta = q) ∧
      ((∀ q, delta ≠ .number q) →
        (turnResult st text (.body reply response thought delta) r1 r2).delta =
          (getProfessorResponse st text r1 r2).delta)) := by
  constructor
  · rintro ai (rfl | rfl | rfl | rfl) <;> exact ⟨rfl, rfl, rfl, rfl⟩
  · intro reply response thought delta
    refine ⟨?_, rfl, ?_, ?_⟩
    · show (reply.orElse response).orElse (.string "") = _
      unfold JsValue.orElse
      by_cases h1 : reply.truthy = true
      · simp only [if_pos h1]
      · by_cases h2 : response.truthy = true
        · simp only [if_neg h1, if_pos h2]
        · simp only [if_neg h1, if_neg h2]
    · rintro q rfl
      rfl
    · intro hne
      cases delta with
      | number q => exact absurd rfl (hne q)
      | undefined => rfl
      | null => rfl
      | bool b => rfl
      | string x => rfl
      | object => rfl

theorem ai_failure_falls_back_witness :
    (AIResponse.httpError = .networkError ∨ AIResponse.httpError = .httpError ∨
      AIResponse.httpError = .malformedBody ∨ AIResponse.httpError = .nullBody) ∧
    turnResult ⟨2, 40, some ⟨"Ann", 3, 50⟩, "en", false, []⟩ "hello there" .httpError
        (1 / 4) (1 / 2) =
      heuristicTurn ⟨2, 40, some ⟨"Ann", 3, 50⟩, "en", false, []⟩ "hello there"
        (1 / 4) (1 / 2) :=
  ⟨Or.inr (Or.inl rfl),
    ((ai_failure_falls_back ⟨2, 40, some ⟨"Ann", 3, 50⟩, "en", false, []⟩ "hello there"
      (1 / 4) (1 / 2)).1 .httpError (Or.inr (Or.inl rfl))).1⟩

/-- C18: `getProfessorResponse` is total: as a function defined on every text (empty,
blank or one or two characters long included), round, language and config, present or
absent, it returns a triple whose reply and thought are non-empty strings and whose delta
is a number, within [-30,30] for draws in [0,1). -/
theorem getProfessorResponse_total (st : GameState) (userText : String) (r1 r2 : ℚ) :
    (getProfessorResponse st userText r1 r2).response ≠ "" ∧
    (getProfessorResponse st userText r1 r2).thought ≠ "" ∧
    (0 ≤ r1 ∧ r1 < 1 → 0 ≤ r2 ∧ r2 < 1 →
      -30 ≤ (getProfessorResponse st userText r1 r2).delta ∧
        (getProfessorResponse st userText r1 r2).delta ≤ 30) :=
  ⟨(getProfessorResponse_nonempty st userText r1 r2).1,
    (getProfessorResponse_nonempty st userText r1 r2).2,
    fun h1 h2 => heuristic_delta_range st userText r1 r2 h1 h2⟩

theorem getProfessorResponse_total_witness :
    (getProfessorResponse ⟨1, 40, none, "zh", false, []⟩ "" (1 / 4) (1 / 2)).response ≠ "" ∧
    ((0 : ℚ) ≤ 1 / 4 ∧ (1 / 4 : ℚ) < 1) ∧ ((0 : ℚ) ≤ 1 / 2 ∧ (1 / 2 : ℚ) < 1) ∧
    -30 ≤ (getProfessorResponse ⟨1, 40, none, "zh", false, []⟩ "" (1 / 4) (1 / 2)).delta ∧
    (getProfessorResponse ⟨1, 40, none, "zh", false, []⟩ "" (1 / 4) (1 / 2)).delta ≤ 30 :=
  ⟨(getProfessorResponse_total ⟨1, 40, none, "zh", false, []⟩ "" (1 / 4) (1 / 2)).1,
    by constructor <;> norm_num, by constructor <;> norm_num,
    (getProfessorResponse_total ⟨1, 40, none, "zh", false, []⟩ "" (1 / 4) (1 / 2)).2.2
      (by constructor <;> norm_num) (by constructor <;> norm_num)⟩
/-! ## Lemmas on `trim` and the nonsense test -/

theorem isAlnumOrSpace_eq (c : Char) :
    isAlnumOrSpace c = (isAsciiAlnum c || isWhiteSpace c) := rfl

theorem isWhiteSpace_of_isAsciiAlnum (c : Char) (h : isAsciiAlnum c = true) :
    isWhiteSpace c = false := by
  simp only [isAsciiAlnum, Bool.or_eq_true, Bool.and_eq_true, decide_eq_true_eq] at h
  simp only [isWhiteSpace, Bool.or_eq_false_iff, Bool.and_eq_false_imp, decide_eq_true_eq,
    decide_eq_false_iff_not, beq_eq_false_iff_ne, ne_eq]
  omega

theorem codeUnits_of_isAsciiAlnum (c : Char) (h : isAsciiAlnum c = true) : codeUnits c = 1 := by
  simp only [isAsciiAlnum, Bool.or_eq_true, Bool.and_eq_true, decide_eq_true_eq] at h
  unfold codeUnits
  rw [if_pos (by omega)]

theorem length_le_jsLength (s : List Char) : s.length ≤ jsLength s := by
  induction s with
  | nil => simp [jsLength]
  | cons c cs ih =>
    simp only [jsLength, List.map_cons, List.sum_cons, List.length_cons] at ih ⊢
    have : 1 ≤ codeUnits c := by unfold codeUnits; split_ifs <;> omega
    omega

theorem jsLength_of_isAsciiAlnum (s : List Char) (h : ∀ c ∈ s, isAsciiAlnum c = true) :
    jsLength s = s.length := by
  induction s with
  | nil => simp [jsLength]
  | cons c cs ih =>
    have hc := codeUnits_of_isAsciiAlnum c (h c (by simp))
    have ih' := ih (fun x hx => h x (by simp [hx]))
    simp only [jsLength, List.map_cons, List.sum_cons, List.length_cons] at ih' ⊢
    omega

theorem dropWhile_head_neg (p : Char → Bool) (l : List Char) (x : Char) (rest : List Char)
    (h : l.dropWhile p = x :: rest) : p x = false := by
  induction l with
  | nil => simp at h
  | cons a as ih =>
    by_cases ha : p a = true
    · rw [List.dropWhile_cons_of_pos ha] at h
      exact ih h
    · rw [List.dropWhile_cons_of_neg ha] at h
      simp only [List.cons.injEq] at h
      rw [← h.1]
      simpa using ha

theorem dropWhile_eq_self_of_neg (p : Char → Bool) (l : List Char)
    (h : ∀ c ∈ l, p c = false) : l.dropWhile p = l := by
  cases l with
  | nil => rfl
  | cons a as =>
    exact List.dropWhile_cons_of_neg (by simp [h a (by simp)])

theorem trim_of_decomposition (ws1 core ws2 : List Char)
    (h1 : ∀ c ∈ ws1, isWhiteSpace c = true) (h2 : ∀ c ∈ ws2, isWhiteSpace c = true)
    (hc : ∀ c ∈ core, isWhiteSpace c = false) : trim (ws1 ++ core ++ ws2) = core := by
  unfold trim
  rw [List.append_assoc, List.dropWhile_append_of_pos h1]
  cases core with
  | nil =>
    have : List.dropWhile isWhiteSpace ([] ++ ws2) = [] := by
      rw [List.nil_append, List.dropWhile_eq_nil_iff]
      exact h2
    rw [this]
    rfl
  | cons x rest =>
    rw [List.cons_append, List.dropWhile_cons_of_neg (by simp [hc x (by simp)])]
    have hrev : (x :: (rest ++ ws2)).reverse = ws2.reverse ++ (x :: rest).reverse := by
      simp
    rw [hrev, List.dropWhile_append_of_pos (fun c hcm => h2 c (List.mem_reverse.mp hcm)),
      dropWhile_eq_self_of_neg _ _ (fun c hcm => hc c (List.mem_reverse.mp hcm)),
      List.reverse_reverse]

theorem trim_decomposition (s : List Char) :
    ∃ ws1 ws2, s = ws1 ++ trim s ++ ws2 ∧ (∀ c ∈ ws1, isWhiteSpace c = true) ∧
      (∀ c ∈ ws2, isWhiteSpace c = true) ∧
      (∀ x rest, trim s = x :: rest → isWhiteSpace x = false) ∧
      (∀ x front, trim s = front ++ [x] → isWhiteSpace x = false) := by
  refine ⟨s.takeWhile isWhiteSpace,
    ((s.dropWhile isWhiteSpace).reverse.takeWhile isWhiteSpace).reverse, ?_, ?_, ?_, ?_, ?_⟩
  · unfold trim
    rw [List.append_assoc, ← List.reverse_append, List.takeWhile_append_dropWhile,
      List.reverse_reverse, List.takeWhile_append_dropWhile]
  · intro c hc
    exact List.mem_takeWhile_imp hc
  · intro c hc
    exact List.mem_takeWhile_imp (List.mem_reverse.mp hc)
  · intro x rest hx
    have hb : s.dropWhile isWhiteSpace =
        trim s ++ ((s.dropWhile isWhiteSpace).reverse.takeWhile isWhiteSpace).reverse := by
      unfold trim
      rw [← List.reverse_append, List.takeWhile_append_dropWhile, List.reverse_reverse]
    rw [hx, List.cons_append] at hb
    exact dropWhile_head_neg _ _ _ _ hb
  · intro x front hx
    have hd : (s.dropWhile isWhiteSpace).reverse.dropWhile isWhiteSpace =
        x :: front.reverse := by
      have : (trim s).reverse = (front ++ [x]).reverse := by rw [hx]
      unfold trim at this
      rw [List.reverse_reverse] at this
      rw [this]
      simp
    exact dropWhile_head_neg _ _ _ _ hd

/-- C19, as stated, fails: the message "  hi  " has six characters, yet it has the nonsense
feature, because the length that is compared with 2 is that of the trimmed text. -/
theorem padded_message_is_nonsense :
    "  hi  ".length = 6 ∧ (analyzeMessageContent "  hi  ").nonsense = true := by
  decide

/-- C19, amended: the nonsense feature holds exactly for the messages whose lower-cased
text is some white space, then at most 2 ASCII alphanumerics, then some white space: only
alphanumerics and white space, and at most 2 characters once trimmed. -/
theorem nonsense_iff (text : String) :
    (analyzeMessageContent text).nonsense = true ↔
      ∃ ws1 core ws2, toLowerCase text.data = ws1 ++ core ++ ws2 ∧
        (∀ c ∈ ws1, isWhiteSpace c = true) ∧ (∀ c ∈ ws2, isWhiteSpace c = true) ∧
        (∀ c ∈ core, isAsciiAlnum c = true) ∧ core.length ≤ 2 := by
  show (testAlnumOnly (toLowerCase text.data) &&
    decide (jsLength (trim (toLowerCase text.data)) ≤ 2)) = true ↔ _
  generalize toLowerCase text.data = s
  simp only [Bool.and_eq_true, decide_eq_true_eq, testAlnumOnly, List.all_eq_true]
  constructor
  · rintro ⟨hall, hlen⟩
    obtain ⟨ws1, ws2, hs, h1, h2, hhead, hlast⟩ := trim_decomposition s
    have hl : (trim s).length ≤ 2 := le_trans (length_le_jsLength _) hlen
    have hmem : ∀ c ∈ trim s, isAlnumOrSpace c = true := by
      intro c hc
      apply hall
      rw [hs]
      simp [hc]
    have hns : ∀ c ∈ trim s, isWhiteSpace c = false := by
      rcases ht : trim s with _ | ⟨x, _ | ⟨y, _ | ⟨z, rest⟩⟩⟩
      · simp
      · intro c hc
        simp only [List.mem_singleton] at hc
        rw [hc]
        exact hhead x [] ht
      · intro c hc
        simp only [List.mem_cons, List.mem_singleton, List.not_mem_nil, or_false] at hc
        rcases hc with rfl | rfl
        · exact hhead _ _ ht
        · exact hlast _ [x] (by rw [ht]; rfl)
      · rw [ht] at hl
        simp at hl
    refine ⟨ws1, trim s, ws2, hs, h1, h2, ?_, hl⟩
    intro c hc
    have := hmem c hc
    rw [isAlnumOrSpace_eq, hns c hc, Bool.or_false] at this
    exact this
  · rintro ⟨ws1, core, ws2, hs, h1, h2, hcore, hlen⟩
    have hns : ∀ c ∈ core, isWhiteSpace c = false :=
      fun c hc => isWhiteSpace_of_isAsciiAlnum c (hcore c hc)
    constructor
    · intro c hc
      rw [hs] at hc
      rw [isAlnumOrSpace_eq]
      simp only [List.mem_append] at hc
      rcases hc with (hc | hc) | hc
      · rw [h1 c hc, Bool.or_true]
      · rw [hcore c hc, Bool.true_or]
      · rw [h2 c hc, Bool.or_true]
    · rw [hs, trim_of_decomposition ws1 core ws2 h1 h2 hns, jsLength_of_isAsciiAlnum core hcore]
      exact hlen
/-! ## Lemmas on the language of the replies -/

theorem introductionBranch_language (language : String) (f : Features) :
    detectLanguageFromText (introductionBranch language f).response.data =
        (if language = "zh" then "zh" else "en") ∧
      detectLanguageFromText (introductionBranch language f).thought.data =
        (if language = "zh" then "zh" else "en") := by
  unfold introductionBranch politeOpening
  by_cases hl : language = "zh"
  · simp only [if_pos hl]
    decide
  · simp only [if_neg hl]
    decide

theorem nonsenseBranch_language (language : String) :
    detectLanguageFromText (nonsenseBranch language).response.data =
        (if language = "zh" then "zh" else "en") ∧
      detectLanguageFromText (nonsenseBranch language).thought.data =
        (if language = "zh" then "zh" else "en") := by
  unfold nonsenseBranch
  by_cases hl : language = "zh"
  · simp only [if_pos hl]
    decide
  · simp only [if_neg hl]
    decide

theorem lyingBranch_language (language : String) (r1 r2 : ℚ) :
    detectLanguageFromText (lyingBranch language r1 r2).response.data =
        (if language = "zh" then "zh" else "en") ∧
      detectLanguageFromText (lyingBranch language r1 r2).thought.data =
        (if language = "zh" then "zh" else "en") := by
  unfold lyingBranch
  by_cases hl : language = "zh" <;> by_cases hr : r1 < 3 / 5
  · simp only [if_pos hl, if_pos hr]
    decide
  · simp only [if_pos hl, if_neg hr]
    decide
  · simp only [if_neg hl, if_pos hr]
    decide
  · simp only [if_neg hl, if_neg hr]
    decide

set_option maxRecDepth 8000 in
theorem topicBranch_language (language : String) (f : Features) :
    detectLanguageFromText (topicBranch language f).response.data =
        (if language = "zh" then "zh" else "en") ∧
      detectLanguageFromText (topicBranch language f).thought.data =
        (if language = "zh" then "zh" else "en") := by
  unfold topicBranch
  by_cases hl : language = "zh"
  · simp only [if_pos hl]
    split_ifs <;> decide
  · simp only [if_neg hl]
    split_ifs <;> decide

theorem getProfessorResponse_language (st : GameState) (userText : String) (r1 r2 : ℚ) :
    detectLanguageFromText (getProfessorResponse st userText r1 r2).response.data =
        (if st.language = "zh" then "zh" else "en") ∧
      detectLanguageFromText (getProfessorResponse st userText r1 r2).thought.data =
        (if st.language = "zh" then "zh" else "en") := by
  have h1 := introductionBranch_language st.language (analyzeMessageContent userText)
  have h2 := nonsenseBranch_language st.language
  have h3 := lyingBranch_language st.language r1 r2
  have h4 := topicBranch_language st.language (analyzeMessageContent userText)
  generalize (if st.language = "zh" then "zh" else "en") = tag at h1 h2 h3 h4 ⊢
  unfold getProfessorResponse
  simp only
  split_ifs
  · exact h1
  · exact h2
  · exact h3
  · exact h4

theorem getProfessorResponse_other_tag (st : GameState) (userText : String) (r1 r2 : ℚ)
    (hl : st.language ≠ "zh") :
    getProfessorResponse st userText r1 r2 =
      getProfessorResponse { st with language := "en" } userText r1 r2 := by
  have he : ¬ ("en" = "zh") := by decide
  unfold getProfessorResponse introductionBranch nonsenseBranch lyingBranch topicBranch
    politeOpening
  simp only [if_neg hl, if_neg he]
theorem getProfessorResponse_introduction (st : GameState) (userText : String) (r1 r2 : ℚ)
    (hr : st.currentRound = 1)
    (hm : (analyzeMessageContent userText).mentionLetter = false) :
    getProfessorResponse st userText r1 r2 =
      introductionBranch st.language (analyzeMessageContent userText) := by
  unfold getProfessorResponse
  simp only
  rw [if_pos ⟨hr, hm⟩]

theorem detectLanguageFromText_zh_ne_en (a b : String)
    (ha : detectLanguageFromText a.data = "zh") (hb : detectLanguageFromText b.data = "en") :
    a ≠ b := by
  intro h
  rw [h, hb] at ha
  exact absurd ha (by decide)

/-- C21, as stated, fails: under the tags "zh-CN" and "zh-TW" the round-1 reply to "你好，教授"
is the English introduction prompt, the same text as under "en". -/
theorem chinese_variant_tags_get_english :
    (getProfessorResponse ⟨1, 40, some ⟨"Ann", 3, 50⟩, "zh-CN", false, []⟩ "你好，教授"
      (1 / 4) (1 / 2)).response =
        "Alright. Let's start with a quick self‑introduction and remind me which course you took with me." ∧
    (getProfessorResponse ⟨1, 40, some ⟨"Ann", 3, 50⟩, "zh-TW", false, []⟩ "你好，教授"
      (1 / 4) (1 / 2)).response =
        "Alright. Let's start with a quick self‑introduction and remind me which course you took with me." ∧
    getProfessorResponse ⟨1, 40, some ⟨"Ann", 3, 50⟩, "zh-CN", false, []⟩ "你好，教授"
        (1 / 4) (1 / 2) =
      getProfessorResponse ⟨1, 40, some ⟨"Ann", 3, 50⟩, "en", false, []⟩ "你好，教授"
        (1 / 4) (1 / 2) := by
  have hm : (analyzeMessageContent "你好，教授").mentionLetter = false := by decide
  refine ⟨?_, ?_, ?_⟩
  · rw [getProfessorResponse_introduction _ _ _ _ rfl hm]
    rfl
  · rw [getProfessorResponse_introduction _ _ _ _ rfl hm]
    rfl
  · exact getProfessorResponse_other_tag
      ⟨1, 40, some ⟨"Ann", 3, 50⟩, "zh-CN", false, []⟩ "你好，教授" (1 / 4) (1 / 2) (by decide)

/-- C21, amended: every branch of `getProfessorResponse` chooses reply and thought by the
one test `language === "zh"`.  Under the tag "zh" both are Chinese text (they contain a CJK
ideograph); under every other tag, "zh-TW" and "zh-CN" included, the result is the one of the
tag "en", whose reply and thought contain no CJK ideograph; so for one and the same branch
the replies, and the thoughts, under "zh" and under "en" differ. -/
theorem reply_language (st : GameState) (userText : String) (r1 r2 : ℚ) :
    (st.language = "zh" →
      detectLanguageFromText (getProfessorResponse st userText r1 r2).response.data = "zh" ∧
      detectLanguageFromText (getProfessorResponse st userText r1 r2).thought.data = "zh") ∧
    (st.language ≠ "zh" →
      getProfessorResponse st userText r1 r2 =
        getProfessorResponse { st with language := "en" } userText r1 r2 ∧
      detectLanguageFromText (getProfessorResponse st userText r1 r2).response.data = "en" ∧
      detectLanguageFromText (getProfessorResponse st userText r1 r2).thought.data = "en") ∧
    (getProfessorResponse { st with language := "zh" } userText r1 r2).response ≠
      (getProfessorResponse { st with language := "en" } userText r1 r2).response ∧
    (getProfessorResponse { st with language := "zh" } userText r1 r2).thought ≠
      (getProfessorResponse { st with language := "en" } userText r1 r2).thought := by
  have hzh := getProfessorResponse_language { st with language := "zh" } userText r1 r2
  have hen := getProfessorResponse_language { st with language := "en" } userText r1 r2
  rw [if_pos rfl] at hzh
  rw [if_neg (show ¬ ("en" : String) = "zh" by decide)] at hen
  refine ⟨?_, ?_, ?_, ?_⟩
  · intro hl
    have h := getProfessorResponse_language st userText r1 r2
    rw [if_pos hl] at h
    exact h
  · intro hl
    have h := getProfessorResponse_language st userText r1 r2
    rw [if_neg hl] at h
    exact ⟨getProfessorResponse_other_tag st userText r1 r2 hl, h⟩
  · exact detectLanguageFromText_zh_ne_en _ _ hzh.1 hen.1
  · exact detectLanguageFromText_zh_ne_en _ _ hzh.2 hen.2

theorem reply_language_witness :
    ("zh-CN" : String) ≠ "zh" ∧
    getProfessorResponse ⟨2, 40, some ⟨"Ann", 3, 50⟩, "zh-CN", false, []⟩ "我想要推薦信"
        (1 / 4) (1 / 2) =
      getProfessorResponse ⟨2, 40, some ⟨"Ann", 3, 50⟩, "en", false, []⟩ "我想要推薦信"
        (1 / 4) (1 / 2) :=
  ⟨by decide,
    ((reply_language ⟨2, 40, some ⟨"Ann", 3, 50⟩, "zh-CN", false, []⟩ "我想要推薦信"
      (1 / 4) (1 / 2)).2.1 (by decide)).1⟩

/-! ## Lemmas on the bonus opportunity -/

theorem floor_three_mul (r : ℚ) (h : 0 ≤ r ∧ r < 1) : ⌊r * 3⌋ = 0 ∨ ⌊r * 3⌋ = 1 ∨ ⌊r * 3⌋ = 2 := by
  have h0 : (0 : ℤ) ≤ ⌊r * 3⌋ := Int.floor_nonneg.mpr (by linarith [h.1])
  have h3 : ⌊r * 3⌋ < 3 := Int.floor_lt.mpr (by push_cast; linarith [h.2])
  omega

/-- C22: `randomBonusOpportunity` returns the empty string for every outcome other than
"high"; for "high" and a draw r in [0,1) the index floor(3 * r) is 0, 1 or 2 and the result
is one of the three canned options of the current language, a non-empty string and never
`undefined`. -/
theorem randomBonusOpportunity_options (st : GameState) (outcomeType : JsValue) (r : ℚ) :
    (outcomeType ≠ .string "high" → randomBonusOpportunity st outcomeType r = .string "") ∧
    optionsEn.length = 3 ∧ optionsZh.length = 3 ∧
    (0 ≤ r ∧ r < 1 →
      (0 ≤ ⌊3 * r⌋ ∧ ⌊3 * r⌋ ≤ 2) ∧
      randomBonusOpportunity st (.string "high") r ≠ .undefined ∧
      ∃ s, s ∈ (if st.language = "zh" then optionsZh else optionsEn) ∧ s ≠ "" ∧
        randomBonusOpportunity st (.string "high") r = .string s) := by
  refine ⟨?_, rfl, rfl, ?_⟩
  · intro h
    unfold randomBonusOpportunity
    rw [if_pos h]
  · intro hr
    have hfl := floor_three_mul r hr
    have hcomm : ⌊3 * r⌋ = ⌊r * 3⌋ := by rw [mul_comm]
    have key : ∃ s, s ∈ (if st.language = "zh" then optionsZh else optionsEn) ∧ s ≠ "" ∧
        randomBonusOpportunity st (.string "high") r = .string s := by
      unfold randomBonusOpportunity
      rw [if_neg (not_not.mpr rfl)]
      by_cases hl : st.language = "zh"
      · simp only [if_pos hl]
        have hlen : ((optionsZh.length : ℕ) : ℚ) = 3 := by
          have : optionsZh.length = 3 := rfl
          rw [this]; norm_num
        rw [hlen]
        rcases hfl with h | h | h <;> rw [h]
        · exact ⟨_, List.Mem.head _, by decide, rfl⟩
        · exact ⟨_, List.Mem.tail _ (List.Mem.head _), by decide, rfl⟩
        · exact ⟨_, List.Mem.tail _ (List.Mem.tail _ (List.Mem.head _)), by decide, rfl⟩
      · simp only [if_neg hl]
        have hlen : ((optionsEn.length : ℕ) : ℚ) = 3 := by
          have : optionsEn.length = 3 := rfl
          rw [this]; norm_num
        rw [hlen]
        rcases hfl with h | h | h <;> rw [h]
        · exact ⟨_, List.Mem.head _, by decide, rfl⟩
        · exact ⟨_, List.Mem.tail _ (List.Mem.head _), by decide, rfl⟩
        · exact ⟨_, List.Mem.tail _ (List.Mem.tail _ (List.Mem.head _)), by decide, rfl⟩
    refine ⟨?_, ?_, key⟩
    · rw [hcomm]
      rcases hfl with h | h | h <;> rw [h] <;> constructor <;> norm_num
    · obtain ⟨s, _, _, hs⟩ := key
      rw [hs]
      exact JsValue.noConfusion

theorem randomBonusOpportunity_options_witness :
    ((0 : ℚ) ≤ 1 / 2 ∧ (1 / 2 : ℚ) < 1) ∧
    randomBonusOpportunity ⟨10, 80, some ⟨"Ann", 3, 50⟩, "en", false, []⟩ (.string "high")
      (1 / 2) ≠ .undefined :=
  ⟨by constructor <;> norm_num,
    ((randomBonusOpportunity_options ⟨10, 80, some ⟨"Ann", 3, 50⟩, "en", false, []⟩
      (.string "high") (1 / 2)).2.2.2 (by constructor <;> norm_num)).2.1⟩
/-! ## Lemmas on sessions and turns -/

theorem initialFavorabilityFromStats_bounds (config : Option StudentConfig) (r : ℚ) :
    10 ≤ initialFavorabilityFromStats config r ∧ initialFavorabilityFromStats config r ≤ 80 := by
  cases config with
  | none => constructor <;> norm_num [initialFavorabilityFromStats]
  | some cfg => exact clamp_bounds _ 10 80 (by norm_num)

theorem handleUserSubmit_skipped (st : GameState) (inputValue : String) (ai : AIResponse)
    (r1 r2 : ℚ)
    (h : st.gameOver = true ∨ String.mk (trim inputValue.data) = "" ∨ st.studentConfig = none) :
    handleUserSubmit st inputValue ai r1 r2 = (st, false) := by
  unfold handleUserSubmit
  by_cases h1 : st.gameOver = true
  · rw [if_pos h1]
  · rw [if_neg h1]
    simp only
    by_cases h2 : String.mk (trim inputValue.data) = ""
    · rw [if_pos h2]
    · rw [if_neg h2]
      rcases h with h | h | h
      · exact absurd h h1
      · exact absurd h h2
      · rw [h]

theorem handleUserSubmit_completed (st : GameState) (inputValue : String) (ai : AIResponse)
    (r1 r2 : ℚ) (cfg : StudentConfig)
    (hover : st.gameOver = false) (htext : String.mk (trim inputValue.data) ≠ "")
    (hcfg : st.studentConfig = some cfg) :
    (handleUserSubmit st inputValue ai r1 r2).1.studentConfig = st.studentConfig ∧
    (handleUserSubmit st inputValue ai r1 r2).1.gameOver = false ∧
    (st.currentRound < MAX_ROUNDS →
      (handleUserSubmit st inputValue ai r1 r2).1.currentRound = st.currentRound + 1 ∧
      (handleUserSubmit st inputValue ai r1 r2).2 = false) ∧
    (¬ st.currentRound < MAX_ROUNDS →
      (handleUserSubmit st inputValue ai r1 r2).1.currentRound = st.currentRound ∧
      (handleUserSubmit st inputValue ai r1 r2).2 = true) := by
  obtain ⟨round, fav, config, lang, over, hist⟩ := st
  simp only at hover hcfg
  subst hover hcfg
  unfold handleUserSubmit
  simp only [Bool.false_eq_true, if_false, if_neg htext]
  by_cases hr : round = 1
  · by_cases hlt : round < MAX_ROUNDS
    · simp only [if_pos hr, if_pos hlt, updateFavorability]
      simp [hlt]
    · simp only [if_pos hr, if_neg hlt, updateFavorability]
      simp [hlt]
  · by_cases hlt : round < MAX_ROUNDS
    · simp only [if_neg hr, if_pos hlt, updateFavorability]
      simp [hlt]
    · simp only [if_neg hr, if_neg hlt, updateFavorability]
      simp [hlt]

theorem handleUserSubmit_studentConfig (st : GameState) (inputValue : String)
    (ai : AIResponse) (r1 r2 : ℚ) :
    (handleUserSubmit st inputValue ai r1 r2).1.studentConfig = st.studentConfig := by
  by_cases h : st.gameOver = true ∨ String.mk (trim inputValue.data) = "" ∨
      st.studentConfig = none
  · rw [handleUserSubmit_skipped st inputValue ai r1 r2 h]
  · push_neg at h
    obtain ⟨h1, h2, h3⟩ := h
    obtain ⟨cfg, hcfg⟩ := Option.ne_none_iff_exists'.mp h3
    have h1' : st.gameOver = false := by
      cases ho : st.gameOver with
      | false => rfl
      | true => exact absurd ho h1
    exact (handleUserSubmit_completed st inputValue ai r1 r2 cfg h1' h2 hcfg).1

theorem handleUserSubmit_round (st : GameState) (inputValue : String)
    (ai : AIResponse) (r1 r2 : ℚ)
    (h : 1 ≤ st.currentRound ∧ st.currentRound ≤ MAX_ROUNDS) :
    1 ≤ (handleUserSubmit st inputValue ai r1 r2).1.currentRound ∧
      (handleUserSubmit st inputValue ai r1 r2).1.currentRound ≤ MAX_ROUNDS := by
  by_cases hs : st.gameOver = true ∨ String.mk (trim inputValue.data) = "" ∨
      st.studentConfig = none
  · rw [handleUserSubmit_skipped st inputValue ai r1 r2 hs]
    exact h
  · push_neg at hs
    obtain ⟨h1, h2, h3⟩ := hs
    obtain ⟨cfg, hcfg⟩ := Option.ne_none_iff_exists'.mp h3
    have h1' : st.gameOver = false := by
      cases ho : st.gameOver with
      | false => rfl
      | true => exact absurd ho h1
    have hc := handleUserSubmit_completed st inputValue ai r1 r2 cfg h1' h2 hcfg
    by_cases hlt : st.currentRound < MAX_ROUNDS
    · rw [(hc.2.2.1 hlt).1]
      omega
    · rw [(hc.2.2.2 hlt).1]
      exact h

theorem setupFormSubmit_accepts (st : GameState) (nameValue : String) (g a r : ℚ)
    (hg : 0 ≤ g ∧ g ≤ 43 / 10) (ha : 0 ≤ a ∧ a ≤ 100) :
    setupFormSubmit st nameValue (.finite g) (.finite a) r =
      resetGameState
        { st with
          studentConfig := some
            ⟨if String.mk (trim nameValue.data) = "" then "HKU Student"
              else String.mk (trim nameValue.data), g, a⟩
          language := "en" } r := by
  unfold setupFormSubmit
  have h1 : (JsNumber.finite g).ltConst 0 = false := by
    simp only [JsNumber.ltConst, decide_eq_false_iff_not, not_lt]; exact hg.1
  have h2 : (JsNumber.finite g).gtConst (43 / 10) = false := by
    simp only [JsNumber.gtConst, decide_eq_false_iff_not, gt_iff_lt, not_lt]; exact hg.2
  have h3 : (JsNumber.finite a).ltConst 0 = false := by
    simp only [JsNumber.ltConst, decide_eq_false_iff_not, not_lt]; exact ha.1
  have h4 : (JsNumber.finite a).gtConst 100 = false := by
    simp only [JsNumber.gtConst, decide_eq_false_iff_not, gt_iff_lt, not_lt]; exact ha.2
  simp only [JsNumber.isNaN, h1, h2, h3, h4, Bool.or_self, Bool.false_eq_true, if_false]

theorem setupFormSubmit_rejects (st : GameState) (nameValue : String)
    (gpa attendance : JsNumber) (r : ℚ)
    (h : ¬ ∃ g a, gpa = .finite g ∧ attendance = .finite a ∧
      (0 ≤ g ∧ g ≤ 43 / 10) ∧ (0 ≤ a ∧ a ≤ 100)) :
    setupFormSubmit st nameValue gpa attendance r = st := by
  unfold setupFormSubmit
  cases gpa with
  | nan => simp [JsNumber.isNaN]
  | posInf => cases attendance <;> simp [JsNumber.isNaN, JsNumber.ltConst, JsNumber.gtConst]
  | negInf => cases attendance <;> simp [JsNumber.isNaN, JsNumber.ltConst, JsNumber.gtConst]
  | finite g =>
    cases attendance with
    | nan => simp [JsNumber.isNaN]
    | posInf => simp [JsNumber.isNaN, JsNumber.ltConst, JsNumber.gtConst]
    | negInf => simp [JsNumber.isNaN, JsNumber.ltConst, JsNumber.gtConst]
    | finite a =>
      by_cases hg : 0 ≤ g ∧ g ≤ 43 / 10
      · by_cases ha : 0 ≤ a ∧ a ≤ 100
        · exact absurd ⟨g, a, rfl, rfl, hg, ha⟩ h
        · have : a < 0 ∨ 100 < a := by
            by_contra hc
            push_neg at hc
            exact ha hc
          simp only [JsNumber.isNaN, JsNumber.ltConst, JsNumber.gtConst, Bool.or_self,
            Bool.false_eq_true, if_false, gt_iff_lt, Bool.or_eq_true, decide_eq_true_eq]
          rw [if_neg (by push_neg; exact hg), if_pos this]
      · have : g < 0 ∨ 43 / 10 < g := by
          by_contra hc
          push_neg at hc
          exact hg hc
        simp only [JsNumber.isNaN, JsNumber.ltConst, JsNumber.gtConst, Bool.or_self,
          Bool.false_eq_true, if_false, gt_iff_lt, Bool.or_eq_true, decide_eq_true_eq]
        rw [if_pos this]

theorem applyEvent_configInRange (st : GameState) (e : UserEvent) (h : ConfigInRange st) :
    ConfigInRange (applyEvent st e) := by
  cases e with
  | setup nameValue gpa attendance r =>
    by_cases hin : ∃ g a, gpa = .finite g ∧ attendance = .finite a ∧
        (0 ≤ g ∧ g ≤ 43 / 10) ∧ (0 ≤ a ∧ a ≤ 100)
    · obtain ⟨g, a, rfl, rfl, hg, ha⟩ := hin
      show ConfigInRange (setupFormSubmit st nameValue (.finite g) (.finite a) r)
      rw [setupFormSubmit_accepts st nameValue g a r hg ha]
      intro cfg hcfg
      simp only [resetGameState, Option.some.injEq] at hcfg
      subst hcfg
      exact ⟨hg.1, hg.2, ha.1, ha.2⟩
    · show ConfigInRange (setupFormSubmit st nameValue gpa attendance r)
      rw [setupFormSubmit_rejects st nameValue gpa attendance r hin]
      exact h
  | submit inputValue ai r1 r2 =>
    intro cfg hcfg
    apply h cfg
    rw [← hcfg]
    exact (handleUserSubmit_studentConfig st inputValue ai r1 r2).symm
  | playAgain r => exact h
  | seeResults =>
    intro cfg hcfg
    apply h cfg
    rw [← hcfg]
    unfold applyEvent endGame
    split_ifs <;> rfl

theorem foldl_applyEvent_configInRange (events : List UserEvent) (st : GameState)
    (h : ConfigInRange st) : ConfigInRange (events.foldl applyEvent st) := by
  induction events generalizing st with
  | nil => exact h
  | cons e es ih => exact ih _ (applyEvent_configInRange st e h)

theorem applyEvent_round (st : GameState) (e : UserEvent)
    (h : 1 ≤ st.currentRound ∧ st.currentRound ≤ MAX_ROUNDS) :
    1 ≤ (applyEvent st e).currentRound ∧ (applyEvent st e).currentRound ≤ MAX_ROUNDS := by
  have hreset : ∀ (s : GameState) (r : ℚ),
      1 ≤ (resetGameState s r).currentRound ∧ (resetGameState s r).currentRound ≤ MAX_ROUNDS := by
    intro s r
    simp [resetGameState, MAX_ROUNDS]
  cases e with
  | setup nameValue gpa attendance r =>
    have he : applyEvent st (.setup nameValue gpa attendance r) =
        setupFormSubmit st nameValue gpa attendance r := rfl
    rw [he]
    by_cases hin : ∃ g a, gpa = .finite g ∧ attendance = .finite a ∧
        (0 ≤ g ∧ g ≤ 43 / 10) ∧ (0 ≤ a ∧ a ≤ 100)
    · obtain ⟨g, a, rfl, rfl, hg, ha⟩ := hin
      rw [setupFormSubmit_accepts st nameValue g a r hg ha]
      exact hreset _ r
    · rw [setupFormSubmit_rejects st nameValue gpa attendance r hin]
      exact h
  | submit inputValue ai r1 r2 => exact handleUserSubmit_round st inputValue ai r1 r2 h
  | playAgain r => exact hreset st r
  | seeResults =>
    unfold applyEvent endGame
    split_ifs <;> exact h

theorem foldl_applyEvent_round (events : List UserEvent) (st : GameState)
    (h : 1 ≤ st.currentRound ∧ st.currentRound ≤ MAX_ROUNDS) :
    1 ≤ (events.foldl applyEvent st).currentRound ∧
      (events.foldl applyEvent st).currentRound ≤ MAX_ROUNDS := by
  induction events generalizing st with
  | nil => exact h
  | cons e es ih => exact ih _ (applyEvent_round st e h)
/-- C23: the setup-form handler starts a session, assigning `studentConfig` and resetting
the game state, when the parsed GPA and attendance are both numbers with 0 <= gpa <= 4.3 and
0 <= attendance <= 100, and for every other pair of parsed values (NaN, infinite, negative,
above range) it leaves the whole state unchanged.  So in every state reached from the initial
one by the event handlers, the student config the heuristic reads is absent or has its GPA in
[0,4.3] and its attendance in [0,100]. -/
theorem setupFormSubmit_validates (st : GameState) (nameValue : String)
    (gpa attendance : JsNumber) (r : ℚ) :
    (∀ g a, gpa = .finite g → attendance = .finite a →
      (0 ≤ g ∧ g ≤ 43 / 10) → (0 ≤ a ∧ a ≤ 100) →
      setupFormSubmit st nameValue gpa attendance r =
        resetGameState
          { st with
            studentConfig := some
              ⟨if String.mk (trim nameValue.data) = "" then "HKU Student"
                else String.mk (trim nameValue.data), g, a⟩
            language := "en" } r ∧
      (setupFormSubmit st nameValue gpa attendance r).studentConfig =
        some ⟨if String.mk (trim nameValue.data) = "" then "HKU Student"
          else String.mk (trim nameValue.data), g, a⟩) ∧
    ((¬ ∃ g a, gpa = .finite g ∧ attendance = .finite a ∧
        (0 ≤ g ∧ g ≤ 43 / 10) ∧ (0 ≤ a ∧ a ≤ 100)) →
      setupFormSubmit st nameValue gpa attendance r = st) ∧
    (∀ (events : List UserEvent) (cfg : StudentConfig),
      (events.foldl applyEvent initialState).studentConfig = some cfg →
      0 ≤ cfg.gpa ∧ cfg.gpa ≤ 43 / 10 ∧ 0 ≤ cfg.attendance ∧ cfg.attendance ≤ 100) := by
  refine ⟨?_, setupFormSubmit_rejects st nameValue gpa attendance r, ?_⟩
  · rintro g a rfl rfl hg ha
    have h := setupFormSubmit_accepts st nameValue g a r hg ha
    refine ⟨h, ?_⟩
    rw [h]
    rfl
  · intro events cfg hcfg
    have hinit : ConfigInRange initialState := by
      intro c hc
      exact Option.noConfusion hc
    exact foldl_applyEvent_configInRange events initialState hinit cfg hcfg

theorem setupFormSubmit_validates_witness :
    JsNumber.finite (19 / 5) = .finite (19 / 5) ∧ JsNumber.finite 95 = .finite 95 ∧
    ((0 : ℚ) ≤ 19 / 5 ∧ (19 / 5 : ℚ) ≤ 43 / 10) ∧ ((0 : ℚ) ≤ 95 ∧ (95 : ℚ) ≤ 100) ∧
    (setupFormSubmit initialState " Ann " (.finite (19 / 5)) (.finite 95)
      (1 / 2)).studentConfig =
        some ⟨if String.mk (trim " Ann ".data) = "" then "HKU Student"
          else String.mk (trim " Ann ".data), 19 / 5, 95⟩ :=
  ⟨rfl, rfl, by constructor <;> norm_num, by constructor <;> norm_num,
    ((setupFormSubmit_validates initialState " Ann " (.finite (19 / 5)) (.finite 95)
      (1 / 2)).1 (19 / 5) 95 rfl rfl (by constructor <;> norm_num)
      (by constructor <;> norm_num)).2⟩

/-- C24: `resetGameState` resets the state of a play-through: afterwards `currentRound` is
1, `gameOver` is false, `history` is exactly the one greeting of the professor, and
`favorability` is the freshly drawn initial value, in [10,80], which depends on the student
config and the draw only, not on the previous favorability, round or history;
`studentConfig` is left unchanged (and so is `language`, which selects the greeting). -/
theorem resetGameState_frame (st : GameState) (r : ℚ) :
    (resetGameState st r).currentRound = 1 ∧
    (resetGameState st r).gameOver = false ∧
    (resetGameState st r).history =
      [⟨"prof", .string
        (if st.language = "zh" then
          "（敲門聲）請進。你好，我是羅賓教授。今天辦公時間只有一會，你有什麼事？"
        else
          "*knock knock* Come in. Hello, I'm Prof Robin. Office hour is short today — what can I help you with?")⟩] ∧
    (resetGameState st r).favorability = initialFavorabilityFromStats st.studentConfig r ∧
    (10 ≤ (resetGameState st r).favorability ∧ (resetGameState st r).favorability ≤ 80) ∧
    (resetGameState st r).studentConfig = st.studentConfig ∧
    (resetGameState st r).language = st.language ∧
    (∀ st' : GameState, st'.studentConfig = st.studentConfig →
      (resetGameState st' r).favorability = (resetGameState st r).favorability ∧
      (resetGameState st' r).currentRound = (resetGameState st r).currentRound ∧
      (resetGameState st' r).gameOver = (resetGameState st r).gameOver ∧
      (resetGameState st' r).history.length = 1) := by
  refine ⟨rfl, rfl, rfl, rfl, initialFavorabilityFromStats_bounds _ _, rfl, rfl, ?_⟩
  intro st' h
  refine ⟨?_, rfl, rfl, rfl⟩
  show initialFavorabilityFromStats st'.studentConfig r =
    initialFavorabilityFromStats st.studentConfig r
  rw [h]

theorem resetGameState_frame_witness :
    (GameState.mk 1 0 (some ⟨"Ann", 3, 50⟩) "en" false []).studentConfig =
      (GameState.mk 10 97 (some ⟨"Ann", 3, 50⟩) "en" true
        [⟨"student", .string "hello"⟩, ⟨"prof", .string "Hm."⟩]).studentConfig ∧
    (resetGameState ⟨1, 0, some ⟨"Ann", 3, 50⟩, "en", false, []⟩ (1 / 2)).favorability =
      (resetGameState ⟨10, 97, some ⟨"Ann", 3, 50⟩, "en", true,
        [⟨"student", .string "hello"⟩, ⟨"prof", .string "Hm."⟩]⟩ (1 / 2)).favorability :=
  ⟨rfl,
    ((resetGameState_frame ⟨10, 97, some ⟨"Ann", 3, 50⟩, "en", true,
      [⟨"student", .string "hello"⟩, ⟨"prof", .string "Hm."⟩]⟩ (1 / 2)).2.2.2.2.2.2.2
      ⟨1, 0, some ⟨"Ann", 3, 50⟩, "en", false, []⟩ rfl).1⟩

/-- C26: the round counter stays within its bound.  From `resetGameState`, after any number
of turns (and of any other events) 1 <= currentRound <= MAX_ROUNDS = 10, so the displayed
rounds-left value MAX_ROUNDS - currentRound + 1 is in 1..10; a completed turn increases
`currentRound` by exactly 1 while it is below MAX_ROUNDS, without showing the end overlay, and
at MAX_ROUNDS leaves it there and shows the end overlay. -/
theorem round_counter_bounded (st : GameState) (r : ℚ) (events : List UserEvent) :
    MAX_ROUNDS = 10 ∧
    (1 ≤ (events.foldl applyEvent (resetGameState st r)).currentRound ∧
      (events.foldl applyEvent (resetGameState st r)).currentRound ≤ MAX_ROUNDS) ∧
    (1 ≤ MAX_ROUNDS - (events.foldl applyEvent (resetGameState st r)).currentRound + 1 ∧
      MAX_ROUNDS - (events.foldl applyEvent (resetGameState st r)).currentRound + 1 ≤ 10) ∧
    (∀ (s : GameState) (inputValue : String) (ai : AIResponse) (r1 r2 : ℚ)
      (cfg : StudentConfig),
      s.gameOver = false → String.mk (trim inputValue.data) ≠ "" →
      s.studentConfig = some cfg →
      (s.currentRound < MAX_ROUNDS →
        (handleUserSubmit s inputValue ai r1 r2).1.currentRound = s.currentRound + 1 ∧
        (handleUserSubmit s inputValue ai r1 r2).2 = false) ∧
      (s.currentRound = MAX_ROUNDS →
        (handleUserSubmit s inputValue ai r1 r2).1.currentRound = MAX_ROUNDS ∧
        (handleUserSubmit s inputValue ai r1 r2).2 = true)) := by
  have hb := foldl_applyEvent_round events (resetGameState st r)
    (by simp [resetGameState, MAX_ROUNDS])
  refine ⟨rfl, hb, ?_, ?_⟩
  · have h10 : MAX_ROUNDS = 10 := rfl
    rw [h10] at hb ⊢
    omega
  · intro s inputValue ai r1 r2 cfg hover htext hcfg
    have hc := handleUserSubmit_completed s inputValue ai r1 r2 cfg hover htext hcfg
    refine ⟨hc.2.2.1, ?_⟩
    intro heq
    have := hc.2.2.2 (by rw [heq]; exact lt_irrefl _)
    rw [heq] at this
    exact this

theorem round_counter_bounded_witness :
    (GameState.mk 10 55 (some ⟨"Ann", 3, 50⟩) "en" false []).gameOver = false ∧
    String.mk (trim "thank you".data) ≠ "" ∧
    (GameState.mk 10 55 (some ⟨"Ann", 3, 50⟩) "en" false []).studentConfig =
      some ⟨"Ann", 3, 50⟩ ∧
    (GameState.mk 10 55 (some ⟨"Ann", 3, 50⟩) "en" false []).currentRound = MAX_ROUNDS ∧
    (handleUserSubmit ⟨10, 55, some ⟨"Ann", 3, 50⟩, "en", false, []⟩ "thank you"
      .networkError (1 / 4) (1 / 2)).1.currentRound = MAX_ROUNDS ∧
    (handleUserSubmit ⟨10, 55, some ⟨"Ann", 3, 50⟩, "en", false, []⟩ "thank you"
      .networkError (1 / 4) (1 / 2)).2 = true :=
  ⟨rfl, by decide, rfl, rfl,
    ((round_counter_bounded ⟨1, 0, none, "en", false, []⟩ (1 / 2) []).2.2.2
      ⟨10, 55, some ⟨"Ann", 3, 50⟩, "en", false, []⟩ "thank you" .networkError (1 / 4) (1 / 2)
      ⟨"Ann", 3, 50⟩ rfl (by decide) rfl).2 rfl⟩
theorem phaseAccepted_iff (phase : Option Json) :
    phaseAccepted phase = true ↔
      phase = some (.string "turn") ∨ phase = some (.string "final") := by
  constructor
  · intro h
    cases phase with
    | none => exact Bool.noConfusion h
    | some v =>
      cases v with
      | string t =>
        simp only [phaseAccepted, Json.isString, Bool.and_eq_true, Bool.or_eq_true,
          beq_iff_eq] at h
        rcases h.2 with h | h
        · exact Or.inl (by rw [h])
        · exact Or.inr (by rw [h])
      | null => simp [phaseAccepted, Json.truthy] at h
      | bool b => simp [phaseAccepted, Json.isString] at h
      | number q => simp [phaseAccepted, Json.isString] at h
      | array items => simp [phaseAccepted, Json.isString] at h
      | object props => simp [phaseAccepted, Json.isString] at h
  · rintro (rfl | rfl) <;> decide

/-- C25: the `/api-professor` handler validates the request before it contacts the remote
model, in this order: a method other than POST gives status 405; otherwise a missing (unset
or empty) `DEEPSEEK_API_KEY` gives 500; otherwise a phase that is absent or is neither "turn"
nor "final" gives 400; in each case a JSON body with an `error` field is written and no
remote call is made.  Only the phases "turn" and "final" proceed: a remote call is made only
with POST, a key and one of them; it is then made when the prompt can be built, and when
building the prompt throws (a `history` that is not an array, for one) nothing is written and
no call is made. -/
theorem handler_validation (method : String) (apiKey : Option String) (body : Option Json)
    (remote : RemoteResult) :
    (method ≠ "POST" →
      handler method apiKey body remote = some ⟨405, some "Method not allowed", none, false⟩) ∧
    (method = "POST" → (apiKey = none ∨ apiKey = some "") →
      ∃ r, handler method apiKey body remote = some r ∧ r.statusCode = 500 ∧
        r.error.isSome = true ∧ r.remoteCalled = false) ∧
    (method = "POST" → ¬ (apiKey = none ∨ apiKey = some "") →
      ¬ ((payloadOf body).prop "phase" = some (.string "turn") ∨
        (payloadOf body).prop "phase" = some (.string "final")) →
      handler method apiKey body remote =
        some ⟨400, some "phase must be 'turn' or 'final'", none, false⟩) ∧
    (∀ r, handler method apiKey body remote = some r → r.remoteCalled = true →
      method = "POST" ∧ ¬ (apiKey = none ∨ apiKey = some "") ∧
        ((payloadOf body).prop "phase" = some (.string "turn") ∨
          (payloadOf body).prop "phase" = some (.string "final"))) ∧
    (method = "POST" → ¬ (apiKey = none ∨ apiKey = some "") →
      ((payloadOf body).prop "phase" = some (.string "turn") ∨
        (payloadOf body).prop "phase" = some (.string "final")) →
      promptThrows (payloadOf body) = false →
      ∃ r, handler method apiKey body remote = some r ∧ r.remoteCalled = true) ∧
    (method = "POST" → ¬ (apiKey = none ∨ apiKey = some "") →
      ((payloadOf body).prop "phase" = some (.string "turn") ∨
        (payloadOf body).prop "phase" = some (.string "final")) →
      promptThrows (payloadOf body) = true →
      handler method apiKey body remote = none) := by
  have hphase : method = "POST" → ¬ (apiKey = none ∨ apiKey = some "") →
      ¬ ((payloadOf body).prop "phase" = some (.string "turn") ∨
        (payloadOf body).prop "phase" = some (.string "final")) →
      handler method apiKey body remote =
        some ⟨400, some "phase must be 'turn' or 'final'", none, false⟩ := by
    intro hm hk hp
    have hacc : phaseAccepted ((payloadOf body).prop "phase") = false := by
      cases h : phaseAccepted ((payloadOf body).prop "phase") with
      | false => rfl
      | true => exact absurd ((phaseAccepted_iff _).mp h) hp
    unfold handler
    rw [if_neg (not_not.mpr hm), if_neg hk, hacc]
    rfl
  refine ⟨?_, ?_, hphase, ?_, ?_, ?_⟩
  · intro hm
    unfold handler
    rw [if_pos hm]
  · intro hm hk
    unfold handler
    rw [if_neg (not_not.mpr hm), if_pos hk]
    exact ⟨_, rfl, rfl, rfl, rfl⟩
  · intro r hr hcalled
    by_cases hm : method = "POST"
    · by_cases hk : apiKey = none ∨ apiKey = some ""
      · unfold handler at hr
        rw [if_neg (not_not.mpr hm), if_pos hk] at hr
        cases hr
        exact Bool.noConfusion hcalled
      · by_cases hp : (payloadOf body).prop "phase" = some (.string "turn") ∨
            (payloadOf body).prop "phase" = some (.string "final")
        · exact ⟨hm, hk, hp⟩
        · rw [hphase hm hk hp] at hr
          cases hr
          exact Bool.noConfusion hcalled
    · unfold handler at hr
      rw [if_pos hm] at hr
      cases hr
      exact Bool.noConfusion hcalled
  · intro hm hk hp hnt
    have hacc := (phaseAccepted_iff _).mpr hp
    unfold handler
    rw [if_neg (not_not.mpr hm), if_neg hk, hacc, hnt]
    simp only [Bool.not_true, Bool.false_eq_true, if_false]
    rcases remote with _ | _ | (_ | _) <;> exact ⟨_, rfl, rfl⟩
  · intro hm hk hp ht
    have hacc := (phaseAccepted_iff _).mpr hp
    unfold handler
    rw [if_neg (not_not.mpr hm), if_neg hk, hacc, ht]
    rfl

theorem handler_validation_witness :
    ("POST" : String) = "POST" ∧
    ¬ ((some "key" : Option String) = none ∨ (some "key" : Option String) = some "") ∧
    ((payloadOf (some (.object [("phase", .string "turn"), ("history", .null)]))).prop "phase" =
        some (.string "turn") ∨
      (payloadOf (some (.object [("phase", .string "turn"), ("history", .null)]))).prop "phase" =
        some (.string "final")) ∧
    promptThrows (payloadOf (some (.object [("phase", .string "turn"), ("history", .null)]))) =
      true ∧
    handler "POST" (some "key") (some (.object [("phase", .string "turn"), ("history", .null)]))
      (.content (some "x")) = none :=
  ⟨rfl, by decide, (phaseAccepted_iff _).mp (by decide), by decide,
    (handler_validation "POST" (some "key")
      (some (.object [("phase", .string "turn"), ("history", .null)]))
      (.content (some "x"))).2.2.2.2.2 rfl (by decide) ((phaseAccepted_iff _).mp (by decide))
      (by decide)⟩

/-- C28: for every student config, whatever its GPA and attendance, and every draw in [0,1),
`initialFavorabilityFromStats` returns at most 54; the upper clamp at 80 never takes effect
(the result is the rounded base, raised to 10 when below), and the initial favorability is
at least 21 below the threshold 75 of the outcome "high". -/
theorem initialFavorabilityFromStats_le (config : Option StudentConfig) (r : ℚ)
    (hr : 0 ≤ r ∧ r < 1) :
    initialFavorabilityFromStats config r ≤ 54 ∧
    (∀ cfg, config = some cfg →
      initialFavorabilityFromStats config r =
        max 10 (mathRound (35 + (clamp cfg.gpa 0 (43 / 10) - 27 / 10) * 6 +
          (clamp cfg.attendance 0 100 - 60) * (15 / 100) + (r - 1 / 2) * 6)) ∧
      mathRound (35 + (clamp cfg.gpa 0 (43 / 10) - 27 / 10) * 6 +
          (clamp cfg.attendance 0 100 - 60) * (15 / 100) + (r - 1 / 2) * 6) ≤ 54) ∧
    21 ≤ 75 - initialFavorabilityFromStats config r := by
  have key : ∀ cfg : StudentConfig,
      mathRound (35 + (clamp cfg.gpa 0 (43 / 10) - 27 / 10) * 6 +
          (clamp cfg.attendance 0 100 - 60) * (15 / 100) + (r - 1 / 2) * 6) ≤ 54 := by
    intro cfg
    have hg := (clamp_bounds cfg.gpa 0 (43 / 10) (by norm_num)).2
    have ha := (clamp_bounds cfg.attendance 0 100 (by norm_num)).2
    unfold mathRound
    have hlt : 35 + (clamp cfg.gpa 0 (43 / 10) - 27 / 10) * 6 +
        (clamp cfg.attendance 0 100 - 60) * (15 / 100) + (r - 1 / 2) * 6 + 1 / 2 < 55 := by
      linarith [hr.2]
    have hfl : ⌊35 + (clamp cfg.gpa 0 (43 / 10) - 27 / 10) * 6 +
        (clamp cfg.attendance 0 100 - 60) * (15 / 100) + (r - 1 / 2) * 6 + 1 / 2⌋ < 55 :=
      Int.floor_lt.mpr (by push_cast; exact hlt)
    have : ⌊35 + (clamp cfg.gpa 0 (43 / 10) - 27 / 10) * 6 +
        (clamp cfg.attendance 0 100 - 60) * (15 / 100) + (r - 1 / 2) * 6 + 1 / 2⌋ ≤ 54 := by
      omega
    exact_mod_cast this
  have hval : ∀ cfg : StudentConfig,
      initialFavorabilityFromStats (some cfg) r =
        max 10 (mathRound (35 + (clamp cfg.gpa 0 (43 / 10) - 27 / 10) * 6 +
          (clamp cfg.attendance 0 100 - 60) * (15 / 100) + (r - 1 / 2) * 6)) := by
    intro cfg
    show clamp _ 10 80 = _
    unfold clamp
    exact min_eq_right (max_le (by norm_num) (le_trans (key cfg) (by norm_num)))
  have hle : initialFavorabilityFromStats config r ≤ 54 := by
    cases config with
    | none => norm_num [initialFavorabilityFromStats]
    | some cfg =>
      rw [hval cfg]
      exact max_le (by norm_num) (key cfg)
  refine ⟨hle, ?_, by linarith⟩
  rintro cfg rfl
  exact ⟨hval cfg, key cfg⟩

theorem initialFavorabilityFromStats_le_witness :
    ((0 : ℚ) ≤ 99 / 100 ∧ (99 / 100 : ℚ) < 1) ∧
    initialFavorabilityFromStats (some ⟨"Ann", 43 / 10, 100⟩) (99 / 100) ≤ 54 :=
  ⟨by constructor <;> norm_num,
    (initialFavorabilityFromStats_le (some ⟨"Ann", 43 / 10, 100⟩) (99 / 100)
      (by constructor <;> norm_num)).1⟩
/-! ## Lemmas on keywords in short texts -/

theorem mem_of_includes (s p : List Char) (h : includes s p = true) : ∀ c ∈ p, c ∈ s := by
  obtain ⟨a, b, rfl⟩ := (includes_iff s p).mp h
  intro c hc
  simp [hc]

theorem dropWhile_keeps_from (a t : List Char) (x : Char) (hx : isWhiteSpace x = false) :
    ∃ a', List.dropWhile isWhiteSpace (a ++ x :: t) = a' ++ x :: t := by
  induction a with
  | nil => exact ⟨[], by simp [hx]⟩
  | cons y ys ih =>
    by_cases hy : isWhiteSpace y = true
    · obtain ⟨a', ha'⟩ := ih
      exact ⟨a', by rw [List.cons_append, List.dropWhile_cons_of_pos hy, ha']⟩
    · exact ⟨y :: ys, by rw [List.cons_append, List.dropWhile_cons_of_neg hy]⟩

theorem trim_length_ge (s p : List Char) (hne : p ≠ [])
    (hall : ∀ c ∈ p, isWhiteSpace c = false) (h : includes s p = true) :
    p.length ≤ (trim s).length := by
  obtain ⟨a, b, rfl⟩ := (includes_iff s p).mp h
  cases p with
  | nil => exact absurd rfl hne
  | cons x q =>
    obtain ⟨a', ha'⟩ := dropWhile_keeps_from a (q ++ b) x (hall x (by simp))
    have hrev : (x :: q).reverse ≠ [] := by simp
    cases hq : (x :: q).reverse with
    | nil => exact absurd hq hrev
    | cons y q' =>
      have hy : isWhiteSpace y = false := by
        apply hall
        have : y ∈ (x :: q).reverse := by rw [hq]; simp
        exact List.mem_reverse.mp this
      obtain ⟨b', hb'⟩ := dropWhile_keeps_from b.reverse (q' ++ a'.reverse) y hy
      have hlen : q.length = q'.length := by
        have := congrArg List.length hq
        simpa using this
      unfold trim
      have e1 : a ++ (x :: q) ++ b = a ++ x :: (q ++ b) := by simp
      rw [e1, ha']
      have e2 : (a' ++ x :: (q ++ b)).reverse = b.reverse ++ y :: (q' ++ a'.reverse) := by
        have : a' ++ x :: (q ++ b) = a' ++ ((x :: q) ++ b) := by simp
        rw [this, List.reverse_append, List.reverse_append, hq]
        simp
      rw [e2, hb']
      simp only [List.length_reverse, List.length_append, List.length_cons]
      omega

theorem exists_nonblank_of_keywordNotShort (p : List Char) (hk : keywordNotShort p = true) :
    ∃ c ∈ p, isWhiteSpace c = false := by
  unfold keywordNotShort at hk
  simp only [Bool.or_eq_true, List.any_eq_true, Bool.not_eq_true', Bool.and_eq_true,
    decide_eq_true_eq, List.all_eq_true] at hk
  rcases hk with ⟨c, hc, hcl⟩ | ⟨hlen, hall⟩
  · refine ⟨c, hc, ?_⟩
    rw [isAlnumOrSpace_eq, Bool.or_eq_false_iff] at hcl
    exact hcl.2
  · cases p with
    | nil => simp at hlen
    | cons x q => exact ⟨x, by simp, hall x (by simp)⟩

theorem includes_false_of_nonsense (s p : List Char)
    (hclass : ∀ c ∈ s, isAlnumOrSpace c = true) (hlen : jsLength (trim s) ≤ 2)
    (hk : keywordNotShort p = true) : includes s p = false := by
  cases hi : includes s p with
  | false => rfl
  | true =>
    exfalso
    unfold keywordNotShort at hk
    simp only [Bool.or_eq_true, List.any_eq_true, Bool.not_eq_true', Bool.and_eq_true,
      decide_eq_true_eq, List.all_eq_true] at hk
    rcases hk with ⟨c, hc, hcl⟩ | ⟨h3, hall⟩
    · have := hclass c (mem_of_includes s p hi c hc)
      rw [hcl] at this
      exact Bool.noConfusion this
    · have hne : p ≠ [] := by
        rintro rfl
        simp at h3
      have := trim_length_ge s p hne hall hi
      have := length_le_jsLength (trim s)
      omega

theorem includes_false_of_blank (s p : List Char)
    (hws : ∀ c ∈ s, isWhiteSpace c = true) (hk : keywordNotShort p = true) :
    includes s p = false := by
  cases hi : includes s p with
  | false => rfl
  | true =>
    exfalso
    obtain ⟨c, hc, hcw⟩ := exists_nonblank_of_keywordNotShort p hk
    have := hws c (mem_of_includes s p hi c hc)
    rw [hcw] at this
    exact Bool.noConfusion this

theorem lowerChar_of_isWhiteSpace (c : Char) (h : isWhiteSpace c = true) : lowerChar c = [c] := by
  simp only [isWhiteSpace, Bool.or_eq_true, Bool.and_eq_true, decide_eq_true_eq,
    beq_iff_eq] at h
  unfold lowerChar
  rw [if_neg (by omega), if_neg (by omega), if_neg (by omega)]

theorem toLowerCase_of_blank (s : List Char) (h : ∀ c ∈ s, isWhiteSpace c = true) :
    toLowerCase s = s := by
  induction s with
  | nil => rfl
  | cons c cs ih =>
    have h1 := lowerChar_of_isWhiteSpace c (h c (by simp))
    have h2 := ih (fun x hx => h x (by simp [hx]))
    simp only [toLowerCase, List.flatMap_cons] at h2 ⊢
    rw [h1, h2]
    rfl

theorem blank_of_trim_empty (s : List Char) (h : jsLength (trim s) = 0) :
    ∀ c ∈ s, isWhiteSpace c = true := by
  obtain ⟨ws1, ws2, hs, h1, h2, _, _⟩ := trim_decomposition s
  have hl := length_le_jsLength (trim s)
  have hnil : trim s = [] := List.length_eq_zero.mp (by omega)
  rw [hnil] at hs
  intro c hc
  rw [hs] at hc
  simp only [List.append_nil, List.mem_append] at hc
  rcases hc with hc | hc
  · exact h1 c hc
  · exact h2 c hc

theorem testAny_false_of (pats : List String) (s : List Char)
    (h : ∀ p ∈ pats, includes s p.data = false) : testAny pats s = false := by
  cases ht : testAny pats s with
  | false => rfl
  | true =>
    simp only [testAny, List.any_eq_true] at ht
    obtain ⟨p, hp, hi⟩ := ht
    rw [h p hp] at hi
    exact Bool.noConfusion hi

theorem testAny_false_of_short (pats : List String) (text : String)
    (hk : ∀ p ∈ pats, keywordNotShort p.data = true)
    (h : (analyzeMessageContent text).nonsense = true ∨ jsLength (trim text.data) = 0) :
    testAny pats (toLowerCase text.data) = false := by
  apply testAny_false_of
  intro p hp
  rcases h with h | h
  · have hn : (testAlnumOnly (toLowerCase text.data) &&
        decide (jsLength (trim (toLowerCase text.data)) ≤ 2)) = true := h
    simp only [Bool.and_eq_true, decide_eq_true_eq, testAlnumOnly, List.all_eq_true] at hn
    exact includes_false_of_nonsense _ _ hn.1 hn.2 (hk p hp)
  · have hb := blank_of_trim_empty text.data h
    rw [toLowerCase_of_blank text.data hb]
    exact includes_false_of_blank _ _ hb (hk p hp)

/-- C27: no text has both the nonsense feature (or an empty trimmed text) and the
`mentionLetter` feature, nor the thanks feature; so on round 1 such a message never reaches
the nonsense branch: it takes the introduction branch and receives the positive delta 2 or 5.
For example "hi" scores +5 on round 1 and -3 on any later round. -/
theorem nonsense_never_mentions_letter (text : String)
    (h : (analyzeMessageContent text).nonsense = true ∨ jsLength (trim text.data) = 0) :
    (analyzeMessageContent text).mentionLetter = false ∧
    (analyzeMessageContent text).thanks = false ∧
    (∀ (st : GameState) (r1 r2 : ℚ), st.currentRound = 1 →
      getProfessorResponse st text r1 r2 =
        introductionBranch st.language (analyzeMessageContent text) ∧
      ((getProfessorResponse st text r1 r2).delta = 2 ∨
        (getProfessorResponse st text r1 r2).delta = 5) ∧
      0 < (getProfessorResponse st text r1 r2).delta) ∧
    (∀ (st : GameState) (r1 r2 : ℚ), st.currentRound = 1 →
      (getProfessorResponse st "hi" r1 r2).delta = 5) ∧
    (∀ (st : GameState) (r1 r2 : ℚ), st.currentRound ≠ 1 →
      (getProfessorResponse st "hi" r1 r2).delta = -3) := by
  have hm : (analyzeMessageContent text).mentionLetter = false :=
    testAny_false_of_short ["letter", "reference", "recommend", "推薦", "referee"] text
      (by decide) h
  have ht : (analyzeMessageContent text).thanks = false :=
    testAny_false_of_short ["thank", "appreciate", "grateful", "多謝", "感謝"] text
      (by decide) h
  refine ⟨hm, ht, ?_, ?_, ?_⟩
  · intro st r1 r2 hr
    have hi := getProfessorResponse_introduction st text r1 r2 hr hm
    have hd : (getProfessorResponse st text r1 r2).delta =
        (if (analyzeMessageContent text).greeting then 5 else 2) := by
      rw [hi, introductionBranch_delta, ht]
      simp
    refine ⟨hi, ?_, ?_⟩
    · rw [hd]
      split_ifs
      · exact Or.inr rfl
      · exact Or.inl rfl
    · rw [hd]
      split_ifs <;> norm_num
  · intro st r1 r2 hr
    rw [getProfessorResponse_introduction st "hi" r1 r2 hr (by decide),
      introductionBranch_delta]
    have hg : (analyzeMessageContent "hi").greeting = true := by decide
    have hth : (analyzeMessageContent "hi").thanks = false := by decide
    rw [hg, hth]
    norm_num
  · intro st r1 r2 hr
    rw [getProfessorResponse_delta_eq]
    have hn : (analyzeMessageContent "hi").nonsense = true := by decide
    rw [if_neg (fun hc => hr hc.1), if_pos (Or.inl hn)]

theorem nonsense_never_mentions_letter_witness :
    ((analyzeMessageContent " ok ").nonsense = true ∨ jsLength (trim " ok ".data) = 0) ∧
    (analyzeMessageContent " ok ").mentionLetter = false ∧
    (analyzeMessageContent " ok ").thanks = false ∧
    getProfessorResponse ⟨1, 40, some ⟨"Ann", 3, 50⟩, "en", false, []⟩ " ok " (1 / 4) (1 / 2) =
      introductionBranch "en" (analyzeMessageContent " ok ") :=
  ⟨Or.inl (by decide),
    (nonsense_never_mentions_letter " ok " (Or.inl (by decide))).1,
    (nonsense_never_mentions_letter " ok " (Or.inl (by decide))).2.1,
    ((nonsense_never_mentions_letter " ok " (Or.inl (by decide))).2.2.1
      ⟨1, 40, some ⟨"Ann", 3, 50⟩, "en", false, []⟩ (1 / 4) (1 / 2) rfl).1⟩

/-! ## Lemmas on binary64 rounding -/

theorem roundHalfEven_bounds (x : ℚ) :
    ⌊x⌋ ≤ roundHalfEven x ∧ roundHalfEven x ≤ ⌊x⌋ + 1 := by
  unfold roundHalfEven
  split_ifs <;> omega

theorem roundHalfEven_intCast (n : ℤ) : roundHalfEven (n : ℚ) = n := by
  unfold roundHalfEven
  rw [Int.floor_intCast]
  simp

theorem roundHalfEven_eq_of_near (x : ℚ) (m : ℤ) (h : |x - m| < 1 / 2) :
    roundHalfEven x = m := by
  rw [abs_lt] at h
  by_cases hx : (m : ℚ) ≤ x
  · have hf : ⌊x⌋ = m := Int.floor_eq_iff.mpr ⟨hx, by linarith [h.2]⟩
    unfold roundHalfEven
    rw [hf, if_pos (by linarith [h.2])]
  · push_neg at hx
    have hf : ⌊x⌋ = m - 1 := Int.floor_eq_iff.mpr ⟨by push_cast; linarith [h.1], by push_cast; linarith⟩
    unfold roundHalfEven
    rw [hf, if_neg (by push_cast; linarith [h.1]), if_pos (by push_cast; linarith [h.1])]
    ring

theorem roundHalfEven_mono (x y : ℚ) (h : x ≤ y) : roundHalfEven x ≤ roundHalfEven y := by
  have hfl : ⌊x⌋ ≤ ⌊y⌋ := Int.floor_mono h
  rcases lt_or_eq_of_le hfl with hlt | heq
  · have := (roundHalfEven_bounds x).2
    have := (roundHalfEven_bounds y).1
    omega
  · unfold roundHalfEven
    rw [← heq]
    split_ifs <;> first | omega | (exfalso; linarith)

theorem log_two_eq (x : ℚ) (e : ℤ) (h1 : 2 ^ e ≤ x) (h2 : x < 2 ^ (e + 1)) :
    Int.log 2 x = e := by
  have hx : 0 < x := lt_of_lt_of_le (by positivity) h1
  have ha : e ≤ Int.log 2 x :=
    (Int.zpow_le_iff_le_log (by norm_num) hx).mp (by exact_mod_cast h1)
  have hb : Int.log 2 x < e + 1 :=
    (Int.lt_zpow_iff_log_lt (by norm_num) hx).mp (by exact_mod_cast h2)
  omega

theorem roundMagnitude_nonneg (x : ℚ) (h : 0 ≤ x) : 0 ≤ roundMagnitude x := by
  unfold roundMagnitude
  have h0 : (0 : ℤ) ≤ roundHalfEven (x / 2 ^ ulpExponent x) := by
    have := roundHalfEven_mono 0 (x / 2 ^ ulpExponent x) (by positivity)
    have h00 : roundHalfEven 0 = 0 := by exact_mod_cast roundHalfEven_intCast 0
    omega
  have : (0 : ℚ) ≤ (roundHalfEven (x / 2 ^ ulpExponent x) : ℚ) := by exact_mod_cast h0
  positivity

theorem roundMagnitude_zero : roundMagnitude 0 = 0 := by
  unfold roundMagnitude
  have h00 : roundHalfEven 0 = 0 := by exact_mod_cast roundHalfEven_intCast 0
  simp [h00]

theorem log_two_spec (x : ℚ) (hx : 0 < x) :
    (2 : ℚ) ^ Int.log 2 x ≤ x ∧ x < (2 : ℚ) ^ (Int.log 2 x + 1) := by
  have h1 := Int.zpow_log_le_self (b := 2) (r := x) (by norm_num) hx
  have h2 := Int.lt_zpow_succ_log_self (b := 2) (by norm_num) x
  exact ⟨by exact_mod_cast h1, by exact_mod_cast h2⟩

theorem two_pow_mul_zpow (k : ℕ) (j : ℤ) : ((2 ^ k : ℤ) : ℚ) * 2 ^ j = 2 ^ (j + k) := by
  rw [zpow_add₀ (by norm_num), zpow_natCast]
  push_cast
  ring

theorem roundMagnitude_le_pow (x : ℚ) (hx : 0 < x) :
    roundMagnitude x ≤ 2 ^ (max (Int.log 2 x) (-1022) + 1) := by
  have hs := log_two_spec x hx
  have hj : (0 : ℚ) < 2 ^ ulpExponent x := by positivity
  have hle : x / 2 ^ ulpExponent x ≤ ((2 ^ 53 : ℤ) : ℚ) := by
    rw [div_le_iff₀ hj]
    have : ((2 ^ 53 : ℤ) : ℚ) * 2 ^ ulpExponent x = 2 ^ (max (Int.log 2 x) (-1022) + 1) := by
      rw [two_pow_mul_zpow]
      unfold ulpExponent
      congr 1
      push_cast
      ring
    rw [this]
    have : (2 : ℚ) ^ (Int.log 2 x + 1) ≤ 2 ^ (max (Int.log 2 x) (-1022) + 1) :=
      zpow_le_zpow_right₀ (by norm_num) (by have := le_max_left (Int.log 2 x) (-1022); omega)
    linarith [hs.2]
  have hr := roundHalfEven_mono _ _ hle
  rw [roundHalfEven_intCast] at hr
  unfold roundMagnitude
  have hq : (roundHalfEven (x / 2 ^ ulpExponent x) : ℚ) ≤ ((2 ^ 53 : ℤ) : ℚ) := by exact_mod_cast hr
  calc (roundHalfEven (x / 2 ^ ulpExponent x) : ℚ) * 2 ^ ulpExponent x
      ≤ ((2 ^ 53 : ℤ) : ℚ) * 2 ^ ulpExponent x := by
        exact mul_le_mul_of_nonneg_right hq hj.le
    _ = 2 ^ (max (Int.log 2 x) (-1022) + 1) := by
      rw [two_pow_mul_zpow]
      unfold ulpExponent
      congr 1
      push_cast
      ring

theorem pow_le_roundMagnitude (x : ℚ) (hx : 0 < x) (he : -1022 ≤ Int.log 2 x) :
    2 ^ Int.log 2 x ≤ roundMagnitude x := by
  have hs := log_two_spec x hx
  have hj : (0 : ℚ) < 2 ^ ulpExponent x := by positivity
  have hu : ulpExponent x = Int.log 2 x - 52 := by
    unfold ulpExponent
    rw [max_eq_left he]
  have key : ((2 ^ 52 : ℤ) : ℚ) * 2 ^ ulpExponent x = 2 ^ Int.log 2 x := by
    rw [two_pow_mul_zpow, hu]
    congr 1
    push_cast
    ring
  have hle : ((2 ^ 52 : ℤ) : ℚ) ≤ x / 2 ^ ulpExponent x := by
    rw [le_div_iff₀ hj, key]
    exact hs.1
  have hr := roundHalfEven_mono _ _ hle
  rw [roundHalfEven_intCast] at hr
  unfold roundMagnitude
  have hq : ((2 ^ 52 : ℤ) : ℚ) ≤ (roundHalfEven (x / 2 ^ ulpExponent x) : ℚ) := by exact_mod_cast hr
  calc (2 : ℚ) ^ Int.log 2 x = ((2 ^ 52 : ℤ) : ℚ) * 2 ^ ulpExponent x := key.symm
    _ ≤ (roundHalfEven (x / 2 ^ ulpExponent x) : ℚ) * 2 ^ ulpExponent x :=
        mul_le_mul_of_nonneg_right hq hj.le

theorem roundMagnitude_mono (x y : ℚ) (hx : 0 ≤ x) (h : x ≤ y) :
    roundMagnitude x ≤ roundMagnitude y := by
  rcases eq_or_lt_of_le hx with h0 | hpos
  · rw [← h0, roundMagnitude_zero]
    exact roundMagnitude_nonneg y (le_trans hx h)
  · have hy : 0 < y := lt_of_lt_of_le hpos h
    have hlog : Int.log 2 x ≤ Int.log 2 y := Int.log_mono_right hpos h
    by_cases hj : ulpExponent x = ulpExponent y
    · unfold roundMagnitude
      rw [hj]
      have hq : (0 : ℚ) < 2 ^ ulpExponent y := by positivity
      have := roundHalfEven_mono (x / 2 ^ ulpExponent y) (y / 2 ^ ulpExponent y)
        (div_le_div_of_nonneg_right h hq.le)
      exact mul_le_mul_of_nonneg_right (by exact_mod_cast this) hq.le
    · have hlt : max (Int.log 2 x) (-1022) < max (Int.log 2 y) (-1022) := by
        have hle : max (Int.log 2 x) (-1022) ≤ max (Int.log 2 y) (-1022) :=
          max_le_max hlog le_rfl
        rcases lt_or_eq_of_le hle with hl | he
        · exact hl
        · exact absurd (by unfold ulpExponent; rw [he]) hj
      have hey : -1022 < Int.log 2 y := by
        by_contra hc
        push_neg at hc
        rw [max_eq_right hc] at hlt
        have := le_max_right (Int.log 2 x) (-1022)
        omega
      have hmy : max (Int.log 2 y) (-1022) = Int.log 2 y := max_eq_left hey.le
      rw [hmy] at hlt
      calc roundMagnitude x ≤ 2 ^ (max (Int.log 2 x) (-1022) + 1) := roundMagnitude_le_pow x hpos
        _ ≤ 2 ^ Int.log 2 y := zpow_le_zpow_right₀ (by norm_num) (by omega)
        _ ≤ roundMagnitude y := pow_le_roundMagnitude y hy hey.le

theorem binary64_mono (x y : ℚ) (h : x ≤ y) : binary64 x ≤ binary64 y := by
  unfold binary64
  by_cases hx : x < 0
  · by_cases hy : y < 0
    · rw [if_pos hx, if_pos hy]
      have := roundMagnitude_mono (-y) (-x) (by linarith) (by linarith)
      linarith
    · rw [if_pos hx, if_neg hy]
      have := roundMagnitude_nonneg (-x) (by linarith)
      have := roundMagnitude_nonneg y (by linarith)
      linarith
  · have hy : ¬ y < 0 := by linarith
    rw [if_neg hx, if_neg hy]
    exact roundMagnitude_mono x y (by linarith) h

theorem binary64_neg (x : ℚ) : binary64 (-x) = -binary64 x := by
  unfold binary64
  rcases lt_trichotomy x 0 with h | h | h
  · rw [if_neg (by linarith), if_pos h]
    simp
  · subst h
    simp [roundMagnitude_zero]
  · rw [if_pos (by linarith), if_neg (by linarith)]
    simp

theorem roundMagnitude_eq_of_near (x : ℚ) (e m : ℤ) (h1 : 2 ^ e ≤ x) (h2 : x < 2 ^ (e + 1))
    (he : -1022 ≤ e) (hm : |x / 2 ^ (e - 52) - m| < 1 / 2) :
    roundMagnitude x = m * 2 ^ (e - 52) := by
  have hu : ulpExponent x = e - 52 := by
    unfold ulpExponent
    rw [log_two_eq x e h1 h2, max_eq_left he]
  unfold roundMagnitude
  rw [hu, roundHalfEven_eq_of_near _ m hm]

theorem binary64_eq_of_near (x : ℚ) (e m : ℤ) (h1 : 2 ^ e ≤ x) (h2 : x < 2 ^ (e + 1))
    (he : -1022 ≤ e) (hm : |x / 2 ^ (e - 52) - m| < 1 / 2) :
    binary64 x = m * 2 ^ (e - 52) := by
  have hx : 0 < x := lt_of_lt_of_le (by positivity) h1
  unfold binary64
  rw [if_neg (by linarith)]
  exact roundMagnitude_eq_of_near x e m h1 h2 he hm

theorem roundMagnitude_natCast (n : ℕ) (h : n < 2 ^ 53) : roundMagnitude (n : ℚ) = n := by
  rcases Nat.eq_zero_or_pos n with h0 | hpos
  · subst h0
    simpa using roundMagnitude_zero
  · have hx : (0 : ℚ) < n := by exact_mod_cast hpos
    have hs := log_two_spec (n : ℚ) hx
    have he0 : 0 ≤ Int.log 2 (n : ℚ) :=
      (Int.zpow_le_iff_le_log (by norm_num) hx).mp (by
        simp only [zpow_zero]
        exact_mod_cast hpos)
    have he1 : Int.log 2 (n : ℚ) < 53 :=
      (Int.lt_zpow_iff_log_lt (by norm_num) hx).mp (by
        norm_num
        exact h)
    have hu : ulpExponent (n : ℚ) = -((52 - Int.log 2 (n : ℚ)).toNat : ℤ) := by
      unfold ulpExponent
      rw [max_eq_left (by omega), Int.toNat_of_nonneg (by omega)]
      ring
    unfold roundMagnitude
    rw [hu, zpow_neg, zpow_natCast, div_inv_eq_mul]
    have hc : (n : ℚ) * 2 ^ (52 - Int.log 2 (n : ℚ)).toNat =
        (((n * 2 ^ (52 - Int.log 2 (n : ℚ)).toNat : ℕ) : ℤ) : ℚ) := by
      push_cast
      ring
    rw [hc, roundHalfEven_intCast]
    push_cast
    field_simp

theorem binary64_intCast (n : ℤ) (h : |n| < 2 ^ 53) : binary64 (n : ℚ) = n := by
  rcases le_or_lt 0 n with hn | hn
  · obtain ⟨k, rfl⟩ := Int.eq_ofNat_of_zero_le hn
    have hk : k < 2 ^ 53 := by
      rw [abs_of_nonneg hn] at h
      exact_mod_cast h
    unfold binary64
    rw [if_neg (not_lt.mpr (by positivity))]
    exact_mod_cast roundMagnitude_natCast k hk
  · obtain ⟨k, hk⟩ := Int.eq_ofNat_of_zero_le (show 0 ≤ -n by omega)
    have hk2 : k < 2 ^ 53 := by
      rw [abs_of_neg hn, hk] at h
      exact_mod_cast h
    have hn2 : (n : ℚ) = -((k : ℕ) : ℚ) := by
      have : n = -(k : ℤ) := by omega
      rw [this]
      push_cast
      ring
    rw [hn2, binary64_neg]
    unfold binary64
    rw [if_neg (not_lt.mpr (by positivity))]
    rw [roundMagnitude_natCast k hk2]

theorem binary64_half : binary64 (1 / 2) = 1 / 2 := by
  rw [binary64_eq_of_near (1 / 2) (-1) (2 ^ 52) (by norm_num) (by norm_num) (by norm_num)
    (by norm_num)]
  norm_num

theorem binary64_le_of_le (x : ℚ) (n : ℤ) (hn : |n| < 2 ^ 53) (h : x ≤ n) : binary64 x ≤ n := by
  have := binary64_mono x n h
  rwa [binary64_intCast n hn] at this

theorem le_binary64_of_le (x : ℚ) (n : ℤ) (hn : |n| < 2 ^ 53) (h : (n : ℚ) ≤ x) :
    (n : ℚ) ≤ binary64 x := by
  have := binary64_mono n x h
  rwa [binary64_intCast n hn] at this

/-! ## The lie detector in binary64 arithmetic -/

theorem binary64_detectLying_of_gpaMatch (text : String) (cfg : StudentConfig)
    (fig : List Char) (hA : testAny attendancePhrases (toLowerCase text.data) = false)
    (hm : gpaMatch (toLowerCase text.data) = some fig) (hf : IsGpaFigure fig) :
    Binary64.detectLying text (some cfg) =
      decide (fsub (binary64 (figureValue fig)) cfg.gpa > binary64 (2 / 5)) := by
  unfold Binary64.detectLying
  simp only [hA, hm, parseFloat_figure fig hf, Bool.false_and]
  rfl

theorem binary64_two_fifths : binary64 (2 / 5) = 3602879701896397 / 2 ^ 53 := by
  rw [binary64_eq_of_near (2 / 5) (-2) 7205759403792794 (by norm_num) (by norm_num)
    (by norm_num) (by norm_num [abs_lt])]
  norm_num

theorem binary64_three_point_seven : binary64 (37 / 10) = 8331659310635418 / 2 ^ 51 := by
  rw [binary64_eq_of_near (37 / 10) 1 8331659310635418 (by norm_num) (by norm_num)
    (by norm_num) (by norm_num [abs_lt])]
  norm_num

theorem binary64_three_point_three : binary64 (33 / 10) = 7430939385161318 / 2 ^ 51 := by
  rw [binary64_eq_of_near (33 / 10) 1 7430939385161318 (by norm_num) (by norm_num)
    (by norm_num) (by norm_num [abs_lt])]
  norm_num

theorem fsub_three_point_seven_three_point_three :
    fsub (binary64 (37 / 10)) (binary64 (33 / 10)) = 3602879701896400 / 2 ^ 53 := by
  unfold fsub
  rw [binary64_three_point_seven, binary64_three_point_three]
  rw [binary64_eq_of_near _ (-2) 7205759403792800 (by norm_num) (by norm_num)
    (by norm_num) (by norm_num [abs_lt])]
  norm_num

/-- C7: the claim fails on the running code.  The text "gpa 3.7" has no attendance phrase
and one GPA claim; against the configured GPA 3.3, held as the binary64 number nearest to
33/10, the figure exceeds the configured GPA by exactly 0.4 in decimal, which the claim says
is not flagged, and which exact arithmetic does not flag.  In binary64 the difference
3.7 - 3.3 is 3602879701896400 / 2^53, above the literal 0.4, which is
3602879701896397 / 2^53, and `detectLying` returns true. -/
theorem detectLying_flags_difference_of_two_fifths :
    testAny attendancePhrases (toLowerCase "gpa 3.7".data) = false ∧
    gpaMatch (toLowerCase "gpa 3.7".data) = some "3.7".data ∧
    figureValue "3.7".data - 33 / 10 = 2 / 5 ∧
    detectLying "gpa 3.7" (some ⟨"Ann", 33 / 10, 90⟩) = false ∧
    fsub (binary64 (figureValue "3.7".data)) (binary64 (33 / 10)) =
      3602879701896400 / 2 ^ 53 ∧
    binary64 (2 / 5) = 3602879701896397 / 2 ^ 53 ∧
    Binary64.detectLying "gpa 3.7" (some ⟨"Ann", binary64 (33 / 10), 90⟩) = true := by
  have hA : testAny attendancePhrases (toLowerCase "gpa 3.7".data) = false := by decide
  have hm : gpaMatch (toLowerCase "gpa 3.7".data) = some "3.7".data := by decide
  have hf : IsGpaFigure "3.7".data := ⟨'3', '7', by decide, by decide, Or.inl rfl⟩
  have h3 : digitValue '3' = 3 := by decide
  have h7 : digitValue '7' = 7 := by decide
  have hv : figureValue "3.7".data = 37 / 10 := by
    show (digitValue '3' : ℚ) + (digitValue '7' : ℚ) / 10 = 37 / 10
    rw [h3, h7]
    norm_num
  refine ⟨hA, hm, ?_, ?_, ?_, binary64_two_fifths, ?_⟩
  · rw [hv]
    norm_num
  · rw [detectLying_of_gpaMatch "gpa 3.7" _ "3.7".data hA hm hf, hv]
    norm_num
  · rw [hv]
    exact fsub_three_point_seven_three_point_three
  · rw [binary64_detectLying_of_gpaMatch "gpa 3.7" _ "3.7".data hA hm hf, hv]
    show decide (fsub (binary64 (37 / 10)) (binary64 (33 / 10)) > binary64 (2 / 5)) = true
    rw [fsub_three_point_seven_three_point_three, binary64_two_fifths]
    norm_num

/-! ## The scoring policy in binary64 arithmetic -/

theorem binary64_int_bounds (x : ℚ) (lo hi : ℤ) (hlo : |lo| < 2 ^ 53) (hhi : |hi| < 2 ^ 53)
    (h : (lo : ℚ) ≤ x ∧ x ≤ hi) : (lo : ℚ) ≤ binary64 x ∧ binary64 x ≤ hi :=
  ⟨le_binary64_of_le x lo hlo h.1, binary64_le_of_le x hi hhi h.2⟩

theorem addIf_bounds (c : Bool) (d : ℚ) (k lo hi : ℤ) (hk : 0 ≤ k) (hlo : |lo| < 2 ^ 53)
    (hhi : |hi + k| < 2 ^ 53) (h : (lo : ℚ) ≤ d ∧ d ≤ hi) :
    (lo : ℚ) ≤ addIf c d k ∧ addIf c d k ≤ ((hi + k : ℤ) : ℚ) := by
  have hkq : (0 : ℚ) ≤ k := by exact_mod_cast hk
  unfold addIf
  cases c with
  | false =>
    simp only [Bool.false_eq_true, if_false]
    exact ⟨h.1, by push_cast; linarith [h.2]⟩
  | true =>
    simp only [if_true]
    exact binary64_int_bounds (d + k) lo (hi + k) hlo hhi
      ⟨by linarith [h.1], by push_cast; linarith [h.2]⟩

theorem noise_bounds (r1 : ℚ) (h : 0 ≤ r1 ∧ r1 < 1) :
    -1 ≤ fmul (fsub r1 (1 / 2)) 2 ∧ fmul (fsub r1 (1 / 2)) 2 ≤ 1 := by
  have hup : fsub r1 (1 / 2) ≤ 1 / 2 := by
    have := binary64_mono (r1 - 1 / 2) (1 / 2) (by linarith [h.2])
    rwa [binary64_half] at this
  have hlo : -(1 / 2) ≤ fsub r1 (1 / 2) := by
    have := binary64_mono (-(1 / 2)) (r1 - 1 / 2) (by linarith [h.1])
    rwa [binary64_neg, binary64_half] at this
  have := binary64_int_bounds (fsub r1 (1 / 2) * 2) (-1) 1 (by norm_num) (by norm_num)
    ⟨by push_cast; linarith, by push_cast; linarith⟩
  push_cast at this
  exact this

theorem binary64_bonusStage_bounds (f : Features) (r1 d : ℚ) (h : 0 ≤ r1 ∧ r1 < 1)
    (hd : -2 ≤ d ∧ d ≤ 10) :
    -3 ≤ Binary64.bonusStage f r1 d ∧ Binary64.bonusStage f r1 d ≤ 22 := by
  have s1 := addIf_bounds f.flattery d 4 (-2) 10 (by norm_num) (by norm_num) (by norm_num)
    ⟨by push_cast; exact hd.1, by push_cast; exact hd.2⟩
  have s2 := addIf_bounds f.thanks _ 2 (-2) (10 + 4) (by norm_num) (by norm_num)
    (by norm_num) s1
  have s3 := addIf_bounds f.effort _ 3 (-2) (10 + 4 + 2) (by norm_num) (by norm_num)
    (by norm_num) s2
  have s4 := addIf_bounds f.future _ 2 (-2) (10 + 4 + 2 + 3) (by norm_num) (by norm_num)
    (by norm_num) s3
  have hn := noise_bounds r1 h
  push_cast at s4
  have := binary64_int_bounds
    (addIf f.future (addIf f.effort (addIf f.thanks (addIf f.flattery d 4) 2) 3) 2 +
      fmul (fsub r1 (1 / 2)) 2) (-3) 22 (by norm_num) (by norm_num)
    ⟨by push_cast; linarith [s4.1, hn.1], by push_cast; linarith [s4.2, hn.2]⟩
  push_cast at this
  exact this

theorem binary64_lyingBranch_delta_bounds (language : String) (r1 r2 : ℚ)
    (h : 0 ≤ r2 ∧ r2 < 1) :
    -24 ≤ (Binary64.lyingBranch language r1 r2).delta ∧
      (Binary64.lyingBranch language r1 r2).delta ≤ -8 := by
  have hm : 0 ≤ fmul r2 6 ∧ fmul r2 6 ≤ 6 := by
    have := binary64_int_bounds (r2 * 6) 0 6 (by norm_num) (by norm_num)
      ⟨by push_cast; linarith [h.1], by push_cast; linarith [h.2]⟩
    push_cast at this
    exact this
  have ha : 18 ≤ fadd 18 (fmul r2 6) ∧ fadd 18 (fmul r2 6) ≤ 24 := by
    have := binary64_int_bounds (18 + fmul r2 6) 18 24 (by norm_num) (by norm_num)
      ⟨by push_cast; linarith [hm.1], by push_cast; linarith [hm.2]⟩
    push_cast at this
    exact this
  have hb : 8 ≤ fadd 8 (fmul r2 6) ∧ fadd 8 (fmul r2 6) ≤ 14 := by
    have := binary64_int_bounds (8 + fmul r2 6) 8 14 (by norm_num) (by norm_num)
      ⟨by push_cast; linarith [hm.1], by push_cast; linarith [hm.2]⟩
    push_cast at this
    exact this
  have hc : -24 ≤ fsub 0 (fadd 18 (fmul r2 6)) ∧ fsub 0 (fadd 18 (fmul r2 6)) ≤ -18 := by
    have := binary64_int_bounds (0 - fadd 18 (fmul r2 6)) (-24) (-18) (by norm_num)
      (by norm_num) ⟨by push_cast; linarith [ha.2], by push_cast; linarith [ha.1]⟩
    push_cast at this
    exact this
  have hd : -14 ≤ fsub 0 (fadd 8 (fmul r2 6)) ∧ fsub 0 (fadd 8 (fmul r2 6)) ≤ -8 := by
    have := binary64_int_bounds (0 - fadd 8 (fmul r2 6)) (-14) (-8) (by norm_num)
      (by norm_num) ⟨by push_cast; linarith [hb.2], by push_cast; linarith [hb.1]⟩
    push_cast at this
    exact this
  unfold Binary64.lyingBranch
  by_cases hr : r1 < binary64 (3 / 5)
  · rw [if_pos hr]
    show -24 ≤ fsub 0 (fadd 18 (fmul r2 6)) ∧ fsub 0 (fadd 18 (fmul r2 6)) ≤ -8
    exact ⟨hc.1, by linarith [hc.2]⟩
  · rw [if_neg hr]
    show -24 ≤ fsub 0 (fadd 8 (fmul r2 6)) ∧ fsub 0 (fadd 8 (fmul r2 6)) ≤ -8
    exact ⟨by linarith [hd.1], hd.2⟩

theorem binary64_detectLying_eq_false (text : String)
    (hT : testAny attendancePhrases (toLowerCase text.data) = false)
    (hm : gpaMatch (toLowerCase text.data) = none) (config : Option StudentConfig) :
    Binary64.detectLying text config = false := by
  cases config with
  | none => rfl
  | some cfg =>
    unfold Binary64.detectLying
    simp only [hT, hm, Bool.false_and]
    rfl

theorem binary64_getProfessorResponse_topic (st : GameState) (userText : String) (r1 r2 : ℚ)
    (hintro : st.currentRound ≠ 1 ∨ (analyzeMessageContent userText).mentionLetter = true)
    (hnon : (analyzeMessageContent userText).nonsense = false ∧
      jsLength (trim userText.data) ≠ 0)
    (hly : Binary64.detectLying userText st.studentConfig = false) :
    (Binary64.getProfessorResponse st userText r1 r2).delta =
      Binary64.bonusStage (analyzeMessageContent userText) r1
        (topicBranch st.language (analyzeMessageContent userText)).delta := by
  unfold Binary64.getProfessorResponse
  simp only
  have h3 : ((analyzeMessageContent userText).nonsense ||
      jsLength (trim userText.data) == 0) = false := by
    rw [hnon.1, Bool.false_or]
    exact beq_false_of_ne hnon.2
  rw [if_neg (not_introduction_of st userText hintro), h3, hly]
  rfl

theorem binary64_delta_range (st : GameState) (userText : String) (r1 r2 : ℚ)
    (h1 : 0 ≤ r1 ∧ r1 < 1) (h2 : 0 ≤ r2 ∧ r2 < 1) :
    -30 ≤ (Binary64.getProfessorResponse st userText r1 r2).delta ∧
      (Binary64.getProfessorResponse st userText r1 r2).delta ≤ 30 := by
  have hb := binary64_bonusStage_bounds (analyzeMessageContent userText) r1
    (topicBranch st.language (analyzeMessageContent userText)).delta h1
    (topicBranch_delta_bounds st.language (analyzeMessageContent userText))
  have hl := binary64_lyingBranch_delta_bounds st.language r1 r2 h2
  have hi := introductionBranch_delta st.language (analyzeMessageContent userText)
  unfold Binary64.getProfessorResponse
  simp only
  split_ifs
  · rw [hi]
    split_ifs <;> constructor <;> norm_num
  · constructor <;> norm_num [nonsenseBranch]
  · exact ⟨by linarith [hl.1], by linarith [hl.2]⟩
  · exact ⟨by linarith [hb.1], by linarith [hb.2]⟩

theorem binary64_all_boosts_top_draw (f : Features) (hfl : f.flattery = true)
    (hth : f.thanks = true) (hef : f.effort = true) (hfu : f.future = true) :
    Binary64.bonusStage f (1 - 1 / 2 ^ 52) 10 = 22 := by
  have h14 : binary64 (14 : ℚ) = 14 := by
    have := binary64_intCast 14 (by norm_num)
    push_cast at this
    exact this
  have h16 : binary64 (16 : ℚ) = 16 := by
    have := binary64_intCast 16 (by norm_num)
    push_cast at this
    exact this
  have h19 : binary64 (19 : ℚ) = 19 := by
    have := binary64_intCast 19 (by norm_num)
    push_cast at this
    exact this
  have h21 : binary64 (21 : ℚ) = 21 := by
    have := binary64_intCast 21 (by norm_num)
    push_cast at this
    exact this
  have hs : fsub (1 - 1 / 2 ^ 52) (1 / 2) = 1 / 2 - 1 / 2 ^ 52 := by
    unfold fsub
    rw [binary64_eq_of_near _ (-2) 9007199254740988 (by norm_num) (by norm_num)
      (by norm_num) (by norm_num [abs_lt])]
    norm_num
  have hm : fmul (1 / 2 - 1 / 2 ^ 52) 2 = 1 - 1 / 2 ^ 51 := by
    unfold fmul
    rw [binary64_eq_of_near _ (-1) 9007199254740988 (by norm_num) (by norm_num)
      (by norm_num) (by norm_num [abs_lt])]
    norm_num
  have ha : fadd 21 (1 - 1 / 2 ^ 51) = 22 := by
    unfold fadd
    rw [binary64_eq_of_near _ 4 6192449487634432 (by norm_num) (by norm_num)
      (by norm_num) (by norm_num [abs_lt])]
    norm_num
  unfold Binary64.bonusStage addIf
  rw [hfl, hth, hef, hfu, hs, hm]
  simp only [if_true]
  have e1 : fadd 10 4 = 14 := by
    unfold fadd
    rw [show (10 : ℚ) + 4 = 14 by norm_num, h14]
  have e2 : fadd 14 2 = 16 := by
    unfold fadd
    rw [show (14 : ℚ) + 2 = 16 by norm_num, h16]
  have e3 : fadd 16 3 = 19 := by
    unfold fadd
    rw [show (16 : ℚ) + 3 = 19 by norm_num, h19]
  have e4 : fadd 19 2 = 21 := by
    unfold fadd
    rw [show (19 : ℚ) + 2 = 21 by norm_num, h21]
  rw [e1, e2, e3, e4, ha]

/-- C29, as stated, fails: on round 2 the message below takes the letter branch with
greeting, thanks, flattery, effort and future all present, and with the draw 1 - 2^-52, a
binary64 number of [0,1), the sum 21 + (1 - 2^-51) is rounded to the delta 22, which is not
below 22. -/
theorem delta_reaches_twenty_two :
    ((0 : ℚ) ≤ 1 - 1 / 2 ^ 52 ∧ (1 - 1 / 2 ^ 52 : ℚ) < 1) ∧
    binary64 (1 - 1 / 2 ^ 52) = 1 - 1 / 2 ^ 52 ∧
    (Binary64.getProfessorResponse ⟨2, 40, some ⟨"Ann", 3, 50⟩, "en", false, []⟩
      "Hello professor, thank you! I admire you. I worked hard and want a master degree. Could you write a letter?"
      (1 - 1 / 2 ^ 52) (1 / 2)).delta = 22 ∧
    ¬ (Binary64.getProfessorResponse ⟨2, 40, some ⟨"Ann", 3, 50⟩, "en", false, []⟩
      "Hello professor, thank you! I admire you. I worked hard and want a master degree. Could you write a letter?"
      (1 - 1 / 2 ^ 52) (1 / 2)).delta < 22 := by
  have hT : testAny attendancePhrases (toLowerCase
      "Hello professor, thank you! I admire you. I worked hard and want a master degree. Could you write a letter?".data) = false := by
    decide
  have hg : gpaMatch (toLowerCase
      "Hello professor, thank you! I admire you. I worked hard and want a master degree. Could you write a letter?".data) = none := by
    decide
  have hly := binary64_detectLying_eq_false
    "Hello professor, thank you! I admire you. I worked hard and want a master degree. Could you write a letter?"
    hT hg (some ⟨"Ann", 3, 50⟩)
  have e1 : (analyzeMessageContent
      "Hello professor, thank you! I admire you. I worked hard and want a master degree. Could you write a letter?").mentionLetter = true := by
    decide
  have e2 : (analyzeMessageContent
      "Hello professor, thank you! I admire you. I worked hard and want a master degree. Could you write a letter?").greeting = true := by
    decide
  have e3 : (analyzeMessageContent
      "Hello professor, thank you! I admire you. I worked hard and want a master degree. Could you write a letter?").thanks = true := by
    decide
  have e4 : (analyzeMessageContent
      "Hello professor, thank you! I admire you. I worked hard and want a master degree. Could you write a letter?").flattery = true := by
    decide
  have e5 : (analyzeMessageContent
      "Hello professor, thank you! I admire you. I worked hard and want a master degree. Could you write a letter?").effort = true := by
    decide
  have e6 : (analyzeMessageContent
      "Hello professor, thank you! I admire you. I worked hard and want a master degree. Could you write a letter?").future = true := by
    decide
  have hd : (Binary64.getProfessorResponse ⟨2, 40, some ⟨"Ann", 3, 50⟩, "en", false, []⟩
      "Hello professor, thank you! I admire you. I worked hard and want a master degree. Could you write a letter?"
      (1 - 1 / 2 ^ 52) (1 / 2)).delta = 22 := by
    rw [binary64_getProfessorResponse_topic _ _ _ _ (Or.inl (by decide)) (by decide) hly,
      topicBranch_delta, e1, e2, e3]
    simp only [if_true]
    rw [show (6 : ℚ) + 2 + 2 = 10 by norm_num]
    exact binary64_all_boosts_top_draw _ e4 e3 e5 e6
  refine ⟨by constructor <;> norm_num, ?_, hd, ?_⟩
  · rw [binary64_eq_of_near _ (-1) 9007199254740990 (by norm_num) (by norm_num)
      (by norm_num) (by norm_num [abs_lt])]
    norm_num
  · rw [hd]
    norm_num

/-- C29, amended: in binary64 arithmetic and for draws in [0,1), a message costs more than 3
points only if a lie is detected, and no message earns more than 22: if `detectLying` is
false the delta is at least -3, and in every case it is at most 22. -/
theorem binary64_delta_extremes (st : GameState) (userText : String) (r1 r2 : ℚ)
    (h1 : 0 ≤ r1 ∧ r1 < 1) (h2 : 0 ≤ r2 ∧ r2 < 1) :
    (Binary64.detectLying userText st.studentConfig = false →
      -3 ≤ (Binary64.getProfessorResponse st userText r1 r2).delta) ∧
    ((Binary64.getProfessorResponse st userText r1 r2).delta < -3 →
      Binary64.detectLying userText st.studentConfig = true) ∧
    (Binary64.getProfessorResponse st userText r1 r2).delta ≤ 22 := by
  have hb := binary64_bonusStage_bounds (analyzeMessageContent userText) r1
    (topicBranch st.language (analyzeMessageContent userText)).delta h1
    (topicBranch_delta_bounds st.language (analyzeMessageContent userText))
  have hl := binary64_lyingBranch_delta_bounds st.language r1 r2 h2
  have hi := introductionBranch_delta st.language (analyzeMessageContent userText)
  have hlow : Binary64.detectLying userText st.studentConfig = false →
      -3 ≤ (Binary64.getProfessorResponse st userText r1 r2).delta := by
    intro hly
    unfold Binary64.getProfessorResponse
    simp only [hly, Bool.false_eq_true, if_false]
    split_ifs
    · rw [hi]
      split_ifs <;> norm_num
    · norm_num [nonsenseBranch]
    · exact hb.1
  refine ⟨hlow, ?_, ?_⟩
  · intro hlt
    cases hly : Binary64.detectLying userText st.studentConfig with
    | true => rfl
    | false => exact absurd (hlow hly) (not_le.mpr hlt)
  · unfold Binary64.getProfessorResponse
    simp only
    split_ifs
    · rw [hi]
      split_ifs <;> norm_num
    · norm_num [nonsenseBranch]
    · linarith [hl.2]
    · exact hb.2

theorem binary64_delta_extremes_witness :
    ((0 : ℚ) ≤ 0 ∧ (0 : ℚ) < 1) ∧ ((0 : ℚ) ≤ 1 / 2 ∧ (1 / 2 : ℚ) < 1) ∧
    Binary64.detectLying "sorry, the deadline is tomorrow" (some ⟨"Ann", 3, 50⟩) = false ∧
    -3 ≤ (Binary64.getProfessorResponse ⟨2, 40, some ⟨"Ann", 3, 50⟩, "en", false, []⟩
      "sorry, the deadline is tomorrow" 0 (1 / 2)).delta :=
  ⟨by constructor <;> norm_num, by constructor <;> norm_num,
    binary64_detectLying_eq_false _ (by decide) (by decide) _,
    (binary64_delta_extremes ⟨2, 40, some ⟨"Ann", 3, 50⟩, "en", false, []⟩
      "sorry, the deadline is tomorrow" 0 (1 / 2) (by constructor <;> norm_num)
      (by constructor <;> norm_num)).1
      (binary64_detectLying_eq_false _ (by decide) (by decide) _)⟩

theorem never_miss_example_delta :
    (getProfessorResponse ⟨2, 40, some ⟨"Ann", 3, 50⟩, "en", false, []⟩
      "I never miss a class" (1 / 4) (1 / 4)).delta = -(39 / 2) := by
  have hly : detectLying "I never miss a class" (some ⟨"Ann", 3, 50⟩) = true := by
    unfold detectLying
    simp only [show testAny attendancePhrases (toLowerCase "I never miss a class".data) = true
      by decide]
    norm_num
  rw [getProfessorResponse_delta_eq]
  rw [if_neg (by decide), if_neg (by decide), if_pos hly]
  norm_num

theorem binary64_fixed_branches (st : GameState) (userText : String) (r1 r2 : ℚ)
    (h : (st.currentRound = 1 ∧ (analyzeMessageContent userText).mentionLetter = false) ∨
      (analyzeMessageContent userText).nonsense = true ∨ jsLength (trim userText.data) = 0) :
    Binary64.getProfessorResponse st userText r1 r2 = getProfessorResponse st userText r1 r2 := by
  unfold Binary64.getProfessorResponse getProfessorResponse
  simp only
  by_cases hi : st.currentRound = 1 ∧ (analyzeMessageContent userText).mentionLetter = false
  · rw [if_pos hi, if_pos hi]
  · have hn : ((analyzeMessageContent userText).nonsense ||
        jsLength (trim userText.data) == 0) = true := by
      rcases h with h | h | h
      · exact absurd h hi
      · rw [h, Bool.true_or]
      · rw [h]
        simp
    rw [if_neg hi, if_neg hi, hn]
    rfl

/-- C15, amended: the delta of `getProfessorResponse` is an integer in the introduction
branch and in the nonsense branch, the two branches that add no `Math.random()` term (there
binary64 and exact arithmetic give the same result), and an integer favorability stays an
integer after such a turn.  In the lying branch, as in branches 4-8, the random term is added
unrounded and the delta is not always an integer: on round 2, "I never miss a class" against
the attendance 50 gets -19.5 with the draws 0.25. -/
theorem delta_integer_without_draw (st : GameState) (userText : String) (r1 r2 : ℚ)
    (h : (st.currentRound = 1 ∧ (analyzeMessageContent userText).mentionLetter = false) ∨
      (analyzeMessageContent userText).nonsense = true ∨ jsLength (trim userText.data) = 0) :
    IsInteger (getProfessorResponse st userText r1 r2).delta ∧
    (IsInteger st.favorability →
      IsInteger (updateFavorability st
        (getProfessorResponse st userText r1 r2).delta).favorability) ∧
    Binary64.getProfessorResponse st userText r1 r2 = getProfessorResponse st userText r1 r2 ∧
    ¬ IsInteger (getProfessorResponse ⟨2, 40, some ⟨"Ann", 3, 50⟩, "en", false, []⟩
      "I never miss a class" (1 / 4) (1 / 4)).delta := by
  have hint : IsInteger (getProfessorResponse st userText r1 r2).delta := by
    rw [getProfessorResponse_delta_eq]
    by_cases hi : st.currentRound = 1 ∧ (analyzeMessageContent userText).mentionLetter = false
    · rw [if_pos hi]
      refine ⟨(if (analyzeMessageContent userText).greeting then 5 else 2) +
        (if (analyzeMessageContent userText).thanks then 3 else 0), ?_⟩
      push_cast
      rfl
    · have hn : (analyzeMessageContent userText).nonsense = true ∨
          jsLength (trim userText.data) = 0 := by
        rcases h with h | h | h
        · exact absurd h hi
        · exact Or.inl h
        · exact Or.inr h
      rw [if_neg hi, if_pos hn]
      exact ⟨-3, by norm_num⟩
  refine ⟨hint, ?_, binary64_fixed_branches st userText r1 r2 h, ?_⟩
  · rintro ⟨n, hn⟩
    obtain ⟨k, hk⟩ := hint
    unfold updateFavorability
    simp only
    rw [hn, hk]
    have := isInteger_clamp (n + k) 0 100 (by norm_num)
    push_cast at this
    exact this
  · rw [never_miss_example_delta]
    have := not_isInteger_half (-20)
    norm_num at this
    exact this

theorem delta_integer_without_draw_witness :
    ((analyzeMessageContent "ok").nonsense = true) ∧
    IsInteger (getProfessorResponse ⟨2, 40, some ⟨"Ann", 3, 50⟩, "en", false, []⟩
      "ok" (1 / 4) (1 / 4)).delta :=
  ⟨by decide,
    (delta_integer_without_draw ⟨2, 40, some ⟨"Ann", 3, 50⟩, "en", false, []⟩ "ok" (1 / 4)
      (1 / 4) (Or.inr (Or.inl (by decide)))).1⟩

end OfficeHour
